import Mathlib

/-! The Fitshow treadmill protocol engine (`src/src/fitshowtreadmill.cpp`).

A shallow embedding of the frame codec, the command queue, the periodic tick
(`update`) and the inbound decoder (`characteristicChanged`) of the class
`fitshowtreadmill`, followed by theorems about them.

Conventions of the embedding:

* a byte (`uint8_t`) is a `Nat`; a byte buffer is a `List Nat`;
* a C++ pair `(const uint8_t *p, uint8_t len)` is the list of the `len` bytes it
  denotes (so `len = list.length`, which is below 256 for every real call);
* a `double` is a rational (`ℚ`). The two arithmetic operations of
  `forceSpeedOrIncline` (`requestSpeed *= 10.0` and `requestSpeed + 0.5`) are rounded to
  the nearest binary64 value by `binary64`; the other operations on doubles are exact in
  the embedding. Infinities and NaN are not modelled;
* a read outside a buffer makes the embedded function return `none`; the bytes
  `p[i]`, `p[i+1]`, ... that a block reads are the first elements of `p.drop i`.
-/

namespace Fitshow

/-! ## Wire constants -/

/-- The protocol constants `FITSHOW_*` used by `fitshowtreadmill.cpp`. Their values are
fixed in the header `fitshowtreadmill.h`, which the source file only includes, so they are
parameters of the embedding. All of them except the 32-bit `FITSHOW_TREADMILL_SPORT_ID`
are byte values: they are stored into and compared with `uint8_t` cells. -/
structure Wire where
  FITSHOW_PKT_HEADER : Nat
  FITSHOW_PKT_FOOTER : Nat
  FITSHOW_SYS_INFO : Nat
  FITSHOW_INFO_UNKNOWN : Nat
  FITSHOW_INFO_MODEL : Nat
  FITSHOW_INFO_DATE : Nat
  FITSHOW_INFO_SPEED : Nat
  FITSHOW_INFO_INCLINE : Nat
  FITSHOW_INFO_TOTAL : Nat
  FITSHOW_SYS_STATUS : Nat
  FITSHOW_STATUS_NORMAL : Nat
  FITSHOW_STATUS_END : Nat
  FITSHOW_STATUS_START : Nat
  FITSHOW_STATUS_RUNNING : Nat
  FITSHOW_STATUS_STOP : Nat
  FITSHOW_STATUS_ERROR : Nat
  FITSHOW_STATUS_SAFETY : Nat
  FITSHOW_STATUS_STUDY : Nat
  FITSHOW_STATUS_PAUSED : Nat
  FITSHOW_SYS_DATA : Nat
  FITSHOW_DATA_SPORT : Nat
  FITSHOW_DATA_INFO : Nat
  FITSHOW_SYS_CONTROL : Nat
  FITSHOW_CONTROL_USER : Nat
  FITSHOW_CONTROL_READY_OR_START : Nat
  FITSHOW_CONTROL_TARGET_OR_RUN : Nat
  FITSHOW_CONTROL_STOP : Nat
  FITSHOW_CONTROL_PAUSE : Nat
  FITSHOW_SYS_MODE_NORMAL : Nat
  FITSHOW_SYS_MODE_TIMER : Nat
  FITSHOW_SYS_MODE_DISTANCE : Nat
  FITSHOW_SYS_MODE_CALORIE : Nat
  FITSHOW_SYS_MODE_PROGRAMS : Nat
  FITSHOW_TREADMILL_SPORT_ID : Nat
  header_byte : FITSHOW_PKT_HEADER < 256
  footer_byte : FITSHOW_PKT_FOOTER < 256
  status_byte : FITSHOW_SYS_STATUS < 256

/-- A concrete assignment of the wire constants, used to evaluate the embedding on
concrete inputs. No theorem stated for every `Wire` depends on these values. -/
def sampleWire : Wire where
  FITSHOW_PKT_HEADER := 2
  FITSHOW_PKT_FOOTER := 3
  FITSHOW_SYS_INFO := 80
  FITSHOW_INFO_UNKNOWN := 0
  FITSHOW_INFO_MODEL := 0
  FITSHOW_INFO_DATE := 1
  FITSHOW_INFO_SPEED := 2
  FITSHOW_INFO_INCLINE := 3
  FITSHOW_INFO_TOTAL := 4
  FITSHOW_SYS_STATUS := 81
  FITSHOW_STATUS_NORMAL := 0
  FITSHOW_STATUS_END := 1
  FITSHOW_STATUS_START := 2
  FITSHOW_STATUS_RUNNING := 3
  FITSHOW_STATUS_STOP := 4
  FITSHOW_STATUS_ERROR := 5
  FITSHOW_STATUS_SAFETY := 6
  FITSHOW_STATUS_STUDY := 7
  FITSHOW_STATUS_PAUSED := 10
  FITSHOW_SYS_DATA := 82
  FITSHOW_DATA_SPORT := 0
  FITSHOW_DATA_INFO := 1
  FITSHOW_SYS_CONTROL := 83
  FITSHOW_CONTROL_USER := 0
  FITSHOW_CONTROL_READY_OR_START := 1
  FITSHOW_CONTROL_TARGET_OR_RUN := 2
  FITSHOW_CONTROL_STOP := 3
  FITSHOW_CONTROL_PAUSE := 6
  FITSHOW_SYS_MODE_NORMAL := 0
  FITSHOW_SYS_MODE_TIMER := 1
  FITSHOW_SYS_MODE_DISTANCE := 2
  FITSHOW_SYS_MODE_CALORIE := 3
  FITSHOW_SYS_MODE_PROGRAMS := 4
  FITSHOW_TREADMILL_SPORT_ID := 0
  header_byte := by decide
  footer_byte := by decide
  status_byte := by decide

/-- The macro `BLE_SERIALOUTPUT_MAXSIZE` (line 14). -/
def BLE_SERIALOUTPUT_MAXSIZE : Nat := 25

/-! ## Frame codec -/

/-- The `while (true)` loop of `checkIncomingPacket` (lines 86-92): starting from the
accumulator `n4` and the index `n5`, XOR the bytes `data[n5]` while `n5 < n6`. The first
argument bounds the number of iterations; the caller passes `data_len`, which is never
exhausted because the loop runs `n6 - 1 < data_len` times. -/
def checksumLoop (data : List Nat) (n6 : Nat) : Nat → Nat → Nat → Nat
  | 0, n4, _ => n4
  | fuel + 1, n4, n5 =>
    if n5 ≥ n6 then n4
    else checksumLoop data n6 fuel (n4 ^^^ data.getD n5 0) (n5 + 1)

/-- `fitshowtreadmill::checkIncomingPacket` (lines 80-96). The buffer `(data, data_len)`
is the list `data`; every index read is below `data_len` because of the guard
`data_len >= 4`. -/
def checkIncomingPacket (K : Wire) (data : List Nat) : Bool :=
  let data_len := data.length
  if data_len ≥ 4 ∧ data.getD 0 0 = K.FITSHOW_PKT_HEADER ∧
      data.getD (data_len - 1) 0 = K.FITSHOW_PKT_FOOTER then
    let n4 := 0
    let n5 := 1
    let n6 := data_len - 2
    checksumLoop data n6 data_len n4 n5 == data.getD n6 0
  else
    false

/-- The `while (i < size)` loop of `writePayload` (lines 105-108): each payload byte is
copied behind what `array2` already holds and XORed into the checksum `n`. -/
def writePayloadLoop : List Nat → List Nat × Nat → List Nat × Nat
  | [], acc => acc
  | b :: rest, (array2, n) => writePayloadLoop rest (array2 ++ [b], n ^^^ b)

/-- `fitshowtreadmill::writePayload` (lines 98-113). The result is the returned `bool`
together with the frames handed to `writeCharacteristic` (none when it returns `false`). -/
def writePayload (K : Wire) (array : List Nat) : Bool × List (List Nat) :=
  let size := array.length
  if size + 3 > BLE_SERIALOUTPUT_MAXSIZE then
    (false, [])
  else
    let r := writePayloadLoop array ([K.FITSHOW_PKT_HEADER], 0)
    (true, [r.1 ++ [r.2, K.FITSHOW_PKT_FOOTER]])

/-- The payload view that `characteristicChanged` takes of a frame (lines 305-310):
`array = full_array + 1` and `len = full_len - 3`, i.e. the frame without its header
byte, its checksum byte and its footer byte. -/
def payloadOf (frame : List Nat) : List Nat :=
  (frame.drop 1).take (frame.length - 3)

/-- The checksum in the words of the specification: the XOR of all payload bytes,
0 for no bytes. -/
def xorChecksum : List Nat → Nat
  | [] => 0
  | b :: rest => b ^^^ xorChecksum rest

/-! ## Session state -/

/-- The labels that `scheduleWrite` stores in `debugMsgs` (its `info` argument). -/
inductive Info where
  | init_user
  | init (par : Nat)
  | init_start
  | forceSpeedOrIncline (speed incline : ℚ)
  | pause_tape
  | stop_tape
  | SendSportsData
  deriving DecidableEq

/-- The observable outputs of a tick or of a decoded frame: the frame handed to the
transport by `writeCharacteristic`, the Qt signals, and three `debug` lines: the two
diagnostics "Invalid packet" and "answer not received", and the line of the decoded
step count, which is the only place where that value goes. The other `debug` lines
repeat values that are stored in the state and are not modelled. -/
inductive Event where
  | tx (frame : List Nat)
  | disconnected
  | packetReceived
  | speedChanged (speed : ℚ)
  | inclinationChanged (grade percentage : ℚ)
  | tapeStarted
  | invalidPacket
  | answerNotReceived (cmd par : Nat) (info : Info)
  | debugStepCount (step_count : Nat)
  deriving DecidableEq

/-- What a call reads from outside the object: the state of the BLE controller, the
clock and the persisted settings. -/
structure Env where
  /-- The test `m_control && m_control->state() != UnconnectedState` (line 138). -/
  controllerUp : Bool
  /-- The link part of the condition of lines 146-148: valid device, controller in
  `DiscoveredState`, service and both characteristics valid. -/
  linkDiscovered : Bool
  /-- The clock in milliseconds since the epoch. -/
  nowMSecs : Int
  year : Int
  month : Nat
  day : Nat
  hour : Nat
  minute : Nat
  second : Nat
  /-- The setting `fitshow_user_id`. -/
  fitshow_user_id : Int
  /-- The setting `weight`. -/
  weight : ℚ
  /-- Whether the setting `heart_rate_belt_name` starts with "Disabled". -/
  heartRateBeltDisabled : Bool

/-- The member variables of `fitshowtreadmill` (and of its base classes) that the
embedded functions read or write. -/
structure State where
  anyrun : Bool
  truetimer : Bool
  initRequest : Bool
  initDone : Bool
  bufferWrite : List Nat
  debugMsgs : List Info
  retrySend : Nat
  requestSpeed : ℚ
  requestInclination : ℚ
  requestStart : Int
  requestStop : Int
  paused : Bool
  Speed : ℚ
  Inclination : ℚ
  KCal : ℚ
  Distance : ℚ
  Heart : ℚ
  elapsed : ℚ
  lastSpeed : ℚ
  lastInclination : ℚ
  lastStart : Int
  lastStop : Int
  DistanceCalculated : ℚ
  firstCharacteristicChanged : Bool
  lastTimeCharacteristicChanged : Int
  lastPacket : List Nat
  MAX_SPEED : Nat
  MIN_SPEED : Nat
  MAX_INCLINE : Nat
  MIN_INCLINE : Nat
  UNIT : Nat
  IS_HRC : Bool
  IS_PAUSE : Bool
  COUNTDOWN_VALUE : Nat
  DEVICE_ID_NAME : Option (Nat × Nat)
  TOTAL : Int
  FACTORY_DATE : Option (Nat × Nat × Nat)
  SYS_CONTROL_CMD : Nat
  CURRENT_STATUS : Nat
  IS_RUNNING : Bool
  IS_STATUS_STUDY : Bool
  IS_STATUS_ERRO : Bool
  IS_STATUS_SAFETY : Bool
  ERRNO : Nat
  SPORT_ID : Nat
  USER_ID : Nat
  RUN_WAY : Nat
  INDOORRUN_MODE : Nat
  INDOORRUN_TIME_DATA : Nat
  INDOORRUN_DISTANCE_DATA : Nat
  INDOORRUN_CALORIE_DATA : Nat
  INDOORRUN_PARAM_NUM : Nat

/-- The C++ conversion `(int)x` of a `double`: truncation towards zero. -/
def truncQ (x : ℚ) : Int :=
  if 0 ≤ x then ⌊x⌋ else -⌊-x⌋

/-- The C++ conversion `(uint8_t)x` of a `double`: truncation towards zero, kept in
one byte. -/
def castUInt8 (x : ℚ) : Nat :=
  (truncQ x % 256).toNat

/-- Rounding to the nearest integer, ties to the even one: the rounding of a binary64
significand. -/
def roundNearestEven (x : ℚ) : ℤ :=
  if x - ⌊x⌋ < 1 / 2 then ⌊x⌋
  else if 1 / 2 < x - ⌊x⌋ then ⌊x⌋ + 1
  else if ⌊x⌋ % 2 = 0 then ⌊x⌋
  else ⌊x⌋ + 1

/-- The binary64 exponent of a nonzero value: the greatest `e` with `2 ^ e ≤ |x|`, and
-1022 for the subnormal values below `2 ^ (-1022)`. -/
def binary64Exponent (x : ℚ) : ℤ :=
  max (Int.log 2 |x|) (-1022)

/-- The result of a `double` operation whose exact result is `x` (IEEE 754 binary64,
round to nearest, ties to even): `x` rounded to a multiple of `2 ^ (e - 52)`, where `e`
is its exponent, so that the significand has 53 bits. A result beyond the largest
finite `double` is not turned into an infinity. -/
def binary64 (x : ℚ) : ℚ :=
  if x = 0 then 0
  else
    (roundNearestEven (x / 2 ^ (binary64Exponent x - 52)) : ℚ) * 2 ^ (binary64Exponent x - 52)

/-- A read `a[i]` of a buffer: `none` outside the buffer. -/
def rd (a : List Nat) (i : Nat) : Option Nat :=
  a[i]?

/-! ## Command queue -/

/-- `fitshowtreadmill::scheduleWrite` (lines 55-59): append the length byte, the
payload and the label. -/
def scheduleWrite (s : State) (data : List Nat) (info : Info) : State :=
  { s with
    bufferWrite := s.bufferWrite ++ data.length :: data
    debugMsgs := s.debugMsgs ++ [info] }

/-- `fitshowtreadmill::removeFromBuffer` (lines 258-266). `QByteArray::remove(0, n)`
removes the first `n` bytes, or all of them when there are fewer. -/
def removeFromBuffer (s : State) : State :=
  { s with
    bufferWrite :=
      match s.bufferWrite with
      | [] => []
      | n :: rest => (n :: rest).drop (n + 1)
    debugMsgs :=
      match s.debugMsgs with
      | [] => []
      | _ :: rest => rest
    retrySend := 0 }

/-- `fitshowtreadmill::sendSportData` (lines 277-282). -/
def sendSportData (K : Wire) (s : State) : State :=
  if !s.anyrun then
    scheduleWrite s [K.FITSHOW_SYS_DATA, K.FITSHOW_DATA_SPORT] Info.SendSportsData
  else s

/-- Lines 118-122 of `forceSpeedOrIncline`: the requested speed, already in tenths, kept
between `MIN_SPEED` and `MAX_SPEED`. -/
def clampSpeed (s : State) (requestSpeed : ℚ) : ℚ :=
  if requestSpeed ≥ s.MAX_SPEED then (s.MAX_SPEED : ℚ)
  else if requestSpeed ≤ s.MIN_SPEED then (s.MIN_SPEED : ℚ)
  else requestSpeed

/-- Lines 123-127 of `forceSpeedOrIncline`: the requested incline kept between
`MIN_INCLINE` and `MAX_INCLINE`. -/
def clampIncline (s : State) (requestIncline : ℚ) : ℚ :=
  if requestIncline ≥ s.MAX_INCLINE then (s.MAX_INCLINE : ℚ)
  else if requestIncline ≤ s.MIN_INCLINE then (s.MIN_INCLINE : ℚ)
  else requestIncline

/-- `fitshowtreadmill::forceSpeedOrIncline` (lines 115-135). The product of line 117 and
the sum of line 129 are `double` operations, rounded by `binary64`; the comparisons and
the assignments of the limits are exact. -/
def forceSpeedOrIncline (K : Wire) (s : State) (requestSpeed requestIncline : ℚ) : State :=
  if s.MAX_SPEED > 0 then
    let requestSpeed := binary64 (requestSpeed * 10)
    let requestSpeed := clampSpeed s requestSpeed
    let requestIncline := clampIncline s requestIncline
    scheduleWrite s
      [K.FITSHOW_SYS_CONTROL, K.FITSHOW_CONTROL_TARGET_OR_RUN,
        castUInt8 (binary64 (requestSpeed + 1 / 2)), castUInt8 requestIncline]
      (Info.forceSpeedOrIncline requestSpeed requestIncline)
  else s

/-- The `for` loop of `btinit` (lines 608-615) over the remaining entries of
`initInfos`; `par` is the current content of `initDataStart1[1]`. -/
def btinitLoop (K : Wire) : List Nat → Nat → State → State
  | [], _, s => s
  | info :: rest, par, s =>
    let par := if !s.anyrun then info else par
    let s1 := scheduleWrite s [K.FITSHOW_SYS_INFO, par] (Info.init par)
    if s.anyrun then s1 else btinitLoop K rest par s1

/-- `fitshowtreadmill::btinit` (lines 568-627). -/
def btinit (K : Wire) (env : Env) (s : State) (startTape : Bool) : State :=
  let initInfos :=
    [K.FITSHOW_INFO_SPEED, K.FITSHOW_INFO_INCLINE, K.FITSHOW_INFO_TOTAL, K.FITSHOW_INFO_DATE]
  let initDataStart0 :=
    [K.FITSHOW_SYS_INFO, K.FITSHOW_INFO_MODEL, ((env.year - 2000) % 256).toNat,
      env.month % 256, env.day % 256, env.hour % 256, env.minute % 256, env.second % 256]
  let startTape1 :=
    [K.FITSHOW_SYS_CONTROL, K.FITSHOW_CONTROL_READY_OR_START,
      (K.FITSHOW_TREADMILL_SPORT_ID >>> 0) &&& 0xFF,
      (K.FITSHOW_TREADMILL_SPORT_ID >>> 8) &&& 0xFF,
      (K.FITSHOW_TREADMILL_SPORT_ID >>> 16) &&& 0xFF,
      (K.FITSHOW_TREADMILL_SPORT_ID >>> 24) &&& 0xFF,
      K.FITSHOW_SYS_MODE_NORMAL, 0x00, 0x00, 0x00]
  let user_id := env.fitshow_user_id
  let weight := castUInt8 (env.weight + 1 / 2)
  let initUserData :=
    [K.FITSHOW_SYS_CONTROL, K.FITSHOW_CONTROL_USER,
      ((user_id >>> 0) % 256).toNat, ((user_id >>> 8) % 256).toNat, 110, 30, weight, 170]
  let s1 :=
    scheduleWrite s (initUserData.take (initUserData.length - (if !s.anyrun then 1 else 0)))
      Info.init_user
  let s2 :=
    if !s.anyrun then scheduleWrite s1 initDataStart0 (Info.init K.FITSHOW_INFO_MODEL)
    else s1
  let s3 := btinitLoop K initInfos K.FITSHOW_INFO_UNKNOWN s2
  let s4 :=
    if startTape then
      forceSpeedOrIncline K (scheduleWrite s3 startTape1 Info.init_start)
        s3.lastSpeed s3.lastInclination
    else s3
  { s4 with initDone := true }

/-! ## The periodic tick -/

/-- The incline step-chase of `update`, written twice in the source (lines 172-181 and
193-202): when the truncated difference to the current incline `inc` is 0 the incline
moves by one unit towards the request, otherwise it is the truncated request. The
current incline is a byte value in the program (lines 449 and 512 store the byte
`array[3]` or 0), and for such a value the chase computed in `double` and the exact one
written here give the same incline for every `double` request. -/
def chaseIncline (requestInclination inc : ℚ) : ℚ :=
  let diffInc := truncQ (requestInclination - inc)
  if diffInc = 0 then
    if requestInclination > inc then inc + 1
    else if requestInclination < inc then inc - 1
    else inc
  else (truncQ requestInclination : ℚ)

/-- Lines 167-187 of `update`: the pending speed intent. `currentSpeed()` and
`currentInclination()` are the metrics `Speed` and `Inclination`. -/
def reconcileSpeed (K : Wire) (s : State) : State :=
  if s.requestSpeed ≠ -1 then
    let s1 :=
      if s.requestSpeed ≠ s.Speed then
        let inc := s.Inclination
        if s.requestInclination ≠ -1 then
          let inc := chaseIncline s.requestInclination inc
          forceSpeedOrIncline K { s with requestInclination := -1 } s.requestSpeed inc
        else
          forceSpeedOrIncline K s s.requestSpeed inc
      else s
    { s1 with requestSpeed := -1 }
  else s

/-- Lines 189-211 of `update`: the pending incline intent. -/
def reconcileInclination (K : Wire) (s : State) : State :=
  if s.requestInclination ≠ -1 then
    let inc := s.Inclination
    let s1 :=
      if s.requestInclination ≠ inc then
        let inc := chaseIncline s.requestInclination inc
        let speed := s.Speed
        if s.requestSpeed ≠ -1 then
          forceSpeedOrIncline K { s with requestSpeed := -1 } s.requestSpeed inc
        else
          forceSpeedOrIncline K s speed inc
      else s
    { s1 with requestInclination := -1 }
  else s

/-- Lines 212-221 of `update`: the pending start intent. -/
def reconcileStart (K : Wire) (env : Env) (s : State) : State × List Event :=
  if s.requestStart ≠ -1 then
    let s1 := if s.lastSpeed = 0 then { s with lastSpeed := 1 / 2 } else s
    let s2 := btinit K env s1 true
    ({ s2 with lastStart := env.nowMSecs, requestStart := -1 }, [Event.tapeStarted])
  else (s, [])

/-- Lines 222-235 of `update`: the pending stop-or-pause intent. -/
def reconcileStop (K : Wire) (env : Env) (s : State) : State :=
  if s.requestStop ≠ -1 then
    let s1 :=
      if s.paused then
        scheduleWrite { s with lastStop := env.nowMSecs }
          [K.FITSHOW_SYS_CONTROL, K.FITSHOW_CONTROL_PAUSE] Info.pause_tape
      else
        scheduleWrite { s with lastStop := env.nowMSecs }
          [K.FITSHOW_SYS_CONTROL, K.FITSHOW_CONTROL_STOP] Info.stop_tape
    { s1 with requestStop := -1 }
  else s

/-- Lines 167-235 of `update`: the four intents in their order. -/
def reconcile (K : Wire) (env : Env) (s : State) : State × List Event :=
  let s1 := reconcileSpeed K s
  let s2 := reconcileInclination K s1
  let r := reconcileStart K env s2
  (reconcileStop K env r.1, r.2)

/-- Lines 237-244 of `update`: retry exhaustion. The diagnostic reads `bufferWrite.at(1)`,
`bufferWrite.at(2)` and `debugMsgs.at(0)`. -/
def retryExhaustion (s : State) : Option (State × List Event) :=
  if s.retrySend ≥ 6 then do
    let c ← rd s.bufferWrite 1
    let p ← rd s.bufferWrite 2
    let info ← s.debugMsgs[0]?
    pure (removeFromBuffer s, [Event.answerNotReceived c p info])
  else
    pure (s, [])

/-- The buffer `(buf + off, len)`: `none` when it is not inside `buf`. -/
def slice (buf : List Nat) (off len : Nat) : Option (List Nat) :=
  if off + len ≤ buf.length then some ((buf.drop off).take len) else none

/-- Lines 245-254 of `update`: transmission of the head command on odd retry counts, or
of the status poll when the queue is empty. -/
def transmitStep (K : Wire) (s : State) : Option (State × List Event) :=
  if s.bufferWrite ≠ [] then
    let s1 := { s with retrySend := s.retrySend + 1 }
    if s1.retrySend % 2 ≠ 0 then do
      let size ← rd s1.bufferWrite 0
      let write_pld ← slice s1.bufferWrite 1 size
      let _ ← s1.debugMsgs[0]?
      pure (s1, (writePayload K write_pld).2.map Event.tx)
    else
      pure (s1, [])
  else
    let status := K.FITSHOW_SYS_STATUS
    pure (s, (writePayload K [status]).2.map Event.tx)

/-- `fitshowtreadmill::update` (lines 137-256). The creation of the virtual treadmill
(lines 151-160) and the base-class call `update_metrics` (line 165) act on objects
outside `State` and are left out. -/
def update (K : Wire) (env : Env) (s : State) : Option (State × List Event) :=
  if !env.controllerUp then
    some (s, [Event.disconnected])
  else if s.initRequest then
    let s1 := { s with initRequest := false }
    some (btinit K env s1 (decide (s1.lastSpeed > 0)), [])
  else if env.linkDiscovered && s.initDone then do
    let r1 := reconcile K env s
    let r2 ← retryExhaustion r1.1
    let r3 ← transmitStep K r2.1
    pure (r3.1, r1.2 ++ r2.2 ++ r3.2)
  else
    some (s, [])

/-! ## The inbound decoder -/

/-- The acknowledgment test of line 311:
`cmd != FITSHOW_SYS_STATUS && !bufferWrite.isEmpty() && *array_expected == cmd &&
*(array_expected + 1) == par`, with `array_expected = bufferWrite.constData() + 1`
and the short-circuit order of `&&`. -/
def ackMatches (K : Wire) (s : State) (cmd par : Nat) : Option Bool :=
  if cmd ≠ K.FITSHOW_SYS_STATUS ∧ s.bufferWrite ≠ [] then
    match rd s.bufferWrite 1 with
    | some e0 =>
      if e0 = cmd then
        match rd s.bufferWrite 2 with
        | some e1 => some (decide (e1 = par))
        | none => none
      else some false
    | none => none
  else some false

/-- The value of an `int` expression stored as a signed 32-bit number. -/
def wrapInt32 (n : Nat) : Int :=
  let u := n % 4294967296
  if u ≥ 2147483648 then (u : Int) - 4294967296 else (u : Int)

/-- Lines 316-324 of `characteristicChanged`: `FITSHOW_INFO_SPEED`. -/
def infoSpeed (s : State) (full_array : List Nat) (full_len : Nat) : Option State :=
  if full_len > 6 then
    match full_array.drop 3 with
    | b3 :: b4 :: rest =>
      let s1 := { s with MAX_SPEED := b3, MIN_SPEED := b4 }
      if full_len > 7 then
        match rest with
        | b5 :: _ => some { s1 with UNIT := b5 }
        | [] => none
      else some s1
    | _ => none
  else some s

/-- Lines 326-333 of `characteristicChanged`: `FITSHOW_INFO_UNKNOWN`. -/
def infoUnknown (s : State) (full_array : List Nat) (full_len : Nat) : Option State :=
  if full_len ≥ 9 then
    match full_array.drop 3 with
    | b3 :: b4 :: b5 :: b6 :: b7 :: b8 :: _ =>
      some { s with
        MAX_SPEED := b3, MIN_SPEED := b4, MAX_INCLINE := b5, MIN_INCLINE := b6,
        IS_HRC := decide (b7 ≠ 0), COUNTDOWN_VALUE := b8 }
    | _ => none
  else some s

/-- Lines 335-346 of `characteristicChanged`: `FITSHOW_INFO_INCLINE`. -/
def infoIncline (s : State) (full_array : List Nat) (full_len : Nat) : Option State :=
  if full_len < 7 then
    some { s with MAX_INCLINE := 0 }
  else
    match full_array.drop 3 with
    | b3 :: b4 :: rest =>
      let s1 := { s with MAX_INCLINE := b3, MIN_INCLINE := b4 }
      if full_len > 7 then
        match rest with
        | b5 :: _ => if b5 &&& 0x2 ≠ 0x0 then some { s1 with IS_PAUSE := true } else some s1
        | [] => none
      else some s1
    | _ => none

/-- Lines 348-354 of `characteristicChanged`: `FITSHOW_INFO_MODEL`. The device name is
kept as its two numbers, the byte and the 16-bit field, not as the formatted string. -/
def infoModel (s : State) (full_array : List Nat) (full_len : Nat) : Option State :=
  if full_len > 7 then
    match full_array.drop 3 with
    | b3 :: b4 :: b5 :: _ =>
      let second := ((b5 <<< 8) ||| b4) % 65536
      some { s with DEVICE_ID_NAME := some (b3, second) }
    | _ => none
  else some s

/-- Lines 356-361 of `characteristicChanged`: `FITSHOW_INFO_TOTAL`. -/
def infoTotal (s : State) (full_array : List Nat) (full_len : Nat) : Option State :=
  if full_len > 8 then
    match full_array.drop 3 with
    | b3 :: b4 :: b5 :: b6 :: _ =>
      some { s with TOTAL := wrapInt32 (b6 <<< 24 ||| b5 <<< 16 ||| b4 <<< 8 ||| b3) }
    | _ => none
  else
    some { s with TOTAL := -1 }

/-- Lines 363-368 of `characteristicChanged`: `FITSHOW_INFO_DATE`. The date is kept as
the three arguments of the `QDate` constructor; `none` is the null date `QDate()`. -/
def infoDate (s : State) (full_array : List Nat) (full_len : Nat) : Option State :=
  if full_len > 7 then
    match full_array.drop 3 with
    | b3 :: b4 :: b5 :: _ => some { s with FACTORY_DATE := some (b3 + 2000, b4, b5) }
    | _ => none
  else
    some { s with FACTORY_DATE := none }

/-- Lines 314-369 of `characteristicChanged`: the `FITSHOW_SYS_INFO` family. -/
def decodeSysInfo (K : Wire) (s : State) (full_array : List Nat) (full_len par : Nat) :
    Option State :=
  if par = K.FITSHOW_INFO_SPEED then infoSpeed s full_array full_len
  else if par = K.FITSHOW_INFO_UNKNOWN then infoUnknown s full_array full_len
  else if par = K.FITSHOW_INFO_INCLINE then infoIncline s full_array full_len
  else if par = K.FITSHOW_INFO_MODEL then infoModel s full_array full_len
  else if par = K.FITSHOW_INFO_TOTAL then infoTotal s full_array full_len
  else if par = K.FITSHOW_INFO_DATE then infoDate s full_array full_len
  else some s

/-- Lines 370-383 of `characteristicChanged`: the `FITSHOW_SYS_CONTROL` family. The two
bytes `full_array[3]`, `full_array[4]` read after the guards only feed a `debug` line. -/
def decodeSysControl (K : Wire) (s : State) (full_array : List Nat) (full_len par : Nat) :
    Option State :=
  let s1 := { s with SYS_CONTROL_CMD := par }
  if par = K.FITSHOW_CONTROL_TARGET_OR_RUN then
    if full_len > 5 then
      match full_array.drop 3 with
      | _ :: rest =>
        if full_len > 6 then
          match rest with
          | _ :: _ => some s1
          | [] => none
        else some s1
      | [] => none
    else some s1
  else some s1

/-- Lines 395-402 of `characteristicChanged`: the running flag. -/
def telemetryFlags (K : Wire) (s : State) (par : Nat) : State :=
  if par = K.FITSHOW_STATUS_RUNNING then { s with IS_RUNNING := true }
  else
    { s with
      IS_STATUS_STUDY := false, IS_STATUS_ERRO := false, IS_STATUS_SAFETY := false,
      IS_RUNNING := false }

/-- A 16-bit field of the telemetry block (lines 407-409): of the two bytes in wire
order, the first is the high byte in anyrun mode and the low byte otherwise. -/
def field16 (anyrun : Bool) (first second : Nat) : Nat :=
  if anyrun then second ||| first <<< 8 else first ||| second <<< 8

/-- Line 406: the elapsed seconds, a `uint16_t`. -/
def elapsedOf (anyrun : Bool) (a4 a5 : Nat) : Nat :=
  (if anyrun then a4 * 60 + a5 else a4 ||| a5 <<< 8) % 65536

/-- Lines 418-422 and 437-442: the distance accumulator and the auto-stop latches. -/
def telemetryClock (env : Env) (s : State) (speed : ℚ) : State :=
  let s2 :=
    if !s.firstCharacteristicChanged then
      { s with
        DistanceCalculated :=
          s.DistanceCalculated +
            (speed / 3600) /
              (1000 / ((env.nowMSecs - s.lastTimeCharacteristicChanged : Int) : ℚ)) }
    else s
  if speed > 0 then { s2 with lastStart := 0 } else { s2 with lastStop := 0 }

/-- Lines 444-447: the public speed, written and notified only on change. -/
def telemetrySpeed (s : State) (speed : ℚ) : State × List Event :=
  if s.Speed ≠ speed then ({ s with Speed := speed }, [Event.speedChanged speed])
  else (s, [])

/-- Lines 448-451: the public incline, written and notified only on change. -/
def telemetryInclination (s : State) (incline : ℚ) : State × List Event :=
  if s.Inclination ≠ incline then
    ({ s with Inclination := incline }, [Event.inclinationChanged 0 incline])
  else (s, [])

/-- Lines 453-474: calories, elapsed time, distance and heart rate. Build without the
Android and iOS heart-rate sources (the `#else` branch of lines 457-474). -/
def telemetryMetrics (env : Env) (s : State) (kcal : ℚ) (seconds_elapsed : Nat)
    (distance heart : ℚ) : State :=
  let s6 := { s with KCal := kcal }
  let s7 := if s6.truetimer then { s6 with elapsed := (seconds_elapsed : ℚ) } else s6
  let s8 := { s7 with Distance := distance }
  if env.heartRateBeltDisabled then { s8 with Heart := heart } else s8

/-- Lines 476-485: the remembered last speed and incline, the decode clock and the
sport-data request. -/
def telemetryLast (K : Wire) (env : Env) (s : State) (par : Nat) (speed incline : ℚ) :
    State :=
  let s10 :=
    if speed > 0 then { s with lastSpeed := speed, lastInclination := incline } else s
  let s11 :=
    { s10 with
      lastTimeCharacteristicChanged := env.nowMSecs, firstCharacteristicChanged := false }
  if par ≠ K.FITSHOW_STATUS_RUNNING then sendSportData K s11 else s11

/-- Lines 413-485 of `characteristicChanged`, applied to the values decoded by lines
404-411. -/
def telemetryApply (K : Wire) (env : Env) (s1 : State) (par : Nat) (speed incline : ℚ)
    (seconds_elapsed : Nat) (distance kcal heart : ℚ) : State × List Event :=
  let incline : ℚ := if s1.MAX_INCLINE = 0 then 0 else incline
  let s3 := telemetryClock env s1 speed
  let r4 := telemetrySpeed s3 speed
  let r5 := telemetryInclination r4.1 incline
  let s9 := telemetryMetrics env r5.1 kcal seconds_elapsed distance heart
  let s12 := telemetryLast K env s9 par speed incline
  (s12, r4.2 ++ r5.2)

/-- Lines 394-486 of `characteristicChanged`: the telemetry block of a `RUNNING`, `STOP`,
`PAUSED` or `END` status frame. It reads `array[2]` to `array[12]`; the step count of
`array[10]`, `array[11]`, a `uint16_t`, only feeds the `debug` line 431. -/
def decodeTelemetry (K : Wire) (env : Env) (s : State) (array : List Nat)
    (full_len par : Nat) : Option (State × List Event) :=
  if full_len ≥ 17 then
    let s1 := telemetryFlags K s par
    match array.drop 2 with
    | a2 :: a3 :: a4 :: a5 :: a6 :: a7 :: a8 :: a9 :: a10 :: a11 :: a12 :: _ =>
      let r :=
        telemetryApply K env s1 par ((a2 : ℚ) / 10) (a3 : ℚ) (elapsedOf s.anyrun a4 a5)
          ((field16 s.anyrun a6 a7 : ℚ) / 10) (field16 s.anyrun a8 a9 : ℚ) (a12 : ℚ)
      some (r.1, Event.debugStepCount (field16 s.anyrun a10 a11 % 65536) :: r.2)
    | _ => none
  else some (s, [])

/-- Lines 387-391 of `characteristicChanged`: `FITSHOW_STATUS_START`. -/
def statusStart (s : State) (array : List Nat) (len : Nat) : Option State :=
  if len > 2 then
    match array.drop 2 with
    | a2 :: _ => some { s with COUNTDOWN_VALUE := a2 }
    | [] => none
  else some s

/-- Lines 488-506 of `characteristicChanged`: the status codes `NORMAL`, `STUDY`, `ERROR`
and `SAFETY`; any other code changes nothing here. -/
def statusOther (K : Wire) (s : State) (array : List Nat) (len par : Nat) : Option State :=
  if par = K.FITSHOW_STATUS_NORMAL then
    let t := sendSportData K s
    some
      { t with
        IS_STATUS_STUDY := false, IS_STATUS_ERRO := false, IS_STATUS_SAFETY := false,
        IS_RUNNING := false }
  else if par = K.FITSHOW_STATUS_STUDY then
    some { s with IS_STATUS_STUDY := true }
  else if par = K.FITSHOW_STATUS_ERROR then
    if len > 2 then
      match array.drop 2 with
      | a2 :: _ => some (sendSportData K { s with IS_STATUS_ERRO := true, ERRNO := a2 })
      | [] => none
    else some s
  else if par = K.FITSHOW_STATUS_SAFETY then
    some (sendSportData K { s with ERRNO := 100, IS_STATUS_SAFETY := true })
  else some s

/-- Lines 507-514 of `characteristicChanged`: outside the telemetry block the public
speed and incline are set to 0, with a notification when they were not 0. -/
def zeroSpeedIncline (s : State) : State × List Event :=
  let r2 : State × List Event :=
    if s.Speed ≠ 0 then ({ s with Speed := 0 }, [Event.speedChanged 0]) else (s, [])
  let r3 : State × List Event :=
    if r2.1.Inclination ≠ 0 then
      ({ r2.1 with Inclination := 0 }, [Event.inclinationChanged 0 0])
    else (r2.1, [])
  (r3.1, r2.2 ++ r3.2)

/-- Lines 384-515 of `characteristicChanged`: the `FITSHOW_SYS_STATUS` family. -/
def decodeSysStatus (K : Wire) (env : Env) (s : State) (array : List Nat)
    (full_len len par : Nat) : Option (State × List Event) :=
  let s0 := { s with CURRENT_STATUS := par }
  if par = K.FITSHOW_STATUS_START then
    match statusStart s0 array len with
    | some t => some (t, [])
    | none => none
  else if par = K.FITSHOW_STATUS_RUNNING ∨ par = K.FITSHOW_STATUS_STOP ∨
      par = K.FITSHOW_STATUS_PAUSED ∨ par = K.FITSHOW_STATUS_END then
    decodeTelemetry K env s0 array full_len par
  else
    match statusOther K s0 array len par with
    | some s1 => some (zeroSpeedIncline s1)
    | none => none

/-- Lines 519-538 of `characteristicChanged`: the workout-mode metadata from
`array[2]` to `array[13]`. -/
def dataInfoApply (K : Wire) (s : State) (a2 a3 a4 a5 a6 a7 a8 a9 a10 a11 a12 a13 : Nat) :
    State :=
  let s1 := { s with SPORT_ID := (a6 ||| a7 <<< 8 ||| a8 <<< 16 ||| a9 <<< 24) % 4294967296 }
  let s2 := { s1 with USER_ID := (a2 ||| a3 <<< 8 ||| a4 <<< 16 ||| a5 <<< 24) % 4294967296 }
  let s3 := { s2 with RUN_WAY := a10 }
  let indoorrun_TIME_DATA := a12 ||| a13 <<< 8
  if s3.RUN_WAY = K.FITSHOW_SYS_MODE_TIMER then
    { s3 with INDOORRUN_MODE := 2, INDOORRUN_TIME_DATA := indoorrun_TIME_DATA }
  else if s3.RUN_WAY = K.FITSHOW_SYS_MODE_DISTANCE then
    { s3 with INDOORRUN_MODE := 1, INDOORRUN_DISTANCE_DATA := indoorrun_TIME_DATA }
  else if s3.RUN_WAY = K.FITSHOW_SYS_MODE_CALORIE then
    { s3 with INDOORRUN_MODE := 3, INDOORRUN_CALORIE_DATA := indoorrun_TIME_DATA / 10 }
  else if s3.RUN_WAY = K.FITSHOW_SYS_MODE_PROGRAMS then
    { s3 with
      INDOORRUN_MODE := 4, INDOORRUN_TIME_DATA := indoorrun_TIME_DATA,
      INDOORRUN_PARAM_NUM := a11 }
  else
    { s3 with INDOORRUN_MODE := 0 }

/-- Lines 550-562 of `characteristicChanged`: the sport summary from `array[2]` to
`array[7]`. -/
def dataSportApply (s : State) (a2 a3 a4 a5 a6 a7 : Nat) : State :=
  let kcal : ℚ := ((a6 ||| a7 <<< 8 : Nat) : ℚ)
  let seconds_elapsed : Nat := (a2 ||| a3 <<< 8) % 65536
  let distance : ℚ := ((a4 ||| a5 <<< 8 : Nat) : ℚ)
  let s1 := { s with KCal := kcal }
  let s2 := if s1.truetimer then { s1 with elapsed := (seconds_elapsed : ℚ) } else s1
  { s2 with Distance := distance }

/-- Lines 516-565 of `characteristicChanged`: the `FITSHOW_SYS_DATA` family. The step
count of `array[8]`, `array[9]` in a sport summary only feeds the `debug` line 556. -/
def decodeSysData (K : Wire) (s : State) (array : List Nat) (len par : Nat) :
    Option (State × List Event) :=
  if par = K.FITSHOW_DATA_INFO then
    if len > 13 then
      match array.drop 2 with
      | a2 :: a3 :: a4 :: a5 :: a6 :: a7 :: a8 :: a9 :: a10 :: a11 :: a12 :: a13 :: _ =>
        some (dataInfoApply K s a2 a3 a4 a5 a6 a7 a8 a9 a10 a11 a12 a13, [])
      | _ => none
    else some (s, [])
  else if par = K.FITSHOW_DATA_SPORT then
    if len > 9 then
      match array.drop 2 with
      | a2 :: a3 :: a4 :: a5 :: a6 :: a7 :: a8 :: a9 :: _ =>
        some (dataSportApply s a2 a3 a4 a5 a6 a7,
          [Event.debugStepCount ((a8 ||| a9 <<< 8) % 65536)])
      | _ => none
    else some (s, [])
  else some (s, [])

/-- Lines 311-313 of `characteristicChanged`: the acknowledgment of the head command. -/
def ackStep (K : Wire) (s : State) (cmd par : Nat) : Option State :=
  match ackMatches K s cmd par with
  | some acked => some (if acked then removeFromBuffer s else s)
  | none => none

/-- Lines 314-383 of `characteristicChanged`: the first `if` chain on `cmd`. -/
def decodeFirst (K : Wire) (s : State) (full_array : List Nat) (full_len cmd par : Nat) :
    Option State :=
  if cmd = K.FITSHOW_SYS_INFO then decodeSysInfo K s full_array full_len par
  else if cmd = K.FITSHOW_SYS_CONTROL then decodeSysControl K s full_array full_len par
  else some s

/-- Lines 384-565 of `characteristicChanged`: the second `if` chain on `cmd`. -/
def decodeSecond (K : Wire) (env : Env) (s : State) (array : List Nat)
    (full_len len cmd par : Nat) : Option (State × List Event) :=
  if cmd = K.FITSHOW_SYS_STATUS then decodeSysStatus K env s array full_len len par
  else if cmd = K.FITSHOW_SYS_DATA then decodeSysData K s array len par
  else some (s, [])

/-- Lines 305-565 of `characteristicChanged`: what is done with an accepted frame whose
command bytes are `cmd` and `par`. -/
def decodeAccepted (K : Wire) (env : Env) (s0 : State) (full_array : List Nat)
    (full_len cmd par : Nat) : Option (State × List Event) :=
  let array := full_array.drop 1
  let len := full_len - 3
  match ackStep K s0 cmd par with
  | none => none
  | some s1 =>
    match decodeFirst K s1 full_array full_len cmd par with
    | none => none
    | some s2 =>
      match decodeSecond K env s2 array full_len len cmd par with
      | none => none
      | some r3 => some (r3.1, Event.packetReceived :: r3.2)

/-- `fitshowtreadmill::characteristicChanged` (lines 284-566). `full_len` is a
`uint8_t`, so it holds the length of the value modulo 256, and `checkIncomingPacket`
sees the first `full_len` bytes. -/
def characteristicChanged (K : Wire) (env : Env) (s : State) (newValue : List Nat) :
    Option (State × List Event) :=
  let value := newValue
  let s0 := { s with lastPacket := value }
  let full_array := value
  let full_len := value.length % 256
  if !checkIncomingPacket K (full_array.take full_len) then
    some (s0, [Event.packetReceived, Event.invalidPacket])
  else
    let array := full_array.drop 1
    match rd array 0, rd array 1 with
    | some cmd, some par => decodeAccepted K env s0 full_array full_len cmd par
    | _, _ => none

/-- Whether `characteristicChanged` accepts a notified value: the test of line 301. -/
def accepted (K : Wire) (newValue : List Nat) : Bool :=
  checkIncomingPacket K (newValue.take (newValue.length % 256))

/-- `fitshowtreadmill::controllerStateChanged` (lines 770-777). `unconnected` is the
test `state == QLowEnergyController::UnconnectedState` and `hasControl` the test
`m_control`; the call `m_control->connectToDevice()` acts on the transport only. -/
def controllerStateChanged (s : State) (unconnected hasControl : Bool) : State :=
  if unconnected && hasControl then { s with initDone := false } else s

/-- The frames transmitted among a list of events. -/
def transmitted : List Event → List (List Nat)
  | [] => []
  | Event.tx frame :: rest => frame :: transmitted rest
  | _ :: rest => transmitted rest

/-- Consecutive ticks, one per environment of the list, with no other event between
them; the events of all ticks are collected in order. -/
def ticks (K : Wire) : List Env → State → Option (State × List Event)
  | [], s => some (s, [])
  | env :: rest, s => do
    let r1 ← update K env s
    let r2 ← ticks K rest r1.1
    pure (r2.1, r1.2 ++ r2.2)

/-- The bytes `bufferWrite` holds for a list of queued command payloads: each payload
behind its length byte, as `scheduleWrite` stores them. -/
def queueBytes : List (List Nat) → List Nat
  | [] => []
  | cmd :: rest => cmd.length :: cmd ++ queueBytes rest

/-! ## Concrete inputs -/

/-- A ready environment, used to evaluate the embedding on concrete inputs. -/
def sampleEnv : Env where
  controllerUp := true
  linkDiscovered := true
  nowMSecs := 0
  year := 2024
  month := 1
  day := 1
  hour := 0
  minute := 0
  second := 0
  fitshow_user_id := 5034
  weight := 75
  heartRateBeltDisabled := true

/-- A state in standard mode, initialisation done, empty queue, no intent pending and
every metric at 0, used to evaluate the embedding on concrete inputs. -/
def sampleState : State where
  anyrun := false
  truetimer := false
  initRequest := false
  initDone := true
  bufferWrite := []
  debugMsgs := []
  retrySend := 0
  requestSpeed := -1
  requestInclination := -1
  requestStart := -1
  requestStop := -1
  paused := false
  Speed := 0
  Inclination := 0
  KCal := 0
  Distance := 0
  Heart := 0
  elapsed := 0
  lastSpeed := 0
  lastInclination := 0
  lastStart := 0
  lastStop := 0
  DistanceCalculated := 0
  firstCharacteristicChanged := true
  lastTimeCharacteristicChanged := 0
  lastPacket := []
  MAX_SPEED := 0
  MIN_SPEED := 0
  MAX_INCLINE := 0
  MIN_INCLINE := 0
  UNIT := 0
  IS_HRC := false
  IS_PAUSE := false
  COUNTDOWN_VALUE := 0
  DEVICE_ID_NAME := none
  TOTAL := 0
  FACTORY_DATE := none
  SYS_CONTROL_CMD := 0
  CURRENT_STATUS := 0
  IS_RUNNING := false
  IS_STATUS_STUDY := false
  IS_STATUS_ERRO := false
  IS_STATUS_SAFETY := false
  ERRNO := 0
  SPORT_ID := 0
  USER_ID := 0
  RUN_WAY := 0
  INDOORRUN_MODE := 0
  INDOORRUN_TIME_DATA := 0
  INDOORRUN_DISTANCE_DATA := 0
  INDOORRUN_CALORIE_DATA := 0
  INDOORRUN_PARAM_NUM := 0

/-! ## Predicates used in the statements -/

/-- The queue of `s` holds exactly the command payloads `cmds`, in this order, with one
label per command. -/
def QueueIs (s : State) (cmds : List (List Nat)) : Prop :=
  s.bufferWrite = queueBytes cmds ∧ s.debugMsgs.length = cmds.length

/-- Every payload of the list has between 2 and 22 bytes. -/
def WellSized (cmds : List (List Nat)) : Prop :=
  ∀ c ∈ cmds, 2 ≤ c.length ∧ c.length ≤ 22

/-- From `s` to `t` the queue only grew at its tail, by the payloads `added`, and the
retry counter and the session flags were kept. -/
def Enqueued (s t : State) (added : List (List Nat)) : Prop :=
  t.bufferWrite = s.bufferWrite ++ queueBytes added ∧
    (∃ infos : List Info, t.debugMsgs = s.debugMsgs ++ infos ∧ infos.length = added.length) ∧
    t.retrySend = s.retrySend ∧ t.initRequest = s.initRequest ∧
    (s.initDone = true → t.initDone = true) ∧ t.anyrun = s.anyrun

/-- From `s` to `t` the queue only grew at its tail by commands of 2 to 22 bytes, and the
retry counter and the session flags were kept. -/
def Grows (s t : State) : Prop :=
  ∃ added, Enqueued s t added ∧ WellSized added

/-- From `s` to `t` nothing changed but the queue, its labels and the retry counter. -/
def SameButQueue (s t : State) : Prop :=
  t = { s with bufferWrite := t.bufferWrite, debugMsgs := t.debugMsgs, retrySend := t.retrySend }

/-- From `s` to `t` the queue, its labels, the retry counter and the session flags did
not change. -/
def SameQueue (s t : State) : Prop :=
  t.bufferWrite = s.bufferWrite ∧ t.debugMsgs = s.debugMsgs ∧ t.retrySend = s.retrySend ∧
    t.initRequest = s.initRequest ∧ t.initDone = s.initDone ∧ t.anyrun = s.anyrun

/-- The frame that `writePayload` builds around a payload. -/
def frameOf (K : Wire) (payload : List Nat) : List Nat :=
  K.FITSHOW_PKT_HEADER :: payload ++ [xorChecksum payload, K.FITSHOW_PKT_FOOTER]

/-- The queue part of a tick (lines 237-254 of `update`) on the list of queued payloads:
from the retry counter and the queue after the reconciler, the queue, the retry counter
and the transmitted frames after the tick. -/
def abstractTick (K : Wire) (retry : Nat) (q : List (List Nat)) :
    List (List Nat) × Nat × List (List Nat) :=
  let q1 := if retry ≥ 6 then q.tail else q
  let r1 := if retry ≥ 6 then 0 else retry
  match q1 with
  | [] => ([], r1, [frameOf K [K.FITSHOW_SYS_STATUS]])
  | h :: t => (h :: t, r1 + 1, if (r1 + 1) % 2 ≠ 0 then (writePayload K h).2 else [])

/-- The four control intents of a state: speed, incline, start, stop-or-pause. -/
def intents (s : State) : ℚ × ℚ × Int × Int :=
  (s.requestSpeed, s.requestInclination, s.requestStart, s.requestStop)

/-- The environment of a tick in the ready state: controller connected and link
discovered. -/
def Env.ready (env : Env) : Prop :=
  env.controllerUp = true ∧ env.linkDiscovered = true

/-- A frame with bit `k` of the byte at index `idx` flipped. -/
def flipBit (frame : List Nat) (idx k : Nat) : List Nat :=
  frame.set idx (frame.getD idx 0 ^^^ 2 ^ k)


/-! ## Definitions used in the statements on initialisation and on reachable states -/

/-- The user-profile command of `btinit` (the array `initUserData` after lines
600-605): user id low and high byte, 110, age 30, weight, height 170. -/
def userProfileCommand (K : Wire) (env : Env) : List Nat :=
  [K.FITSHOW_SYS_CONTROL, K.FITSHOW_CONTROL_USER,
    ((env.fitshow_user_id >>> 0) % 256).toNat, ((env.fitshow_user_id >>> 8) % 256).toNat,
    110, 30, castUInt8 (env.weight + 1 / 2), 170]

/-- The model/date command of `btinit` (the array `initDataStart0`). -/
def modelDateCommand (K : Wire) (env : Env) : List Nat :=
  [K.FITSHOW_SYS_INFO, K.FITSHOW_INFO_MODEL, ((env.year - 2000) % 256).toNat,
    env.month % 256, env.day % 256, env.hour % 256, env.minute % 256, env.second % 256]

/-- The start-tape command of `btinit` (the array `startTape1`). -/
def startTapeCommand (K : Wire) : List Nat :=
  [K.FITSHOW_SYS_CONTROL, K.FITSHOW_CONTROL_READY_OR_START,
    (K.FITSHOW_TREADMILL_SPORT_ID >>> 0) &&& 0xFF,
    (K.FITSHOW_TREADMILL_SPORT_ID >>> 8) &&& 0xFF,
    (K.FITSHOW_TREADMILL_SPORT_ID >>> 16) &&& 0xFF,
    (K.FITSHOW_TREADMILL_SPORT_ID >>> 24) &&& 0xFF,
    K.FITSHOW_SYS_MODE_NORMAL, 0x00, 0x00, 0x00]

/-- The command that `forceSpeedOrIncline` enqueues for a requested speed and incline. -/
def targetCommand (K : Wire) (s : State) (speed incline : ℚ) : List Nat :=
  [K.FITSHOW_SYS_CONTROL, K.FITSHOW_CONTROL_TARGET_OR_RUN,
    castUInt8 (binary64 (clampSpeed s (binary64 (speed * 10)) + 1 / 2)),
    castUInt8 (clampIncline s incline)]

/-- The commands that `btinit` without start-tape enqueues in a mode. -/
def initCommands (K : Wire) (env : Env) (anyrun : Bool) : List (List Nat) :=
  if anyrun then
    [userProfileCommand K env, [K.FITSHOW_SYS_INFO, K.FITSHOW_INFO_UNKNOWN]]
  else
    [(userProfileCommand K env).take 7, modelDateCommand K env,
      [K.FITSHOW_SYS_INFO, K.FITSHOW_INFO_SPEED], [K.FITSHOW_SYS_INFO, K.FITSHOW_INFO_INCLINE],
      [K.FITSHOW_SYS_INFO, K.FITSHOW_INFO_TOTAL], [K.FITSHOW_SYS_INFO, K.FITSHOW_INFO_DATE]]

/-- The queue part of `n` consecutive ticks on the list of queued payloads, when the
reconciler enqueues nothing: the queue, the retry counter and the transmitted frames
after them. -/
def abstractTicks (K : Wire) : Nat → Nat → List (List Nat) →
    List (List Nat) × Nat × List (List Nat)
  | 0, retry, q => (q, retry, [])
  | n + 1, retry, q =>
    let a := abstractTick K retry q
    let b := abstractTicks K n a.2.1 a.1
    (b.1, b.2.1, a.2.2 ++ b.2.2)

/-- The states that the program reaches from a state with an empty queue and retry
counter 0: by an enqueue of a command of 2 to 22 bytes, by a tick, by a notified value,
and by any change from outside that leaves the queue, its labels and the retry counter
alone (a new intent, a link event, a setting). -/
inductive Reachable (K : Wire) : State → Prop where
  | init (s : State) (hb : s.bufferWrite = []) (hm : s.debugMsgs = [])
      (hr : s.retrySend = 0) : Reachable K s
  | enqueue (s : State) (data : List Nat) (info : Info) (h : Reachable K s)
      (h2 : 2 ≤ data.length) (h22 : data.length ≤ 22) :
      Reachable K (scheduleWrite s data info)
  | tick (s s' : State) (env : Env) (evs : List Event) (h : Reachable K s)
      (hu : update K env s = some (s', evs)) : Reachable K s'
  | frame (s s' : State) (env : Env) (v : List Nat) (evs : List Event) (h : Reachable K s)
      (hc : characteristicChanged K env s v = some (s', evs)) : Reachable K s'
  | external (s t : State) (h : Reachable K s) (hb : t.bufferWrite = s.bufferWrite)
      (hm : t.debugMsgs = s.debugMsgs) (hr : t.retrySend = s.retrySend) : Reachable K t

/-- The invariant of the queue and the retry counter: the queue holds whole commands of
2 to 22 bytes with one label each, the retry counter is at most 6, and it is 0 when the
queue is empty. -/
def QueueInv (s : State) : Prop :=
  ∃ cmds, QueueIs s cmds ∧ WellSized cmds ∧ s.retrySend ≤ 6 ∧ (cmds = [] → s.retrySend = 0)

/-- The `double` nearest to 1.45, the value that the literal `1.45` denotes. -/
def double_1_45 : ℚ := 6530219459687219 / 4503599627370496

/-! ## Lemmas on the codec -/

theorem writePayloadLoop_eq (array : List Nat) (array2 : List Nat) (n : Nat) :
    writePayloadLoop array (array2, n) = (array2 ++ array, n ^^^ xorChecksum array) := by
  induction array generalizing array2 n with
  | nil => simp [writePayloadLoop, xorChecksum]
  | cons b rest ih =>
    simp [writePayloadLoop, xorChecksum, ih, Nat.xor_assoc]

theorem checksumLoop_eq (data : List Nat) (n6 : Nat) (h6 : n6 ≤ data.length) :
    ∀ (fuel n4 n5 : Nat), n6 - n5 ≤ fuel →
      checksumLoop data n6 fuel n4 n5
        = n4 ^^^ xorChecksum ((data.drop n5).take (n6 - n5)) := by
  intro fuel
  induction fuel with
  | zero =>
    intro n4 n5 h
    have : n6 - n5 = 0 := by omega
    simp [checksumLoop, this, xorChecksum]
  | succ fuel ih =>
    intro n4 n5 h
    unfold checksumLoop
    by_cases hge : n5 ≥ n6
    · have : n6 - n5 = 0 := by omega
      simp [hge, this, xorChecksum]
    · have hlt : n5 < data.length := by omega
      have hsub : n6 - n5 = (n6 - (n5 + 1)) + 1 := by omega
      rw [if_neg hge, ih _ _ (by omega)]
      rw [hsub, List.drop_eq_getElem_cons hlt, List.take_succ_cons]
      simp [xorChecksum, Nat.xor_assoc, List.getD_eq_getElem?_getD, hlt]

theorem writePayload_frame (K : Wire) (payload : List Nat) (h : payload.length ≤ 22) :
    writePayload K payload
      = (true, [K.FITSHOW_PKT_HEADER :: payload ++ [xorChecksum payload, K.FITSHOW_PKT_FOOTER]]) := by
  have : ¬ (payload.length + 3 > BLE_SERIALOUTPUT_MAXSIZE) := by
    simp [BLE_SERIALOUTPUT_MAXSIZE]; omega
  simp [writePayload, this, writePayloadLoop_eq]

theorem xorChecksum_append (a b : List Nat) :
    xorChecksum (a ++ b) = xorChecksum a ^^^ xorChecksum b := by
  induction a with
  | nil => simp [xorChecksum]
  | cons x rest ih => simp [xorChecksum, ih, Nat.xor_assoc]

theorem xorChecksum_set (l : List Nat) (i d : Nat) (hi : i < l.length) :
    xorChecksum (l.set i (l.getD i 0 ^^^ d)) = xorChecksum l ^^^ d := by
  induction l generalizing i with
  | nil => simp at hi
  | cons x rest ih =>
    cases i with
    | zero => simp [xorChecksum, Nat.xor_assoc, Nat.xor_comm d]
    | succ j =>
      have hj : j < rest.length := by simpa using hi
      have h := ih j hj
      simp only [List.set_cons_succ, List.getD_cons_succ, xorChecksum, h, Nat.xor_assoc]

theorem xor_ne_self (a d : Nat) (hd : d ≠ 0) : a ^^^ d ≠ a := by
  intro h
  have h2 : a ^^^ (a ^^^ d) = a ^^^ a := by rw [h]
  rw [← Nat.xor_assoc, Nat.xor_self, Nat.zero_xor] at h2
  exact hd h2

theorem getElem?_eq_some_iff_getD (l : List Nat) (i x : Nat) (h : i < l.length) :
    l[i]? = some x ↔ l.getD i 0 = x := by
  simp [List.getD_eq_getElem?_getD, List.getElem?_eq_getElem h]

/-- What `checkIncomingPacket` computes, with the loop replaced by its result. -/
theorem checkIncomingPacket_spec (K : Wire) (data : List Nat) :
    checkIncomingPacket K data = true ↔
      4 ≤ data.length ∧ data[0]? = some K.FITSHOW_PKT_HEADER ∧
        data[data.length - 1]? = some K.FITSHOW_PKT_FOOTER ∧
        data[data.length - 2]? = some (xorChecksum ((data.drop 1).take (data.length - 3))) := by
  unfold checkIncomingPacket
  by_cases h4 : 4 ≤ data.length
  · have hloop := checksumLoop_eq data (data.length - 2) (by omega) data.length 0 1 (by omega)
    have hsub : data.length - 2 - 1 = data.length - 3 := by omega
    rw [hsub, Nat.zero_xor] at hloop
    rw [getElem?_eq_some_iff_getD data 0 _ (by omega),
      getElem?_eq_some_iff_getD data (data.length - 1) _ (by omega),
      getElem?_eq_some_iff_getD data (data.length - 2) _ (by omega)]
    simp only [hloop]
    by_cases hc : data.length ≥ 4 ∧ data.getD 0 0 = K.FITSHOW_PKT_HEADER ∧
        data.getD (data.length - 1) 0 = K.FITSHOW_PKT_FOOTER
    · rw [if_pos hc]
      constructor
      · intro h
        exact ⟨hc.1, hc.2.1, hc.2.2, (beq_iff_eq.mp h).symm⟩
      · intro h
        exact beq_iff_eq.mpr h.2.2.2.symm
    · rw [if_neg hc]
      constructor
      · intro h; exact absurd h (by simp)
      · intro h; exact absurd ⟨h.1, h.2.1, h.2.2.1⟩ hc
  · have hc : ¬ (data.length ≥ 4 ∧ data.getD 0 0 = K.FITSHOW_PKT_HEADER ∧
        data.getD (data.length - 1) 0 = K.FITSHOW_PKT_FOOTER) := fun h => h4 h.1
    simp only []
    rw [if_neg hc]
    constructor
    · intro h; exact absurd h (by simp)
    · intro h; exact absurd h.1 h4

/-- A well-formed frame around a non-empty payload is accepted. -/
theorem checkIncomingPacket_frame (K : Wire) (payload : List Nat) (c : Nat)
    (h1 : 1 ≤ payload.length) :
    checkIncomingPacket K (K.FITSHOW_PKT_HEADER :: payload ++ [c, K.FITSHOW_PKT_FOOTER]) = true
      ↔ c = xorChecksum payload := by
  rw [checkIncomingPacket_spec]
  have hlen : (K.FITSHOW_PKT_HEADER :: payload ++ [c, K.FITSHOW_PKT_FOOTER]).length
      = payload.length + 3 := by simp
  have e1 : (K.FITSHOW_PKT_HEADER :: payload ++ [c, K.FITSHOW_PKT_FOOTER])[payload.length + 2]?
      = some K.FITSHOW_PKT_FOOTER := by
    rw [show K.FITSHOW_PKT_HEADER :: payload ++ [c, K.FITSHOW_PKT_FOOTER]
        = (K.FITSHOW_PKT_HEADER :: payload ++ [c]) ++ [K.FITSHOW_PKT_FOOTER] by simp]
    rw [List.getElem?_append_right (by simp)]
    simp
  have e2 : (K.FITSHOW_PKT_HEADER :: payload ++ [c, K.FITSHOW_PKT_FOOTER])[payload.length + 1]?
      = some c := by
    rw [show K.FITSHOW_PKT_HEADER :: payload ++ [c, K.FITSHOW_PKT_FOOTER]
        = (K.FITSHOW_PKT_HEADER :: payload) ++ [c, K.FITSHOW_PKT_FOOTER] by simp]
    rw [List.getElem?_append_right (by simp)]
    simp
  have e3 : ((K.FITSHOW_PKT_HEADER :: payload ++ [c, K.FITSHOW_PKT_FOOTER]).drop 1).take
      payload.length = payload := by
    simp
  rw [hlen]
  have a1 : payload.length + 3 - 1 = payload.length + 2 := by omega
  have a2 : payload.length + 3 - 2 = payload.length + 1 := by omega
  have a3 : payload.length + 3 - 3 = payload.length := by omega
  rw [a1, a2, a3, e1, e2, e3]
  constructor
  · rintro ⟨_, _, _, h⟩
    exact Option.some.inj h
  · intro h
    subst h
    exact ⟨by omega, by simp, rfl, rfl⟩

theorem payloadOf_frame (h : Nat) (payload : List Nat) (c f : Nat) :
    payloadOf (h :: payload ++ [c, f]) = payload := by
  simp [payloadOf]

/-! ## Lemmas on the rounding to binary64 -/

theorem roundNearestEven_le (x : ℚ) (z : ℤ) (h : x ≤ z) : roundNearestEven x ≤ z := by
  have h1 : ⌊x⌋ ≤ z :=
    Int.floor_le_iff.mpr (lt_of_le_of_lt h (by exact_mod_cast Int.lt_succ_self z))
  have h2 : x - ⌊x⌋ ≥ 1 / 2 → ⌊x⌋ + 1 ≤ z := by
    intro hf
    have : (⌊x⌋ : ℚ) < z := by linarith
    have : ⌊x⌋ < z := by exact_mod_cast this
    omega
  unfold roundNearestEven
  split_ifs with a b c
  · exact h1
  · exact h2 (le_of_lt b)
  · exact h1
  · exact h2 (not_lt.mp a)

theorem le_roundNearestEven (x : ℚ) (z : ℤ) (h : (z : ℚ) ≤ x) : z ≤ roundNearestEven x := by
  have h1 : z ≤ ⌊x⌋ := Int.le_floor.mpr h
  unfold roundNearestEven
  split_ifs <;> omega

theorem roundNearestEven_eq (x : ℚ) (z : ℤ) (h1 : (z : ℚ) - 1 / 2 < x) (h2 : x < z + 1 / 2) :
    roundNearestEven x = z := by
  unfold roundNearestEven
  by_cases hz : (z : ℚ) ≤ x
  · have hf : ⌊x⌋ = z := Int.floor_eq_iff.mpr ⟨hz, by linarith⟩
    rw [hf, if_pos (by linarith)]
  · have hz' : x < z := not_le.mp hz
    have hf : ⌊x⌋ = z - 1 := Int.floor_eq_iff.mpr ⟨by push_cast; linarith, by push_cast; linarith⟩
    rw [hf]
    have e : x - ((z - 1 : ℤ) : ℚ) = x - z + 1 := by push_cast; ring
    rw [if_neg (by rw [e]; linarith), if_pos (by rw [e]; linarith)]
    ring

theorem binary64Exponent_pow_pos (x : ℚ) : (0 : ℚ) < 2 ^ (binary64Exponent x - 52) :=
  zpow_pos (by norm_num) _

theorem binary64_nonpos (x : ℚ) (h : x ≤ 0) : binary64 x ≤ 0 := by
  unfold binary64
  split_ifs
  · exact le_refl _
  · have hu := binary64Exponent_pow_pos x
    have : roundNearestEven (x / 2 ^ (binary64Exponent x - 52)) ≤ 0 :=
      roundNearestEven_le _ 0 (by
        push_cast
        exact div_nonpos_of_nonpos_of_nonneg h (le_of_lt hu))
    have : (roundNearestEven (x / 2 ^ (binary64Exponent x - 52)) : ℚ) ≤ 0 := by
      exact_mod_cast this
    exact mul_nonpos_of_nonpos_of_nonneg this (le_of_lt hu)

theorem binary64_nonneg (x : ℚ) (h : 0 ≤ x) : 0 ≤ binary64 x := by
  unfold binary64
  split_ifs
  · exact le_refl _
  · have hu := binary64Exponent_pow_pos x
    have : 0 ≤ roundNearestEven (x / 2 ^ (binary64Exponent x - 52)) :=
      le_roundNearestEven _ 0 (by
        push_cast
        exact div_nonneg h (le_of_lt hu))
    have : (0 : ℚ) ≤ (roundNearestEven (x / 2 ^ (binary64Exponent x - 52)) : ℚ) := by
      exact_mod_cast this
    exact mul_nonneg this (le_of_lt hu)

/-- Below `2 ^ 52` the exponent of a positive value is at most 51. -/
theorem binary64Exponent_le (x : ℚ) (h0 : 0 < x) (h : x < 2 ^ (52 : ℤ)) :
    binary64Exponent x ≤ 51 := by
  have hl : Int.log 2 |x| < 52 := by
    rw [abs_of_pos h0]
    exact (Int.lt_zpow_iff_log_lt (by norm_num) h0).mp (by exact_mod_cast h)
  unfold binary64Exponent
  exact max_le (by omega) (by norm_num)

/-- The half-integers `k / 2` are on the grid of every exponent up to 51. -/
theorem half_on_grid (e : ℤ) (he : e ≤ 51) (k : ℕ) :
    ∃ z : ℤ, (z : ℚ) * 2 ^ (e - 52) = (k : ℚ) / 2 := by
  refine ⟨k * 2 ^ (51 - e).toNat, ?_⟩
  have hn : ((51 - e).toNat : ℤ) = 51 - e := Int.toNat_of_nonneg (by omega)
  have h2 : (2 : ℚ) ^ (51 - e).toNat = 2 ^ (51 - e) := by
    rw [← zpow_natCast, hn]
  push_cast
  rw [h2, mul_assoc, ← zpow_add₀ (by norm_num : (2 : ℚ) ≠ 0)]
  have : 51 - e + (e - 52) = -1 := by ring
  rw [this]
  norm_num
  ring

theorem binary64_le_half (x : ℚ) (k : ℕ) (hk : k ≤ 512) (h : x ≤ (k : ℚ) / 2) :
    binary64 x ≤ (k : ℚ) / 2 := by
  have hk0 : (0 : ℚ) ≤ (k : ℚ) / 2 := by positivity
  rcases le_or_lt x 0 with hx | hx
  · exact le_trans (binary64_nonpos x hx) hk0
  · have hkq : (k : ℚ) ≤ 512 := by exact_mod_cast hk
    have hlt : x < 2 ^ (52 : ℤ) := by
      have : (2 : ℚ) ^ (52 : ℤ) = 4503599627370496 := by norm_num
      rw [this]
      linarith
    obtain ⟨z, hz⟩ := half_on_grid (binary64Exponent x) (binary64Exponent_le x hx hlt) k
    have hu := binary64Exponent_pow_pos x
    unfold binary64
    rw [if_neg (ne_of_gt hx), ← hz]
    have hr : roundNearestEven (x / 2 ^ (binary64Exponent x - 52)) ≤ z :=
      roundNearestEven_le _ z (by rw [div_le_iff₀ hu, hz]; exact h)
    have hr' : (roundNearestEven (x / 2 ^ (binary64Exponent x - 52)) : ℚ) ≤ z := by
      exact_mod_cast hr
    exact mul_le_mul_of_nonneg_right hr' (le_of_lt hu)

theorem half_le_binary64 (x : ℚ) (k : ℕ) (hk : k ≤ 512) (h : (k : ℚ) / 2 ≤ x) :
    (k : ℚ) / 2 ≤ binary64 x := by
  have hk0 : (0 : ℚ) ≤ (k : ℚ) / 2 := by positivity
  rcases eq_or_lt_of_le (le_trans hk0 h) with hx | hx
  · rw [← hx] at h ⊢
    exact le_trans h (by unfold binary64; rw [if_pos rfl])
  · have hu := binary64Exponent_pow_pos x
    have hkq : (k : ℚ) ≤ 512 := by exact_mod_cast hk
    by_cases he : binary64Exponent x ≤ 51
    · obtain ⟨z, hz⟩ := half_on_grid (binary64Exponent x) he k
      unfold binary64
      rw [if_neg (ne_of_gt hx), ← hz]
      have hr : z ≤ roundNearestEven (x / 2 ^ (binary64Exponent x - 52)) :=
        le_roundNearestEven _ z (by rw [le_div_iff₀ hu, hz]; exact h)
      have hr' : (z : ℚ) ≤ (roundNearestEven (x / 2 ^ (binary64Exponent x - 52)) : ℚ) := by
        exact_mod_cast hr
      exact mul_le_mul_of_nonneg_right hr' (le_of_lt hu)
    · have he' : 52 ≤ binary64Exponent x := by omega
      have hlog : binary64Exponent x = Int.log 2 |x| := by
        unfold binary64Exponent at he' ⊢
        rcases le_total (Int.log 2 |x|) (-1022) with hm | hm
        · rw [max_eq_right hm] at he'
          omega
        · exact max_eq_left hm
      have hpow : (2 : ℚ) ^ binary64Exponent x ≤ x := by
        rw [hlog, abs_of_pos hx]
        have := Int.zpow_log_le_self (b := 2) (r := x) (by norm_num) hx
        exact_mod_cast this
      have hgrid : ((2 ^ 52 : ℤ) : ℚ) * 2 ^ (binary64Exponent x - 52)
          = 2 ^ binary64Exponent x := by
        have h52v : ((2 ^ 52 : ℤ) : ℚ) = 2 ^ (52 : ℤ) := by norm_num
        rw [h52v, ← zpow_add₀ (by norm_num : (2 : ℚ) ≠ 0)]
        congr 1
        ring
      have hr : (2 ^ 52 : ℤ) ≤ roundNearestEven (x / 2 ^ (binary64Exponent x - 52)) :=
        le_roundNearestEven _ _ (by rw [le_div_iff₀ hu, hgrid]; exact hpow)
      have hr' : ((2 ^ 52 : ℤ) : ℚ)
          ≤ (roundNearestEven (x / 2 ^ (binary64Exponent x - 52)) : ℚ) := by
        exact_mod_cast hr
      have h52 : (2 : ℚ) ^ (52 : ℤ) ≤ 2 ^ binary64Exponent x :=
        zpow_le_zpow_right₀ (by norm_num) he'
      have hbig : (k : ℚ) / 2 ≤ 2 ^ binary64Exponent x := by
        have : (2 : ℚ) ^ (52 : ℤ) = 4503599627370496 := by norm_num
        rw [this] at h52
        linarith
      unfold binary64
      rw [if_neg (ne_of_gt hx)]
      calc (k : ℚ) / 2 ≤ 2 ^ binary64Exponent x := hbig
        _ = ((2 ^ 52 : ℤ) : ℚ) * 2 ^ (binary64Exponent x - 52) := hgrid.symm
        _ ≤ _ := mul_le_mul_of_nonneg_right hr' (le_of_lt hu)

/-- The half-integers up to 256 are binary64 values. -/
theorem binary64_half (k : ℕ) (hk : k ≤ 512) : binary64 ((k : ℚ) / 2) = (k : ℚ) / 2 :=
  le_antisymm (binary64_le_half _ k hk (le_refl _)) (half_le_binary64 _ k hk (le_refl _))

/-- The binary64 value of `x`, from its exponent `e` and the integer `m` nearest to its
significand. -/
theorem binary64_eq (x : ℚ) (e m : ℤ) (h0 : 0 < x) (he1 : (2 : ℚ) ^ e ≤ x)
    (he2 : x < 2 ^ (e + 1)) (hn : -1022 ≤ e)
    (h1 : (m : ℚ) - 1 / 2 < x / 2 ^ (e - 52)) (h2 : x / 2 ^ (e - 52) < m + 1 / 2) :
    binary64 x = m * 2 ^ (e - 52) := by
  have hlog : Int.log 2 |x| = e := by
    rw [abs_of_pos h0]
    apply le_antisymm
    · have := (Int.lt_zpow_iff_log_lt (b := 2) (by norm_num) h0).mp (by exact_mod_cast he2)
      omega
    · exact (Int.zpow_le_iff_le_log (b := 2) (by norm_num) h0).mp (by exact_mod_cast he1)
  have hexp : binary64Exponent x = e := by
    unfold binary64Exponent
    rw [hlog]
    exact max_eq_left hn
  unfold binary64
  rw [if_neg (ne_of_gt h0), hexp, roundNearestEven_eq _ m h1 h2]

theorem binary64_le_nat (x : ℚ) (n : ℕ) (hn : n ≤ 256) (h : x ≤ n) : binary64 x ≤ n := by
  have e : ((2 * n : ℕ) : ℚ) / 2 = n := by push_cast; ring
  have := binary64_le_half x (2 * n) (by omega) (by rw [e]; exact h)
  rwa [e] at this

theorem nat_le_binary64 (x : ℚ) (n : ℕ) (hn : n ≤ 256) (h : (n : ℚ) ≤ x) :
    (n : ℚ) ≤ binary64 x := by
  have e : ((2 * n : ℕ) : ℚ) / 2 = n := by push_cast; ring
  have := half_le_binary64 x (2 * n) (by omega) (by rw [e]; exact h)
  rwa [e] at this

theorem binary64_le_nat_half (x : ℚ) (n : ℕ) (hn : n < 256) (h : x ≤ (n : ℚ) + 1 / 2) :
    binary64 x ≤ (n : ℚ) + 1 / 2 := by
  have e : ((2 * n + 1 : ℕ) : ℚ) / 2 = (n : ℚ) + 1 / 2 := by push_cast; ring
  have := binary64_le_half x (2 * n + 1) (by omega) (by rw [e]; exact h)
  rwa [e] at this

theorem nat_half_le_binary64 (x : ℚ) (n : ℕ) (hn : n < 256) (h : (n : ℚ) + 1 / 2 ≤ x) :
    (n : ℚ) + 1 / 2 ≤ binary64 x := by
  have e : ((2 * n + 1 : ℕ) : ℚ) / 2 = (n : ℚ) + 1 / 2 := by push_cast; ring
  have := half_le_binary64 x (2 * n + 1) (by omega) (by rw [e]; exact h)
  rwa [e] at this

theorem binary64_natCast (n : ℕ) (hn : n ≤ 256) : binary64 (n : ℚ) = n :=
  le_antisymm (binary64_le_nat _ n hn (le_refl _)) (nat_le_binary64 _ n hn (le_refl _))

theorem binary64_natCast_add_half (n : ℕ) (hn : n < 256) :
    binary64 ((n : ℚ) + 1 / 2) = (n : ℚ) + 1 / 2 :=
  le_antisymm (binary64_le_nat_half _ n hn (le_refl _)) (nat_half_le_binary64 _ n hn (le_refl _))

/-! ## Lemmas on the queue -/

theorem queueBytes_append (a b : List (List Nat)) :
    queueBytes (a ++ b) = queueBytes a ++ queueBytes b := by
  induction a with
  | nil => simp [queueBytes]
  | cons c rest ih => simp [queueBytes, ih]

theorem queueBytes_eq_nil (cmds : List (List Nat)) : queueBytes cmds = [] ↔ cmds = [] := by
  cases cmds <;> simp [queueBytes]

theorem wellSized_append {a b : List (List Nat)} (ha : WellSized a) (hb : WellSized b) :
    WellSized (a ++ b) := by
  intro c hc
  rcases List.mem_append.mp hc with h | h
  · exact ha c h
  · exact hb c h

theorem wellSized_nil : WellSized [] := by
  intro c hc; simp at hc

theorem wellSized_single (c : List Nat) (h2 : 2 ≤ c.length) (h22 : c.length ≤ 22) :
    WellSized [c] := by
  intro d hd
  simp at hd
  subst hd
  exact ⟨h2, h22⟩

theorem enqueued_refl (s : State) : Enqueued s s [] := by
  refine ⟨by simp [queueBytes], ⟨[], by simp, rfl⟩, rfl, rfl, fun h => h, rfl⟩

theorem enqueued_trans {s t u : State} {a b : List (List Nat)}
    (h1 : Enqueued s t a) (h2 : Enqueued t u b) : Enqueued s u (a ++ b) := by
  obtain ⟨hb1, ⟨i1, hd1, hl1⟩, hr1, hq1, hi1, ha1⟩ := h1
  obtain ⟨hb2, ⟨i2, hd2, hl2⟩, hr2, hq2, hi2, ha2⟩ := h2
  refine ⟨?_, ⟨i1 ++ i2, ?_, ?_⟩, ?_, ?_, ?_, ?_⟩
  · rw [hb2, hb1, queueBytes_append, List.append_assoc]
  · rw [hd2, hd1, List.append_assoc]
  · simp [hl1, hl2]
  · rw [hr2, hr1]
  · rw [hq2, hq1]
  · exact fun h => hi2 (hi1 h)
  · rw [ha2, ha1]

theorem enqueued_queueIs {s t : State} {added cmds : List (List Nat)}
    (h : Enqueued s t added) (hq : QueueIs s cmds) : QueueIs t (cmds ++ added) := by
  obtain ⟨hb, ⟨infos, hd, hl⟩, _⟩ := h
  refine ⟨?_, ?_⟩
  · rw [hb, hq.1, queueBytes_append]
  · rw [hd, List.length_append, hq.2, hl, List.length_append]

theorem scheduleWrite_enqueued (s : State) (data : List Nat) (info : Info) :
    Enqueued s (scheduleWrite s data info) [data] := by
  refine ⟨by simp [scheduleWrite, queueBytes], ⟨[info], by simp [scheduleWrite], rfl⟩,
    rfl, rfl, fun h => h, rfl⟩

theorem enqueued_of_eq {s t : State} (h1 : t.bufferWrite = s.bufferWrite)
    (h2 : t.debugMsgs = s.debugMsgs) (h3 : t.retrySend = s.retrySend)
    (h4 : t.initRequest = s.initRequest) (h5 : s.initDone = true → t.initDone = true)
    (h6 : t.anyrun = s.anyrun) : Enqueued s t [] :=
  ⟨by simp [queueBytes, h1], ⟨[], by simp [h2], rfl⟩, h3, h4, h5, h6⟩

theorem grows_refl (s : State) : Grows s s :=
  ⟨[], enqueued_refl s, wellSized_nil⟩

theorem grows_trans {s t u : State} (h1 : Grows s t) (h2 : Grows t u) : Grows s u := by
  obtain ⟨a, e1, w1⟩ := h1
  obtain ⟨b, e2, w2⟩ := h2
  exact ⟨a ++ b, enqueued_trans e1 e2, wellSized_append w1 w2⟩

/-- A change of fields other than the queue, the retry counter and the session flags. -/
theorem grows_fields {s t u : State} (h : Grows s t) (h1 : u.bufferWrite = t.bufferWrite)
    (h2 : u.debugMsgs = t.debugMsgs) (h3 : u.retrySend = t.retrySend)
    (h4 : u.initRequest = t.initRequest) (h5 : t.initDone = true → u.initDone = true)
    (h6 : u.anyrun = t.anyrun) : Grows s u :=
  grows_trans h ⟨[], enqueued_of_eq h1 h2 h3 h4 h5 h6, wellSized_nil⟩

theorem grows_scheduleWrite {s t : State} (h : Grows s t) (data : List Nat) (info : Info)
    (h2 : 2 ≤ data.length) (h22 : data.length ≤ 22) :
    Grows s (scheduleWrite t data info) :=
  grows_trans h ⟨[data], scheduleWrite_enqueued t data info, wellSized_single data h2 h22⟩

theorem grows_ite {s a b : State} (c : Prop) [Decidable c] (ha : Grows s a) (hb : Grows s b) :
    Grows s (if c then a else b) := by
  split
  · exact ha
  · exact hb

theorem grows_sendSportData {s t : State} (K : Wire) (h : Grows s t) :
    Grows s (sendSportData K t) := by
  unfold sendSportData
  exact grows_ite _ (grows_scheduleWrite h _ _ (by simp) (by simp)) h

theorem grows_forceSpeedOrIncline {s t : State} (K : Wire) (h : Grows s t) (a b : ℚ) :
    Grows s (forceSpeedOrIncline K t a b) := by
  unfold forceSpeedOrIncline
  exact grows_ite _ (grows_scheduleWrite h _ _ (by simp) (by simp)) h

theorem grows_btinitLoop (K : Wire) (infos : List Nat) :
    ∀ (par : Nat) {s t : State}, Grows s t → Grows s (btinitLoop K infos par t) := by
  induction infos with
  | nil =>
    intro par s t h
    exact h
  | cons info rest ih =>
    intro par s t h
    rw [btinitLoop]
    exact grows_ite _ (grows_scheduleWrite h _ _ (by simp) (by simp))
      (ih _ (grows_scheduleWrite h _ _ (by simp) (by simp)))

theorem grows_btinit (K : Wire) (env : Env) {s t : State} (h : Grows s t) (startTape : Bool) :
    Grows s (btinit K env t startTape) := by
  unfold btinit
  have h1 : Grows s (scheduleWrite t
      ([K.FITSHOW_SYS_CONTROL, K.FITSHOW_CONTROL_USER,
        ((env.fitshow_user_id >>> 0) % 256).toNat, ((env.fitshow_user_id >>> 8) % 256).toNat,
        110, 30, castUInt8 (env.weight + 1 / 2), 170].take
          ([K.FITSHOW_SYS_CONTROL, K.FITSHOW_CONTROL_USER,
            ((env.fitshow_user_id >>> 0) % 256).toNat,
            ((env.fitshow_user_id >>> 8) % 256).toNat,
            110, 30, castUInt8 (env.weight + 1 / 2), 170].length
            - (if (!t.anyrun) = true then 1 else 0))) Info.init_user) := by
    apply grows_scheduleWrite h
    · cases t.anyrun <;> simp
    · cases t.anyrun <;> simp
  have h2 := grows_ite ((!t.anyrun) = true)
    (grows_scheduleWrite h1 [K.FITSHOW_SYS_INFO, K.FITSHOW_INFO_MODEL,
          ((env.year - 2000) % 256).toNat, env.month % 256, env.day % 256, env.hour % 256,
          env.minute % 256, env.second % 256] (Info.init K.FITSHOW_INFO_MODEL)
      (by simp) (by simp)) h1
  have h3 := grows_btinitLoop K
    [K.FITSHOW_INFO_SPEED, K.FITSHOW_INFO_INCLINE, K.FITSHOW_INFO_TOTAL, K.FITSHOW_INFO_DATE]
    K.FITSHOW_INFO_UNKNOWN h2
  exact grows_fields
    (grows_ite (startTape = true)
      (grows_forceSpeedOrIncline K
        (grows_scheduleWrite h3 _ Info.init_start (by simp) (by simp)) _ _) h3)
    rfl rfl rfl rfl (fun _ => rfl) rfl

theorem grows_reconcileSpeed (K : Wire) {s t : State} (h : Grows s t) :
    Grows s (reconcileSpeed K t) := by
  unfold reconcileSpeed
  exact grows_ite _
    (grows_fields
      (grows_ite _
        (grows_ite _
          (grows_forceSpeedOrIncline K
            (grows_fields (u := { t with requestInclination := -1 }) h
              rfl rfl rfl rfl (fun h => h) rfl) _ _)
          (grows_forceSpeedOrIncline K h _ _))
        h)
      rfl rfl rfl rfl (fun h => h) rfl)
    h

theorem grows_reconcileInclination (K : Wire) {s t : State} (h : Grows s t) :
    Grows s (reconcileInclination K t) := by
  unfold reconcileInclination
  exact grows_ite _
    (grows_fields
      (grows_ite _
        (grows_ite _
          (grows_forceSpeedOrIncline K
            (grows_fields (u := { t with requestSpeed := -1 }) h
              rfl rfl rfl rfl (fun h => h) rfl) _ _)
          (grows_forceSpeedOrIncline K h _ _))
        h)
      rfl rfl rfl rfl (fun h => h) rfl)
    h

theorem grows_reconcileStart (K : Wire) (env : Env) {s t : State} (h : Grows s t) :
    Grows s (reconcileStart K env t).1 := by
  unfold reconcileStart
  split
  · exact grows_fields
      (grows_btinit K env
        (grows_ite _
          (grows_fields (u := { t with lastSpeed := 1 / 2 }) h rfl rfl rfl rfl (fun h => h) rfl)
          h) true)
      rfl rfl rfl rfl (fun h => h) rfl
  · exact h

theorem reconcileStart_transmitted (K : Wire) (env : Env) (s : State) :
    transmitted (reconcileStart K env s).2 = [] := by
  unfold reconcileStart
  split <;> simp [transmitted]

theorem grows_reconcileStop (K : Wire) (env : Env) {s t : State} (h : Grows s t) :
    Grows s (reconcileStop K env t) := by
  unfold reconcileStop
  exact grows_ite _
    (grows_fields
      (grows_ite _
        (grows_scheduleWrite
          (grows_fields (u := { t with lastStop := env.nowMSecs }) h
            rfl rfl rfl rfl (fun h => h) rfl) _ _ (by simp) (by simp))
        (grows_scheduleWrite
          (grows_fields (u := { t with lastStop := env.nowMSecs }) h
            rfl rfl rfl rfl (fun h => h) rfl) _ _ (by simp) (by simp)))
      rfl rfl rfl rfl (fun h => h) rfl)
    h

/-- The control reconciler only appends commands of 2 to 22 bytes to the queue and
transmits nothing. -/
theorem grows_reconcile (K : Wire) (env : Env) (s : State) :
    Grows s (reconcile K env s).1 := by
  unfold reconcile
  exact grows_reconcileStop K env
    (grows_reconcileStart K env
      (grows_reconcileInclination K (grows_reconcileSpeed K (grows_refl s))))

theorem reconcile_transmitted (K : Wire) (env : Env) (s : State) :
    transmitted (reconcile K env s).2 = [] := by
  unfold reconcile
  exact reconcileStart_transmitted K env _

theorem transmitted_append (a b : List Event) :
    transmitted (a ++ b) = transmitted a ++ transmitted b := by
  induction a with
  | nil => simp [transmitted]
  | cons e rest ih => cases e <;> simp [transmitted, ih]

theorem transmitted_map_tx (frames : List (List Nat)) :
    transmitted (frames.map Event.tx) = frames := by
  induction frames with
  | nil => simp [transmitted]
  | cons f rest ih => simp [transmitted, ih]

/-! ## Lemmas on the tick -/

theorem drop_queueBytes_cons (head : List Nat) (rest : List (List Nat)) :
    (queueBytes (head :: rest)).drop (head.length + 1) = queueBytes rest := by
  simp [queueBytes]

theorem removeFromBuffer_queueIs (s : State) (head : List Nat) (rest : List (List Nat))
    (hq : QueueIs s (head :: rest)) : QueueIs (removeFromBuffer s) rest := by
  obtain ⟨hb, hd⟩ := hq
  refine ⟨?_, ?_⟩
  · show (match s.bufferWrite with
      | [] => []
      | n :: r => (n :: r).drop (n + 1)) = queueBytes rest
    rw [hb]
    exact drop_queueBytes_cons head rest
  · show (match s.debugMsgs with
      | [] => []
      | _ :: r => r).length = rest.length
    cases hm : s.debugMsgs with
    | nil => rw [hm] at hd; simp at hd
    | cons i is => rw [hm] at hd; simpa using hd

theorem removeFromBuffer_fields (s : State) :
    (removeFromBuffer s).retrySend = 0 ∧ (removeFromBuffer s).initRequest = s.initRequest ∧
      (removeFromBuffer s).initDone = s.initDone ∧ (removeFromBuffer s).anyrun = s.anyrun :=
  ⟨rfl, rfl, rfl, rfl⟩

theorem retryExhaustion_lt (s : State) (h : s.retrySend < 6) :
    retryExhaustion s = some (s, []) := by
  have h6 : ¬ s.retrySend ≥ 6 := by omega
  unfold retryExhaustion
  rw [if_neg h6]
  rfl

theorem retryExhaustion_ge (s : State) (head : List Nat) (rest : List (List Nat))
    (hq : QueueIs s (head :: rest)) (h2 : 2 ≤ head.length) (h : 6 ≤ s.retrySend) :
    ∃ c p info, retryExhaustion s
      = some (removeFromBuffer s, [Event.answerNotReceived c p info]) := by
  obtain ⟨hb, hd⟩ := hq
  match head, h2 with
  | c :: p :: tl, _ =>
    cases hm : s.debugMsgs with
    | nil => rw [hm] at hd; simp at hd
    | cons i is =>
      refine ⟨c, p, i, ?_⟩
      unfold retryExhaustion
      rw [if_pos h, hb, hm]
      simp [queueBytes, rd]

theorem transmitStep_cons (K : Wire) (s : State) (head : List Nat) (rest : List (List Nat))
    (hq : QueueIs s (head :: rest)) :
    transmitStep K s
      = some ({ s with retrySend := s.retrySend + 1 },
          if (s.retrySend + 1) % 2 ≠ 0 then (writePayload K head).2.map Event.tx else []) := by
  obtain ⟨hb, hd⟩ := hq
  have hne : s.bufferWrite ≠ [] := by rw [hb]; simp [queueBytes]
  have hrd0 : rd s.bufferWrite 0 = some head.length := by
    rw [hb]; simp [queueBytes, rd]
  have hsl : slice s.bufferWrite 1 head.length = some head := by
    rw [hb]
    have : 1 + head.length ≤ (queueBytes (head :: rest)).length := by
      simp [queueBytes]; omega
    unfold slice
    rw [if_pos this]
    simp [queueBytes]
  obtain ⟨i, hdm⟩ : ∃ i, s.debugMsgs[0]? = some i := by
    have : 0 < s.debugMsgs.length := by rw [hd]; simp
    exact ⟨s.debugMsgs[0], List.getElem?_eq_getElem this⟩
  unfold transmitStep
  rw [if_pos hne]
  by_cases hodd : (s.retrySend + 1) % 2 ≠ 0
  · rw [if_pos hodd]
    dsimp only
    rw [if_pos hodd]
    simp only [hrd0, hsl, hdm, Option.bind_eq_bind, Option.some_bind, Option.pure_def]
  · rw [if_neg hodd]
    simp only [if_neg hodd]
    rfl

theorem transmitStep_nil (K : Wire) (s : State) (h : s.bufferWrite = []) :
    transmitStep K s = some (s, [Event.tx (frameOf K [K.FITSHOW_SYS_STATUS])]) := by
  have hne : ¬ s.bufferWrite ≠ [] := by simp [h]
  unfold transmitStep
  rw [if_neg hne]
  simp [writePayload, BLE_SERIALOUTPUT_MAXSIZE, writePayloadLoop, frameOf, xorChecksum]

theorem update_ready_eq (K : Wire) (env : Env) (s : State) (hready : env.ready)
    (hi : s.initRequest = false) (hd : s.initDone = true) :
    update K env s
      = (retryExhaustion (reconcile K env s).1).bind fun r2 =>
          (transmitStep K r2.1).bind fun r3 =>
            some (r3.1, (reconcile K env s).2 ++ r2.2 ++ r3.2) := by
  obtain ⟨h1, h2⟩ := hready
  unfold update
  simp only [h1, h2, hi, hd, Bool.not_true, Bool.false_eq_true, if_false, Bool.and_self,
    if_true]
  rfl

theorem sameButQueue_refl (s : State) : SameButQueue s s := rfl

theorem abstractTick_lt_nil (K : Wire) (retry : Nat) (h : retry < 6) :
    abstractTick K retry [] = ([], retry, [frameOf K [K.FITSHOW_SYS_STATUS]]) := by
  have h6 : ¬ retry ≥ 6 := by omega
  simp [abstractTick, h6]

theorem abstractTick_lt_cons (K : Wire) (retry : Nat) (h : retry < 6) (c : List Nat)
    (q : List (List Nat)) :
    abstractTick K retry (c :: q)
      = (c :: q, retry + 1, if (retry + 1) % 2 ≠ 0 then (writePayload K c).2 else []) := by
  have h6 : ¬ retry ≥ 6 := by omega
  simp [abstractTick, h6]

theorem abstractTick_ge_one (K : Wire) (retry : Nat) (h : 6 ≤ retry) (c : List Nat) :
    abstractTick K retry [c] = ([], 0, [frameOf K [K.FITSHOW_SYS_STATUS]]) := by
  simp [abstractTick, h]

theorem abstractTick_ge_cons (K : Wire) (retry : Nat) (h : 6 ≤ retry) (c d : List Nat)
    (q : List (List Nat)) :
    abstractTick K retry (c :: d :: q) = (d :: q, 1, (writePayload K d).2) := by
  simp [abstractTick, h]

/-- A tick in the ready state on a well-formed queue: the reconciler appends commands,
then the queue part of the tick acts as `abstractTick` says. When the retry counter has
reached 6 the queue must hold a head command of at least 2 bytes, which the diagnostic
reads. -/
theorem update_ready_spec (K : Wire) (env : Env) (s : State) (cmds : List (List Nat))
    (hready : env.ready) (hi : s.initRequest = false) (hd : s.initDone = true)
    (hq : QueueIs s cmds)
    (hx : 6 ≤ s.retrySend → ∃ head rest, cmds = head :: rest ∧ 2 ≤ head.length) :
    ∃ added s' evs, update K env s = some (s', evs) ∧
      Enqueued s (reconcile K env s).1 added ∧ WellSized added ∧
      SameButQueue (reconcile K env s).1 s' ∧
      s'.initRequest = false ∧ s'.initDone = true ∧
      QueueIs s' (abstractTick K s.retrySend (cmds ++ added)).1 ∧
      s'.retrySend = (abstractTick K s.retrySend (cmds ++ added)).2.1 ∧
      transmitted evs = (abstractTick K s.retrySend (cmds ++ added)).2.2 := by
  obtain ⟨added, hen, hw⟩ := grows_reconcile K env s
  have hqt := enqueued_queueIs hen hq
  have hrt : (reconcile K env s).1.retrySend = s.retrySend := hen.2.2.1
  have hti : (reconcile K env s).1.initRequest = false := hen.2.2.2.1.trans hi
  have htd : (reconcile K env s).1.initDone = true := hen.2.2.2.2.1 hd
  have htx := reconcile_transmitted K env s
  rw [update_ready_eq K env s hready hi hd]
  generalize (reconcile K env s).1 = t at hen hqt hrt hti htd
  generalize (reconcile K env s).2 = ev1 at htx
  refine ⟨added, ?_⟩
  by_cases hlt : s.retrySend < 6
  · rw [retryExhaustion_lt t (by omega)]
    simp only [Option.some_bind]
    cases hc : cmds ++ added with
    | nil =>
      rw [hc] at hqt
      rw [transmitStep_nil K t hqt.1, abstractTick_lt_nil K _ hlt]
      refine ⟨t, _, rfl, hen, hw, sameButQueue_refl t, hti, htd, hqt, hrt, ?_⟩
      simp [transmitted_append, htx, transmitted]
    | cons c q =>
      rw [hc] at hqt
      rw [transmitStep_cons K t c q hqt, abstractTick_lt_cons K _ hlt]
      refine ⟨_, _, rfl, hen, hw, rfl, hti, htd, ⟨hqt.1, hqt.2⟩, ?_, ?_⟩
      · show t.retrySend + 1 = s.retrySend + 1
        rw [hrt]
      · simp only [Option.some_bind, transmitted_append, htx, transmitted, List.nil_append,
          List.append_nil, hrt]
        split
        · exact transmitted_map_tx _
        · rfl
  · have h6 : 6 ≤ s.retrySend := by omega
    obtain ⟨head, rest, hcm, hh⟩ := hx h6
    subst hcm
    have hqt2 : QueueIs t (head :: (rest ++ added)) := by simpa using hqt
    obtain ⟨c, p, info, hre⟩ := retryExhaustion_ge t head (rest ++ added) hqt2 hh (by omega)
    have hqr := removeFromBuffer_queueIs t head (rest ++ added) hqt2
    rw [hre]
    simp only [Option.some_bind]
    cases hc : rest ++ added with
    | nil =>
      rw [hc] at hqr
      rw [transmitStep_nil K _ hqr.1]
      have ha : (head :: rest) ++ added = [head] := by simp [hc]
      rw [ha, abstractTick_ge_one K _ h6]
      refine ⟨_, _, rfl, hen, hw, rfl, hti, htd, hqr, rfl, ?_⟩
      simp [transmitted_append, htx, transmitted]
    | cons d q =>
      rw [hc] at hqr
      rw [transmitStep_cons K _ d q hqr]
      have ha : (head :: rest) ++ added = head :: d :: q := by simp [hc]
      rw [ha, abstractTick_ge_cons K _ h6]
      refine ⟨_, _, rfl, hen, hw, rfl, hti, htd, ⟨hqr.1, hqr.2⟩, rfl, ?_⟩
      simp only [Option.some_bind, transmitted_append, htx, transmitted, List.nil_append,
        List.append_nil]
      exact transmitted_map_tx _

/-- Ticks while the head command waits for its acknowledgment: as long as the retry
counter stays at most 6, every tick keeps the head, adds 1 to the counter and transmits
the head on the odd counts only. -/
theorem ticks_waiting (K : Wire) (head : List Nat) (envs : List Env) :
    ∀ (s : State) (rest : List (List Nat)), (∀ e ∈ envs, e.ready) →
      s.initRequest = false → s.initDone = true → QueueIs s (head :: rest) →
      s.retrySend + envs.length ≤ 6 →
      ∃ s' evs added, ticks K envs s = some (s', evs) ∧
        s'.initRequest = false ∧ s'.initDone = true ∧
        QueueIs s' (head :: rest ++ added) ∧ WellSized added ∧
        s'.retrySend = s.retrySend + envs.length ∧
        transmitted evs
          = (List.range' (s.retrySend + 1) envs.length).flatMap
              (fun r => if r % 2 ≠ 0 then (writePayload K head).2 else []) := by
  induction envs with
  | nil =>
    intro s rest _ hi hd hq _
    exact ⟨s, [], [], rfl, hi, hd, by simpa using hq, wellSized_nil, rfl, rfl⟩
  | cons e es ih =>
    intro s rest hr hi hd hq hn
    have hlen : s.retrySend + (es.length + 1) ≤ 6 := by simpa using hn
    have hlt : s.retrySend < 6 := by omega
    obtain ⟨a1, s1, ev1, hu, _, hw1, _, hi1, hd1, hq1, hr1, ht1⟩ :=
      update_ready_spec K e s (head :: rest) (hr e (by simp)) hi hd hq
        (fun h6 => absurd h6 (by omega))
    rw [List.cons_append, abstractTick_lt_cons K _ hlt] at hq1 hr1 ht1
    dsimp only at hq1 hr1 ht1
    obtain ⟨s2, ev2, a2, ht, hi2, hd2, hq2, hw2, hr2, ht2⟩ :=
      ih s1 (rest ++ a1) (fun e' he' => hr e' (by simp [he'])) hi1 hd1 hq1
        (by rw [hr1]; omega)
    refine ⟨s2, ev1 ++ ev2, a1 ++ a2, ?_, hi2, hd2, ?_, wellSized_append hw1 hw2, ?_, ?_⟩
    · simp only [ticks, hu, ht, Option.bind_eq_bind, Option.some_bind, Option.pure_def]
    · simpa [List.append_assoc] using hq2
    · rw [hr2, hr1]; simp; omega
    · rw [transmitted_append, ht1, ht2, hr1]
      simp [List.range'_succ, List.flatMap_cons]

/-! ## Lemmas on the decoder -/

theorem accepted_facts (K : Wire) (v : List Nat) (h : accepted K v = true) :
    4 ≤ v.length % 256 ∧ v.length % 256 ≤ v.length ∧
      ∃ cmd par, v[1]? = some cmd ∧ v[2]? = some par := by
  unfold accepted at h
  have h4 := ((checkIncomingPacket_spec K _).mp h).1
  rw [List.length_take] at h4
  have hle : v.length % 256 ≤ v.length := Nat.mod_le _ _
  have h1 : 1 < v.length := by omega
  have h2 : 2 < v.length := by omega
  exact ⟨by omega, hle, v[1], v[2], List.getElem?_eq_getElem h1, List.getElem?_eq_getElem h2⟩

theorem characteristicChanged_rejected (K : Wire) (env : Env) (s : State) (v : List Nat)
    (h : accepted K v = false) :
    characteristicChanged K env s v
      = some ({ s with lastPacket := v }, [Event.packetReceived, Event.invalidPacket]) := by
  unfold accepted at h
  unfold characteristicChanged
  simp only [h, Bool.not_false, if_true]

theorem characteristicChanged_accepted (K : Wire) (env : Env) (s : State) (v : List Nat)
    (cmd par : Nat) (h : accepted K v = true) (hc : v[1]? = some cmd)
    (hp : v[2]? = some par) :
    characteristicChanged K env s v
      = decodeAccepted K env { s with lastPacket := v } v (v.length % 256) cmd par := by
  unfold accepted at h
  have hc1 : rd (v.drop 1) 0 = some cmd := by
    unfold rd; rw [List.getElem?_drop]; exact hc
  have hp1 : rd (v.drop 1) 1 = some par := by
    unfold rd; rw [List.getElem?_drop]; exact hp
  unfold characteristicChanged
  simp only [h, Bool.not_true, Bool.false_eq_true, if_false, hc1, hp1]

theorem drop_cons_of_lt (l : List Nat) (i : Nat) (h : i < l.length) :
    l.drop i = l.getD i 0 :: l.drop (i + 1) := by
  rw [List.drop_eq_getElem_cons h, List.getD_eq_getElem?_getD, List.getElem?_eq_getElem h]
  rfl

theorem sameQueue_refl (s : State) : SameQueue s s := ⟨rfl, rfl, rfl, rfl, rfl, rfl⟩

theorem sameQueue_trans {s t u : State} (h1 : SameQueue s t) (h2 : SameQueue t u) :
    SameQueue s u :=
  ⟨h2.1.trans h1.1, h2.2.1.trans h1.2.1, h2.2.2.1.trans h1.2.2.1,
    h2.2.2.2.1.trans h1.2.2.2.1, h2.2.2.2.2.1.trans h1.2.2.2.2.1,
    h2.2.2.2.2.2.trans h1.2.2.2.2.2⟩

theorem sameQueue_grows {s t : State} (h : SameQueue s t) : Grows s t :=
  grows_fields (grows_refl s) h.1 h.2.1 h.2.2.1 h.2.2.2.1 (fun hd => h.2.2.2.2.1.trans hd)
    h.2.2.2.2.2

theorem ackStep_status (K : Wire) (s : State) (par : Nat) :
    ackStep K s K.FITSHOW_SYS_STATUS par = some s := by
  simp [ackStep, ackMatches]

theorem ackStep_queue (K : Wire) (s : State) (c p cmd par : Nat) (tl : List Nat)
    (rest : List (List Nat)) (hq : QueueIs s ((c :: p :: tl) :: rest))
    (hs : cmd ≠ K.FITSHOW_SYS_STATUS) :
    ackStep K s cmd par = some (if c = cmd ∧ p = par then removeFromBuffer s else s) := by
  have hb := hq.1
  have hne : s.bufferWrite ≠ [] := by rw [hb]; simp [queueBytes]
  have h1 : rd s.bufferWrite 1 = some c := by rw [hb]; simp [queueBytes, rd]
  have h2 : rd s.bufferWrite 2 = some p := by rw [hb]; simp [queueBytes, rd]
  unfold ackStep ackMatches
  rw [if_pos ⟨hs, hne⟩]
  simp only [h1, h2]
  by_cases hc : c = cmd
  · by_cases hp : p = par
    · simp [hc, hp]
    · simp [hc, hp]
  · simp [hc]

theorem infoSpeed_spec (s : State) (v : List Nat) (fl : Nat) (hfl : fl ≤ v.length) :
    ∃ t, infoSpeed s v fl = some t ∧ SameQueue s t := by
  unfold infoSpeed
  split_ifs <;> (try simp (disch := omega) only [drop_cons_of_lt]) <;>
    exact ⟨_, rfl, rfl, rfl, rfl, rfl, rfl, rfl⟩

theorem infoUnknown_spec (s : State) (v : List Nat) (fl : Nat) (hfl : fl ≤ v.length) :
    ∃ t, infoUnknown s v fl = some t ∧ SameQueue s t := by
  unfold infoUnknown
  split_ifs <;> (try simp (disch := omega) only [drop_cons_of_lt]) <;>
    exact ⟨_, rfl, rfl, rfl, rfl, rfl, rfl, rfl⟩

theorem infoIncline_spec (s : State) (v : List Nat) (fl : Nat) (hfl : fl ≤ v.length) :
    ∃ t, infoIncline s v fl = some t ∧ SameQueue s t := by
  unfold infoIncline
  split_ifs <;> (try simp (disch := omega) only [drop_cons_of_lt]) <;>
    (try split_ifs) <;> exact ⟨_, rfl, rfl, rfl, rfl, rfl, rfl, rfl⟩

theorem infoModel_spec (s : State) (v : List Nat) (fl : Nat) (hfl : fl ≤ v.length) :
    ∃ t, infoModel s v fl = some t ∧ SameQueue s t := by
  unfold infoModel
  split_ifs <;> (try simp (disch := omega) only [drop_cons_of_lt]) <;>
    exact ⟨_, rfl, rfl, rfl, rfl, rfl, rfl, rfl⟩

theorem infoTotal_spec (s : State) (v : List Nat) (fl : Nat) (hfl : fl ≤ v.length) :
    ∃ t, infoTotal s v fl = some t ∧ SameQueue s t := by
  unfold infoTotal
  split_ifs <;> (try simp (disch := omega) only [drop_cons_of_lt]) <;>
    exact ⟨_, rfl, rfl, rfl, rfl, rfl, rfl, rfl⟩

theorem infoDate_spec (s : State) (v : List Nat) (fl : Nat) (hfl : fl ≤ v.length) :
    ∃ t, infoDate s v fl = some t ∧ SameQueue s t := by
  unfold infoDate
  split_ifs <;> (try simp (disch := omega) only [drop_cons_of_lt]) <;>
    exact ⟨_, rfl, rfl, rfl, rfl, rfl, rfl, rfl⟩

theorem decodeSysInfo_spec (K : Wire) (s : State) (v : List Nat) (fl par : Nat)
    (hfl : fl ≤ v.length) :
    ∃ t, decodeSysInfo K s v fl par = some t ∧ SameQueue s t := by
  unfold decodeSysInfo
  split_ifs
  · exact infoSpeed_spec s v fl hfl
  · exact infoUnknown_spec s v fl hfl
  · exact infoIncline_spec s v fl hfl
  · exact infoModel_spec s v fl hfl
  · exact infoTotal_spec s v fl hfl
  · exact infoDate_spec s v fl hfl
  · exact ⟨s, rfl, sameQueue_refl s⟩

theorem decodeSysControl_spec (K : Wire) (s : State) (v : List Nat) (fl par : Nat)
    (hfl : fl ≤ v.length) :
    decodeSysControl K s v fl par = some { s with SYS_CONTROL_CMD := par } := by
  unfold decodeSysControl
  split_ifs <;> simp (disch := omega) only [drop_cons_of_lt]

theorem decodeFirst_spec (K : Wire) (s : State) (v : List Nat) (fl cmd par : Nat)
    (hfl : fl ≤ v.length) :
    ∃ t, decodeFirst K s v fl cmd par = some t ∧ SameQueue s t := by
  unfold decodeFirst
  split_ifs
  · exact decodeSysInfo_spec K s v fl par hfl
  · exact ⟨_, decodeSysControl_spec K s v fl par hfl, rfl, rfl, rfl, rfl, rfl, rfl⟩
  · exact ⟨s, rfl, sameQueue_refl s⟩

theorem decodeSysData_spec (K : Wire) (s : State) (v : List Nat) (fl par : Nat)
    (hfl : fl ≤ v.length) :
    ∃ r, decodeSysData K s (v.drop 1) (fl - 3) par = some r ∧ SameQueue s r.1 := by
  unfold decodeSysData
  split_ifs <;> (try simp (disch := omega) only [drop_cons_of_lt, List.drop_drop]) <;>
    refine ⟨_, rfl, ?_⟩
  · unfold dataInfoApply
    dsimp only
    split_ifs <;> exact ⟨rfl, rfl, rfl, rfl, rfl, rfl⟩
  · exact ⟨rfl, rfl, rfl, rfl, rfl, rfl⟩
  · unfold dataSportApply
    dsimp only
    split_ifs <;> exact ⟨rfl, rfl, rfl, rfl, rfl, rfl⟩
  · exact ⟨rfl, rfl, rfl, rfl, rfl, rfl⟩
  · exact ⟨rfl, rfl, rfl, rfl, rfl, rfl⟩

theorem statusStart_spec (s : State) (v : List Nat) (fl : Nat) (hfl : fl ≤ v.length) :
    ∃ t, statusStart s (v.drop 1) (fl - 3) = some t ∧ SameQueue s t ∧
      t.Speed = s.Speed ∧ t.Inclination = s.Inclination := by
  unfold statusStart
  split_ifs <;> (try simp (disch := omega) only [drop_cons_of_lt, List.drop_drop]) <;>
    exact ⟨_, rfl, ⟨rfl, rfl, rfl, rfl, rfl, rfl⟩, rfl, rfl⟩

theorem sendSportData_fields (K : Wire) (s : State) :
    sendSportData K s
      = { s with
          bufferWrite := (sendSportData K s).bufferWrite,
          debugMsgs := (sendSportData K s).debugMsgs } := by
  unfold sendSportData
  split_ifs <;> rfl

theorem zeroSpeedIncline_state (s : State) :
    (zeroSpeedIncline s).1 = { s with Speed := 0, Inclination := 0 } := by
  unfold zeroSpeedIncline
  by_cases h1 : s.Speed ≠ 0
  · by_cases h2 : s.Inclination ≠ 0
    · simp only [if_pos h1, if_pos h2]
    · simp only [if_pos h1, if_neg h2]
      have e2 : s.Inclination = 0 := not_not.mp h2
      cases s
      simp only [State.mk.injEq, true_and, and_true]
      exact e2
  · have e1 : s.Speed = 0 := not_not.mp h1
    by_cases h2 : s.Inclination ≠ 0
    · simp only [if_neg h1, if_pos h2]
      cases s
      simp only [State.mk.injEq, true_and, and_true]
      exact e1
    · have e2 : s.Inclination = 0 := not_not.mp h2
      simp only [if_neg h1, if_neg h2]
      cases s
      simp only [State.mk.injEq, true_and, and_true]
      exact ⟨e1, e2⟩

theorem zeroSpeedIncline_events (s : State) :
    (zeroSpeedIncline s).2
      = (if s.Speed ≠ 0 then [Event.speedChanged 0] else [])
        ++ (if s.Inclination ≠ 0 then [Event.inclinationChanged 0 0] else []) := by
  unfold zeroSpeedIncline
  by_cases h1 : s.Speed ≠ 0 <;> by_cases h2 : s.Inclination ≠ 0 <;>
    simp only [if_pos h1, if_neg h1, if_pos h2, if_neg h2]

theorem sendSportData_keeps (K : Wire) (s : State) :
    (sendSportData K s).Speed = s.Speed ∧ (sendSportData K s).Inclination = s.Inclination ∧
      (sendSportData K s).KCal = s.KCal ∧ (sendSportData K s).Distance = s.Distance ∧
      (sendSportData K s).lastInclination = s.lastInclination ∧
      (sendSportData K s).lastSpeed = s.lastSpeed := by
  unfold sendSportData
  split_ifs <;> exact ⟨rfl, rfl, rfl, rfl, rfl, rfl⟩

theorem statusOther_spec (K : Wire) (s : State) (v : List Nat) (fl par : Nat)
    (hfl : fl ≤ v.length) :
    ∃ t, statusOther K s (v.drop 1) (fl - 3) par = some t ∧ Grows s t ∧
      t.Speed = s.Speed ∧ t.Inclination = s.Inclination := by
  unfold statusOther
  split_ifs <;> (try simp (disch := omega) only [drop_cons_of_lt, List.drop_drop])
  · exact ⟨_, rfl,
      grows_fields (grows_sendSportData K (grows_refl s)) rfl rfl rfl rfl (fun h => h) rfl,
      (sendSportData_keeps K s).1, (sendSportData_keeps K s).2.1⟩
  · exact ⟨_, rfl, grows_fields (grows_refl s) rfl rfl rfl rfl (fun h => h) rfl, rfl, rfl⟩
  · exact ⟨_, rfl,
      grows_sendSportData K (grows_fields (grows_refl s) rfl rfl rfl rfl (fun h => h) rfl),
      (sendSportData_keeps K _).1, (sendSportData_keeps K _).2.1⟩
  · exact ⟨_, rfl, grows_refl s, rfl, rfl⟩
  · exact ⟨_, rfl,
      grows_sendSportData K (grows_fields (grows_refl s) rfl rfl rfl rfl (fun h => h) rfl),
      (sendSportData_keeps K _).1, (sendSportData_keeps K _).2.1⟩
  · exact ⟨_, rfl, grows_refl s, rfl, rfl⟩

theorem statusOther_unlisted (K : Wire) (s : State) (array : List Nat) (len par : Nat)
    (h1 : par ≠ K.FITSHOW_STATUS_NORMAL) (h2 : par ≠ K.FITSHOW_STATUS_STUDY)
    (h3 : par ≠ K.FITSHOW_STATUS_ERROR) (h4 : par ≠ K.FITSHOW_STATUS_SAFETY) :
    statusOther K s array len par = some s := by
  unfold statusOther
  rw [if_neg h1, if_neg h2, if_neg h3, if_neg h4]

theorem telemetryFlags_keeps (K : Wire) (s : State) (par : Nat) :
    (telemetryFlags K s par).Speed = s.Speed ∧
      (telemetryFlags K s par).Inclination = s.Inclination ∧
      (telemetryFlags K s par).MAX_INCLINE = s.MAX_INCLINE ∧
      (telemetryFlags K s par).anyrun = s.anyrun ∧
      Grows s (telemetryFlags K s par) := by
  unfold telemetryFlags
  split_ifs <;>
    exact ⟨rfl, rfl, rfl, rfl, grows_fields (grows_refl s) rfl rfl rfl rfl (fun h => h) rfl⟩

theorem telemetryClock_keeps (env : Env) (s : State) (speed : ℚ) :
    (telemetryClock env s speed).Speed = s.Speed ∧
      (telemetryClock env s speed).Inclination = s.Inclination ∧
      Grows s (telemetryClock env s speed) := by
  unfold telemetryClock
  dsimp only
  split_ifs <;>
    exact ⟨rfl, rfl, grows_fields (grows_refl s) rfl rfl rfl rfl (fun h => h) rfl⟩

theorem telemetrySpeed_spec (s : State) (speed : ℚ) :
    (telemetrySpeed s speed).1.Speed = speed ∧
      (telemetrySpeed s speed).1.Inclination = s.Inclination ∧
      (telemetrySpeed s speed).2 = (if s.Speed ≠ speed then [Event.speedChanged speed] else []) ∧
      Grows s (telemetrySpeed s speed).1 := by
  unfold telemetrySpeed
  split_ifs with h
  · exact ⟨rfl, rfl, rfl, grows_fields (grows_refl s) rfl rfl rfl rfl (fun h => h) rfl⟩
  · exact ⟨not_not.mp h, rfl, rfl, grows_refl s⟩

theorem telemetryInclination_spec (s : State) (incline : ℚ) :
    (telemetryInclination s incline).1.Inclination = incline ∧
      (telemetryInclination s incline).1.Speed = s.Speed ∧
      (telemetryInclination s incline).2
        = (if s.Inclination ≠ incline then [Event.inclinationChanged 0 incline] else []) ∧
      Grows s (telemetryInclination s incline).1 := by
  unfold telemetryInclination
  split_ifs with h
  · exact ⟨rfl, rfl, rfl, grows_fields (grows_refl s) rfl rfl rfl rfl (fun h => h) rfl⟩
  · exact ⟨not_not.mp h, rfl, rfl, grows_refl s⟩

theorem telemetryMetrics_spec (env : Env) (s : State) (kcal : ℚ) (sec : Nat)
    (distance heart : ℚ) :
    (telemetryMetrics env s kcal sec distance heart).Speed = s.Speed ∧
      (telemetryMetrics env s kcal sec distance heart).Inclination = s.Inclination ∧
      (telemetryMetrics env s kcal sec distance heart).KCal = kcal ∧
      (telemetryMetrics env s kcal sec distance heart).Distance = distance ∧
      Grows s (telemetryMetrics env s kcal sec distance heart) := by
  unfold telemetryMetrics
  dsimp only
  split_ifs <;>
    exact ⟨rfl, rfl, rfl, rfl, grows_fields (grows_refl s) rfl rfl rfl rfl (fun h => h) rfl⟩

theorem telemetryLast_spec (K : Wire) (env : Env) (s : State) (par : Nat) (speed incline : ℚ) :
    (telemetryLast K env s par speed incline).Speed = s.Speed ∧
      (telemetryLast K env s par speed incline).Inclination = s.Inclination ∧
      (telemetryLast K env s par speed incline).KCal = s.KCal ∧
      (telemetryLast K env s par speed incline).Distance = s.Distance ∧
      (speed > 0 → (telemetryLast K env s par speed incline).lastInclination = incline) ∧
      Grows s (telemetryLast K env s par speed incline) := by
  unfold telemetryLast
  dsimp only
  by_cases hs : speed > 0
  · simp only [if_pos hs]
    split_ifs
    · obtain ⟨k1, k2, k3, k4, k5, _⟩ := sendSportData_keeps K
        { ({ s with lastSpeed := speed, lastInclination := incline } : State) with
          lastTimeCharacteristicChanged := env.nowMSecs, firstCharacteristicChanged := false }
      exact ⟨k1, k2, k3, k4, fun _ => k5,
        grows_sendSportData K (grows_fields (grows_refl s) rfl rfl rfl rfl (fun h => h) rfl)⟩
    · exact ⟨rfl, rfl, rfl, rfl, fun _ => rfl,
        grows_fields (grows_refl s) rfl rfl rfl rfl (fun h => h) rfl⟩
  · simp only [if_neg hs]
    split_ifs
    · obtain ⟨k1, k2, k3, k4, _, _⟩ := sendSportData_keeps K
        { s with
          lastTimeCharacteristicChanged := env.nowMSecs, firstCharacteristicChanged := false }
      exact ⟨k1, k2, k3, k4, fun h => absurd h hs,
        grows_sendSportData K (grows_fields (grows_refl s) rfl rfl rfl rfl (fun h => h) rfl)⟩
    · exact ⟨rfl, rfl, rfl, rfl, fun h => absurd h hs,
        grows_fields (grows_refl s) rfl rfl rfl rfl (fun h => h) rfl⟩

/-- What the telemetry block leaves in the state and notifies. -/
theorem telemetryApply_spec (K : Wire) (env : Env) (s : State) (par : Nat)
    (speed incline : ℚ) (sec : Nat) (distance kcal heart : ℚ) :
    (telemetryApply K env s par speed incline sec distance kcal heart).1.Speed = speed ∧
      (telemetryApply K env s par speed incline sec distance kcal heart).1.Inclination
        = (if s.MAX_INCLINE = 0 then 0 else incline) ∧
      (telemetryApply K env s par speed incline sec distance kcal heart).1.KCal = kcal ∧
      (telemetryApply K env s par speed incline sec distance kcal heart).1.Distance
        = distance ∧
      (speed > 0 →
        (telemetryApply K env s par speed incline sec distance kcal heart).1.lastInclination
          = (if s.MAX_INCLINE = 0 then 0 else incline)) ∧
      (telemetryApply K env s par speed incline sec distance kcal heart).2
        = (if s.Speed ≠ speed then [Event.speedChanged speed] else [])
          ++ (if s.Inclination ≠ (if s.MAX_INCLINE = 0 then 0 else incline) then
                [Event.inclinationChanged 0 (if s.MAX_INCLINE = 0 then 0 else incline)]
              else []) ∧
      Grows s (telemetryApply K env s par speed incline sec distance kcal heart).1 := by
  unfold telemetryApply
  dsimp only
  generalize (if s.MAX_INCLINE = 0 then (0 : ℚ) else incline) = inc
  obtain ⟨c1, c2, c3⟩ := telemetryClock_keeps env s speed
  generalize telemetryClock env s speed = s3 at c1 c2 c3 ⊢
  obtain ⟨d1, d2, d3, d4⟩ := telemetrySpeed_spec s3 speed
  generalize telemetrySpeed s3 speed = r4 at d1 d2 d3 d4 ⊢
  obtain ⟨e1, e2, e3, e4⟩ := telemetryInclination_spec r4.1 inc
  generalize telemetryInclination r4.1 inc = r5 at e1 e2 e3 e4 ⊢
  obtain ⟨f1, f2, f3, f4, f5⟩ := telemetryMetrics_spec env r5.1 kcal sec distance heart
  generalize telemetryMetrics env r5.1 kcal sec distance heart = s9 at f1 f2 f3 f4 f5 ⊢
  obtain ⟨g1, g2, g3, g4, g5, g6⟩ := telemetryLast_spec K env s9 par speed inc
  refine ⟨?_, ?_, ?_, ?_, g5, ?_, ?_⟩
  · rw [g1, f1, e2, d1]
  · rw [g2, f2, e1]
  · rw [g3, f3]
  · rw [g4, f4]
  · rw [d3, e3, d2, c1, c2]
  · exact grows_trans (grows_trans (grows_trans (grows_trans c3 d4) e4) f5) g6

theorem decodeTelemetry_short (K : Wire) (env : Env) (s : State) (array : List Nat)
    (fl par : Nat) (h : fl < 17) : decodeTelemetry K env s array fl par = some (s, []) := by
  have h17 : ¬ fl ≥ 17 := by omega
  unfold decodeTelemetry
  rw [if_neg h17]

theorem decodeTelemetry_long (K : Wire) (env : Env) (s : State) (v : List Nat)
    (fl par : Nat) (hfl : fl ≤ v.length) (h17 : 17 ≤ fl) :
    decodeTelemetry K env s (v.drop 1) fl par
      = some
          ((telemetryApply K env (telemetryFlags K s par) par ((v.getD 3 0 : ℚ) / 10)
              (v.getD 4 0 : ℚ) (elapsedOf s.anyrun (v.getD 5 0) (v.getD 6 0))
              ((field16 s.anyrun (v.getD 7 0) (v.getD 8 0) : ℚ) / 10)
              (field16 s.anyrun (v.getD 9 0) (v.getD 10 0) : ℚ) (v.getD 13 0 : ℚ)).1,
            Event.debugStepCount (field16 s.anyrun (v.getD 11 0) (v.getD 12 0) % 65536) ::
              (telemetryApply K env (telemetryFlags K s par) par ((v.getD 3 0 : ℚ) / 10)
                (v.getD 4 0 : ℚ) (elapsedOf s.anyrun (v.getD 5 0) (v.getD 6 0))
                ((field16 s.anyrun (v.getD 7 0) (v.getD 8 0) : ℚ) / 10)
                (field16 s.anyrun (v.getD 9 0) (v.getD 10 0) : ℚ) (v.getD 13 0 : ℚ)).2) := by
  unfold decodeTelemetry
  rw [if_pos h17, List.drop_drop]
  simp (disch := omega) only [drop_cons_of_lt, Nat.reduceAdd]

theorem decodeTelemetry_grows (K : Wire) (env : Env) (s : State) (v : List Nat)
    (fl par : Nat) (hfl : fl ≤ v.length) :
    ∃ r, decodeTelemetry K env s (v.drop 1) fl par = some r ∧ Grows s r.1 := by
  by_cases h17 : 17 ≤ fl
  · rw [decodeTelemetry_long K env s v fl par hfl h17]
    exact ⟨_, rfl, grows_trans (telemetryFlags_keeps K s par).2.2.2.2
      (telemetryApply_spec K env _ par _ _ _ _ _ _).2.2.2.2.2.2⟩
  · rw [decodeTelemetry_short K env s _ fl par (by omega)]
    exact ⟨_, rfl, grows_refl s⟩

theorem decodeSysStatus_grows (K : Wire) (env : Env) (s : State) (v : List Nat)
    (fl par : Nat) (hfl : fl ≤ v.length) :
    ∃ r, decodeSysStatus K env s (v.drop 1) fl (fl - 3) par = some r ∧ Grows s r.1 := by
  have g0 : Grows s { s with CURRENT_STATUS := par } :=
    grows_fields (grows_refl s) rfl rfl rfl rfl (fun h => h) rfl
  unfold decodeSysStatus
  dsimp only
  split_ifs
  · obtain ⟨t, ht, hq, _⟩ := statusStart_spec { s with CURRENT_STATUS := par } v fl hfl
    rw [ht]
    exact ⟨_, rfl, grows_trans g0 (sameQueue_grows hq)⟩
  · obtain ⟨r, hr, hg⟩ := decodeTelemetry_grows K env { s with CURRENT_STATUS := par } v fl par hfl
    exact ⟨r, hr, grows_trans g0 hg⟩
  · obtain ⟨t, ht, hg, _⟩ := statusOther_spec K { s with CURRENT_STATUS := par } v fl par hfl
    rw [ht]
    refine ⟨_, rfl, ?_⟩
    rw [zeroSpeedIncline_state]
    exact grows_fields (grows_trans g0 hg) rfl rfl rfl rfl (fun h => h) rfl

theorem decodeSecond_same (K : Wire) (env : Env) (s : State) (v : List Nat)
    (fl cmd par : Nat) (hfl : fl ≤ v.length) (hs : cmd ≠ K.FITSHOW_SYS_STATUS) :
    ∃ r, decodeSecond K env s (v.drop 1) fl (fl - 3) cmd par = some r ∧ SameQueue s r.1 := by
  unfold decodeSecond
  rw [if_neg hs]
  split_ifs
  · exact decodeSysData_spec K s v fl par hfl
  · exact ⟨_, rfl, sameQueue_refl s⟩

/-- An accepted frame whose command is not `FITSHOW_SYS_STATUS`, on a queue whose head
command starts with the bytes `c`, `p`: the head is removed exactly when `(c, p)` is the
`(cmd, par)` of the frame, and nothing else happens to the queue. -/
theorem characteristicChanged_nonstatus (K : Wire) (env : Env) (s : State) (v : List Nat)
    (cmd par c p : Nat) (tl : List Nat) (rest : List (List Nat))
    (h : accepted K v = true) (hc : v[1]? = some cmd) (hp : v[2]? = some par)
    (hs : cmd ≠ K.FITSHOW_SYS_STATUS) (hq : QueueIs s ((c :: p :: tl) :: rest)) :
    ∃ s' evs, characteristicChanged K env s v = some (s', evs) ∧
      SameQueue
        (if c = cmd ∧ p = par then removeFromBuffer { s with lastPacket := v }
          else { s with lastPacket := v }) s' := by
  obtain ⟨_, hfl, _⟩ := accepted_facts K v h
  have hq0 : QueueIs { s with lastPacket := v } ((c :: p :: tl) :: rest) := hq
  rw [characteristicChanged_accepted K env s v cmd par h hc hp]
  unfold decodeAccepted
  rw [ackStep_queue K _ c p cmd par tl rest hq0 hs]
  generalize (if c = cmd ∧ p = par then removeFromBuffer { s with lastPacket := v }
    else { s with lastPacket := v }) = s1
  obtain ⟨s2, h2, q2⟩ := decodeFirst_spec K s1 v (v.length % 256) cmd par hfl
  obtain ⟨r3, h3, q3⟩ := decodeSecond_same K env s2 v (v.length % 256) cmd par hfl hs
  simp only [h2, h3]
  exact ⟨_, _, rfl, sameQueue_trans q2 q3⟩

/-- An accepted status frame only appends to the queue, whatever the queue holds. -/
theorem characteristicChanged_status_grows (K : Wire) (env : Env) (s : State) (v : List Nat)
    (par : Nat) (h : accepted K v = true) (hc : v[1]? = some K.FITSHOW_SYS_STATUS)
    (hp : v[2]? = some par) :
    ∃ s' evs, characteristicChanged K env s v = some (s', evs) ∧ Grows s s' := by
  obtain ⟨_, hfl, _⟩ := accepted_facts K v h
  have g0 : Grows s { s with lastPacket := v } :=
    grows_fields (grows_refl s) rfl rfl rfl rfl (fun h => h) rfl
  rw [characteristicChanged_accepted K env s v _ par h hc hp]
  unfold decodeAccepted
  rw [ackStep_status]
  obtain ⟨s2, h2, q2⟩ :=
    decodeFirst_spec K { s with lastPacket := v } v (v.length % 256) K.FITSHOW_SYS_STATUS par hfl
  obtain ⟨r3, h3, g3⟩ := decodeSysStatus_grows K env s2 v (v.length % 256) par hfl
  have h3b : decodeSecond K env s2 (v.drop 1) (v.length % 256) (v.length % 256 - 3)
      K.FITSHOW_SYS_STATUS par = some r3 := by
    unfold decodeSecond
    rw [if_pos rfl]
    exact h3
  simp only [h2, h3b]
  exact ⟨_, _, rfl, grows_trans (grows_trans g0 (sameQueue_grows q2)) g3⟩

/-- An accepted status frame, when the status command code differs from the info and
control command codes: the frame is decoded by the status block alone. -/
theorem characteristicChanged_status_eq (K : Wire) (env : Env) (s : State) (v : List Nat)
    (par : Nat) (h : accepted K v = true) (hc : v[1]? = some K.FITSHOW_SYS_STATUS)
    (hp : v[2]? = some par) (hi : K.FITSHOW_SYS_STATUS ≠ K.FITSHOW_SYS_INFO)
    (hk : K.FITSHOW_SYS_STATUS ≠ K.FITSHOW_SYS_CONTROL) (r : State × List Event)
    (hr : decodeSysStatus K env { s with lastPacket := v } (v.drop 1) (v.length % 256)
      (v.length % 256 - 3) par = some r) :
    characteristicChanged K env s v = some (r.1, Event.packetReceived :: r.2) := by
  rw [characteristicChanged_accepted K env s v _ par h hc hp]
  unfold decodeAccepted
  rw [ackStep_status]
  have h2 : decodeFirst K { s with lastPacket := v } v (v.length % 256)
      K.FITSHOW_SYS_STATUS par = some { s with lastPacket := v } := by
    unfold decodeFirst
    rw [if_neg hi, if_neg hk]
  have h3 : decodeSecond K env { s with lastPacket := v } (v.drop 1) (v.length % 256)
      (v.length % 256 - 3) K.FITSHOW_SYS_STATUS par = some r := by
    unfold decodeSecond
    rw [if_pos rfl]
    exact hr
  simp only [h2, h3]

/-! ## Lemmas for the claims on the queue -/

theorem writePayload_frameOf (K : Wire) (payload : List Nat) (h : payload.length ≤ 22) :
    (writePayload K payload).2 = [frameOf K payload] := by
  rw [writePayload_frame K payload h]
  rfl

/-- A tick in the ready state while the head command waits (retry counter below 6). -/
theorem update_head_waiting (K : Wire) (env : Env) (s : State) (head : List Nat)
    (rest : List (List Nat)) (hready : env.ready) (hi : s.initRequest = false)
    (hd : s.initDone = true) (hq : QueueIs s (head :: rest)) (h22 : head.length ≤ 22)
    (hr : s.retrySend < 6) :
    ∃ s' evs added, update K env s = some (s', evs) ∧
      s'.initRequest = false ∧ s'.initDone = true ∧
      QueueIs s' (head :: rest ++ added) ∧ s'.retrySend = s.retrySend + 1 ∧
      transmitted evs = if (s.retrySend + 1) % 2 = 1 then [frameOf K head] else [] := by
  obtain ⟨a1, s1, ev1, hu, _, _, _, hi1, hd1, hq1, hr1, ht1⟩ :=
    update_ready_spec K env s (head :: rest) hready hi hd hq (fun h6 => absurd h6 (by omega))
  rw [List.cons_append, abstractTick_lt_cons K _ hr] at hq1 hr1 ht1
  dsimp only at hq1 hr1 ht1
  refine ⟨s1, ev1, a1, hu, hi1, hd1, hq1, hr1, ?_⟩
  rw [ht1, writePayload_frameOf K head h22]
  by_cases hodd : (s.retrySend + 1) % 2 = 1
  · have : (s.retrySend + 1) % 2 ≠ 0 := by omega
    rw [if_pos this, if_pos hodd]
  · have : ¬ (s.retrySend + 1) % 2 ≠ 0 := by omega
    rw [if_neg this, if_neg hodd]

/-! ## Lemmas for the claims on the session and on the intents -/

theorem intents_scheduleWrite (s : State) (data : List Nat) (info : Info) :
    intents (scheduleWrite s data info) = intents s := rfl

theorem intents_forceSpeedOrIncline (K : Wire) (s : State) (a b : ℚ) :
    intents (forceSpeedOrIncline K s a b) = intents s := by
  unfold forceSpeedOrIncline
  split_ifs <;> rfl

theorem intents_btinitLoop (K : Wire) (infos : List Nat) :
    ∀ (par : Nat) (s : State), intents (btinitLoop K infos par s) = intents s := by
  induction infos with
  | nil => intro par s; rfl
  | cons info rest ih =>
    intro par s
    rw [btinitLoop]
    split_ifs <;> first | rfl | (rw [ih]; rfl)

theorem intents_ite (c : Prop) [Decidable c] (a b s : State) (ha : intents a = intents s)
    (hb : intents b = intents s) : intents (if c then a else b) = intents s := by
  split_ifs
  · exact ha
  · exact hb

theorem intents_btinit (K : Wire) (env : Env) (s : State) (startTape : Bool) :
    intents (btinit K env s startTape) = intents s := by
  unfold btinit
  have h2 : ∀ (d1 d2 : List Nat) (i1 i2 : Info),
      intents (if (!s.anyrun) = true then scheduleWrite (scheduleWrite s d1 i1) d2 i2
        else scheduleWrite s d1 i1) = intents s :=
    fun d1 d2 i1 i2 => intents_ite _ _ _ _ rfl rfl
  have h3 : ∀ (d1 d2 : List Nat) (i1 i2 : Info) (l : List Nat) (p : Nat),
      intents (btinitLoop K l p
        (if (!s.anyrun) = true then scheduleWrite (scheduleWrite s d1 i1) d2 i2
          else scheduleWrite s d1 i1)) = intents s :=
    fun d1 d2 i1 i2 l p => (intents_btinitLoop K l p _).trans (h2 d1 d2 i1 i2)
  exact intents_ite (startTape = true) _ _ s
    ((intents_forceSpeedOrIncline K _ _ _).trans
      ((intents_scheduleWrite _ _ _).trans (h3 _ _ _ _ _ _)))
    (h3 _ _ _ _ _ _)

theorem intents_eq_iff (s : State) (a b : ℚ) (c d : Int) :
    intents s = (a, b, c, d) ↔
      s.requestSpeed = a ∧ s.requestInclination = b ∧ s.requestStart = c ∧
        s.requestStop = d := by
  unfold intents
  simp only [Prod.mk.injEq]

theorem intents_eq_parts {s t : State} (h : intents t = intents s) :
    t.requestSpeed = s.requestSpeed ∧ t.requestInclination = s.requestInclination ∧
      t.requestStart = s.requestStart ∧ t.requestStop = s.requestStop :=
  (intents_eq_iff t _ _ _ _).mp h

theorem reconcileSpeed_intents (K : Wire) (s : State) :
    (reconcileSpeed K s).requestSpeed = -1 ∧
      (reconcileSpeed K s).requestStart = s.requestStart ∧
      (reconcileSpeed K s).requestStop = s.requestStop := by
  have f1 := intents_eq_parts (intents_forceSpeedOrIncline K
    { s with requestInclination := -1 } s.requestSpeed
    (chaseIncline s.requestInclination s.Inclination))
  have f2 := intents_eq_parts (intents_forceSpeedOrIncline K s s.requestSpeed s.Inclination)
  unfold reconcileSpeed
  by_cases h1 : s.requestSpeed ≠ -1
  · rw [if_pos h1]
    by_cases h2 : s.requestSpeed ≠ s.Speed
    · by_cases h3 : s.requestInclination ≠ -1
      · simp only [if_pos h2, if_pos h3]
        exact ⟨trivial, f1.2.2.1, f1.2.2.2⟩
      · simp only [if_pos h2, if_neg h3]
        exact ⟨trivial, f2.2.2.1, f2.2.2.2⟩
    · simp only [if_neg h2]
      exact ⟨trivial, trivial, trivial⟩
  · rw [if_neg h1]
    exact ⟨not_not.mp h1, rfl, rfl⟩

theorem reconcileInclination_intents (K : Wire) (s : State) (hs : s.requestSpeed = -1) :
    (reconcileInclination K s).requestSpeed = -1 ∧
      (reconcileInclination K s).requestInclination = -1 ∧
      (reconcileInclination K s).requestStart = s.requestStart ∧
      (reconcileInclination K s).requestStop = s.requestStop := by
  have f2 := intents_eq_parts (intents_forceSpeedOrIncline K s s.Speed
    (chaseIncline s.requestInclination s.Inclination))
  have h3 : ¬ s.requestSpeed ≠ -1 := not_not.mpr hs
  unfold reconcileInclination
  by_cases h1 : s.requestInclination ≠ -1
  · rw [if_pos h1]
    by_cases h2 : s.requestInclination ≠ s.Inclination
    · simp only [if_pos h2, if_neg h3]
      exact ⟨f2.1.trans hs, trivial, f2.2.2.1, f2.2.2.2⟩
    · simp only [if_neg h2]
      exact ⟨hs, trivial, trivial, trivial⟩
  · rw [if_neg h1]
    exact ⟨hs, not_not.mp h1, rfl, rfl⟩

theorem reconcileStart_intents (K : Wire) (env : Env) (s : State) :
    (reconcileStart K env s).1.requestSpeed = s.requestSpeed ∧
      (reconcileStart K env s).1.requestInclination = s.requestInclination ∧
      (reconcileStart K env s).1.requestStart = -1 ∧
      (reconcileStart K env s).1.requestStop = s.requestStop := by
  have e : intents (if s.lastSpeed = 0 then { s with lastSpeed := 1 / 2 } else s)
      = intents s := intents_ite _ _ _ _ rfl rfl
  have h := intents_eq_parts ((intents_btinit K env
    (if s.lastSpeed = 0 then { s with lastSpeed := 1 / 2 } else s) true).trans e)
  unfold reconcileStart
  by_cases h1 : s.requestStart ≠ -1
  · rw [if_pos h1]
    exact ⟨h.1, h.2.1, rfl, h.2.2.2⟩
  · rw [if_neg h1]
    exact ⟨rfl, rfl, not_not.mp h1, rfl⟩

theorem reconcileStop_intents (K : Wire) (env : Env) (s : State) :
    (reconcileStop K env s).requestSpeed = s.requestSpeed ∧
      (reconcileStop K env s).requestInclination = s.requestInclination ∧
      (reconcileStop K env s).requestStart = s.requestStart ∧
      (reconcileStop K env s).requestStop = -1 := by
  unfold reconcileStop
  by_cases h1 : s.requestStop ≠ -1
  · rw [if_pos h1]
    by_cases h2 : s.paused = true
    · simp only [if_pos h2]
      exact ⟨rfl, rfl, rfl, trivial⟩
    · simp only [if_neg h2]
      exact ⟨rfl, rfl, rfl, trivial⟩
  · rw [if_neg h1]
    exact ⟨rfl, rfl, rfl, not_not.mp h1⟩

/-- After the control reconciler every intent holds the unset value -1. -/
theorem reconcile_intents (K : Wire) (env : Env) (s : State) :
    intents (reconcile K env s).1 = (-1, -1, -1, -1) := by
  unfold reconcile
  obtain ⟨a1, a3, a4⟩ := reconcileSpeed_intents K s
  obtain ⟨b1, b2, b3, b4⟩ := reconcileInclination_intents K (reconcileSpeed K s) a1
  obtain ⟨c1, c2, c3, c4⟩ :=
    reconcileStart_intents K env (reconcileInclination K (reconcileSpeed K s))
  obtain ⟨d1, d2, d3, d4⟩ := reconcileStop_intents K env
    (reconcileStart K env (reconcileInclination K (reconcileSpeed K s))).1
  rw [intents_eq_iff]
  exact ⟨d1.trans (c1.trans b1), d2.trans (c2.trans b2), d3.trans c3, d4⟩

theorem sameButQueue_intents {s t : State} (h : SameButQueue s t) : intents t = intents s := by
  unfold SameButQueue at h
  rw [h]
  rfl

/-! ## Lemmas for the claims on status frames -/

theorem decodeSysStatus_start (K : Wire) (env : Env) (s : State) (array : List Nat)
    (fl len : Nat) :
    decodeSysStatus K env s array fl len K.FITSHOW_STATUS_START
      = match statusStart { s with CURRENT_STATUS := K.FITSHOW_STATUS_START } array len with
        | some t => some (t, [])
        | none => none := by
  unfold decodeSysStatus
  rw [if_pos rfl]

theorem decodeSysStatus_telemetry (K : Wire) (env : Env) (s : State) (array : List Nat)
    (fl len par : Nat) (hst : par ≠ K.FITSHOW_STATUS_START)
    (htel : par = K.FITSHOW_STATUS_RUNNING ∨ par = K.FITSHOW_STATUS_STOP ∨
      par = K.FITSHOW_STATUS_PAUSED ∨ par = K.FITSHOW_STATUS_END) :
    decodeSysStatus K env s array fl len par
      = decodeTelemetry K env { s with CURRENT_STATUS := par } array fl par := by
  unfold decodeSysStatus
  rw [if_neg hst, if_pos htel]

theorem decodeSysStatus_other (K : Wire) (env : Env) (s : State) (array : List Nat)
    (fl len par : Nat) (hst : par ≠ K.FITSHOW_STATUS_START)
    (h1 : par ≠ K.FITSHOW_STATUS_RUNNING) (h2 : par ≠ K.FITSHOW_STATUS_STOP)
    (h3 : par ≠ K.FITSHOW_STATUS_PAUSED) (h4 : par ≠ K.FITSHOW_STATUS_END) :
    decodeSysStatus K env s array fl len par
      = match statusOther K { s with CURRENT_STATUS := par } array len par with
        | some s1 => some (zeroSpeedIncline s1)
        | none => none := by
  have htel : ¬ (par = K.FITSHOW_STATUS_RUNNING ∨ par = K.FITSHOW_STATUS_STOP ∨
      par = K.FITSHOW_STATUS_PAUSED ∨ par = K.FITSHOW_STATUS_END) := by
    rintro (h | h | h | h)
    · exact h1 h
    · exact h2 h
    · exact h3 h
    · exact h4 h
  unfold decodeSysStatus
  rw [if_neg hst, if_neg htel]

/-- An accepted telemetry status frame whose length byte `full_len` is at least 17 is
decoded by `telemetryApply` from the frame bytes 3 to 13, in a state that has the
public speed, the public incline and the incline limit of the state before. -/
theorem characteristicChanged_telemetry (K : Wire) (env : Env) (s : State) (v : List Nat)
    (par : Nat) (h : accepted K v = true) (hc : v[1]? = some K.FITSHOW_SYS_STATUS)
    (hp : v[2]? = some par) (hi : K.FITSHOW_SYS_STATUS ≠ K.FITSHOW_SYS_INFO)
    (hk : K.FITSHOW_SYS_STATUS ≠ K.FITSHOW_SYS_CONTROL)
    (hst : par ≠ K.FITSHOW_STATUS_START)
    (htel : par = K.FITSHOW_STATUS_RUNNING ∨ par = K.FITSHOW_STATUS_STOP ∨
      par = K.FITSHOW_STATUS_PAUSED ∨ par = K.FITSHOW_STATUS_END)
    (h17 : 17 ≤ v.length % 256) :
    ∃ s1 : State, s1.Speed = s.Speed ∧ s1.Inclination = s.Inclination ∧
      s1.MAX_INCLINE = s.MAX_INCLINE ∧
      characteristicChanged K env s v
        = some
          ((telemetryApply K env s1 par ((v.getD 3 0 : ℚ) / 10) (v.getD 4 0 : ℚ)
              (elapsedOf s.anyrun (v.getD 5 0) (v.getD 6 0))
              ((field16 s.anyrun (v.getD 7 0) (v.getD 8 0) : ℚ) / 10)
              (field16 s.anyrun (v.getD 9 0) (v.getD 10 0) : ℚ) (v.getD 13 0 : ℚ)).1,
            Event.packetReceived ::
              Event.debugStepCount (field16 s.anyrun (v.getD 11 0) (v.getD 12 0) % 65536) ::
              (telemetryApply K env s1 par ((v.getD 3 0 : ℚ) / 10) (v.getD 4 0 : ℚ)
                (elapsedOf s.anyrun (v.getD 5 0) (v.getD 6 0))
                ((field16 s.anyrun (v.getD 7 0) (v.getD 8 0) : ℚ) / 10)
                (field16 s.anyrun (v.getD 9 0) (v.getD 10 0) : ℚ) (v.getD 13 0 : ℚ)).2) := by
  obtain ⟨_, hfl, _⟩ := accepted_facts K v h
  obtain ⟨k1, k2, k3, _, _⟩ :=
    telemetryFlags_keeps K { ({ s with lastPacket := v } : State) with CURRENT_STATUS := par } par
  refine ⟨telemetryFlags K
    { ({ s with lastPacket := v } : State) with CURRENT_STATUS := par } par, k1, k2, k3, ?_⟩
  have hr := decodeTelemetry_long K env
    { ({ s with lastPacket := v } : State) with CURRENT_STATUS := par } v (v.length % 256) par
    hfl h17
  rw [← decodeSysStatus_telemetry K env _ _ _ (v.length % 256 - 3) par hst htel] at hr
  exact characteristicChanged_status_eq K env s v par h hc hp hi hk _ hr

/-- An accepted status frame with a sub-command outside the start and telemetry codes:
the status codes are applied, then the public speed and incline are set to 0. -/
theorem characteristicChanged_status_other (K : Wire) (env : Env) (s : State) (v : List Nat)
    (par : Nat) (h : accepted K v = true) (hc : v[1]? = some K.FITSHOW_SYS_STATUS)
    (hp : v[2]? = some par) (hi : K.FITSHOW_SYS_STATUS ≠ K.FITSHOW_SYS_INFO)
    (hk : K.FITSHOW_SYS_STATUS ≠ K.FITSHOW_SYS_CONTROL)
    (hst : par ≠ K.FITSHOW_STATUS_START)
    (h1 : par ≠ K.FITSHOW_STATUS_RUNNING) (h2 : par ≠ K.FITSHOW_STATUS_STOP)
    (h3 : par ≠ K.FITSHOW_STATUS_PAUSED) (h4 : par ≠ K.FITSHOW_STATUS_END) :
    ∃ t : State,
      statusOther K { ({ s with lastPacket := v } : State) with CURRENT_STATUS := par }
        (v.drop 1) (v.length % 256 - 3) par = some t ∧
      t.Speed = s.Speed ∧ t.Inclination = s.Inclination ∧
      characteristicChanged K env s v
        = some ({ t with Speed := 0, Inclination := 0 },
            Event.packetReceived ::
              ((if s.Speed ≠ 0 then [Event.speedChanged 0] else [])
                ++ (if s.Inclination ≠ 0 then [Event.inclinationChanged 0 0] else []))) := by
  obtain ⟨_, hfl, _⟩ := accepted_facts K v h
  obtain ⟨t, ht, _, hts, hti⟩ := statusOther_spec K
    { ({ s with lastPacket := v } : State) with CURRENT_STATUS := par } v (v.length % 256) par hfl
  refine ⟨t, ht, hts, hti, ?_⟩
  have hr : decodeSysStatus K env { s with lastPacket := v } (v.drop 1) (v.length % 256)
      (v.length % 256 - 3) par = some (zeroSpeedIncline t) := by
    rw [decodeSysStatus_other K env _ _ _ _ par hst h1 h2 h3 h4, ht]
  rw [characteristicChanged_status_eq K env s v par h hc hp hi hk _ hr,
    zeroSpeedIncline_state, zeroSpeedIncline_events, hts, hti]

theorem ackStep_nil (K : Wire) (s : State) (cmd par : Nat) (h : s.bufferWrite = []) :
    ackStep K s cmd par = some s := by
  simp [ackStep, ackMatches, h]

theorem decodeFirst_unlisted (K : Wire) (s : State) (v : List Nat) (fl cmd par : Nat)
    (hk : cmd ≠ K.FITSHOW_SYS_CONTROL)
    (hinfo : cmd = K.FITSHOW_SYS_INFO →
      par ≠ K.FITSHOW_INFO_SPEED ∧ par ≠ K.FITSHOW_INFO_UNKNOWN ∧
        par ≠ K.FITSHOW_INFO_INCLINE ∧ par ≠ K.FITSHOW_INFO_MODEL ∧
        par ≠ K.FITSHOW_INFO_TOTAL ∧ par ≠ K.FITSHOW_INFO_DATE) :
    decodeFirst K s v fl cmd par = some s := by
  unfold decodeFirst
  by_cases hc : cmd = K.FITSHOW_SYS_INFO
  · obtain ⟨h1, h2, h3, h4, h5, h6⟩ := hinfo hc
    rw [if_pos hc]
    unfold decodeSysInfo
    rw [if_neg h1, if_neg h2, if_neg h3, if_neg h4, if_neg h5, if_neg h6]
  · rw [if_neg hc, if_neg hk]

theorem decodeSecond_unlisted (K : Wire) (env : Env) (s : State) (array : List Nat)
    (fl len cmd par : Nat) (hs : cmd ≠ K.FITSHOW_SYS_STATUS)
    (hdata : cmd = K.FITSHOW_SYS_DATA →
      par ≠ K.FITSHOW_DATA_INFO ∧ par ≠ K.FITSHOW_DATA_SPORT) :
    decodeSecond K env s array fl len cmd par = some (s, []) := by
  unfold decodeSecond
  rw [if_neg hs]
  by_cases hc : cmd = K.FITSHOW_SYS_DATA
  · obtain ⟨h1, h2⟩ := hdata hc
    rw [if_pos hc]
    unfold decodeSysData
    rw [if_neg h1, if_neg h2]
  · rw [if_neg hc]

/-- An accepted frame that no decode block handles: only the acknowledgment step runs. -/
theorem characteristicChanged_unlisted (K : Wire) (env : Env) (s : State) (v : List Nat)
    (cmd par : Nat) (h : accepted K v = true) (hc : v[1]? = some cmd)
    (hp : v[2]? = some par) (hs : cmd ≠ K.FITSHOW_SYS_STATUS)
    (hk : cmd ≠ K.FITSHOW_SYS_CONTROL)
    (hinfo : cmd = K.FITSHOW_SYS_INFO →
      par ≠ K.FITSHOW_INFO_SPEED ∧ par ≠ K.FITSHOW_INFO_UNKNOWN ∧
        par ≠ K.FITSHOW_INFO_INCLINE ∧ par ≠ K.FITSHOW_INFO_MODEL ∧
        par ≠ K.FITSHOW_INFO_TOTAL ∧ par ≠ K.FITSHOW_INFO_DATE)
    (hdata : cmd = K.FITSHOW_SYS_DATA →
      par ≠ K.FITSHOW_DATA_INFO ∧ par ≠ K.FITSHOW_DATA_SPORT)
    (s1 : State) (hack : ackStep K { s with lastPacket := v } cmd par = some s1) :
    characteristicChanged K env s v = some (s1, [Event.packetReceived]) := by
  rw [characteristicChanged_accepted K env s v cmd par h hc hp]
  unfold decodeAccepted
  simp only [hack, decodeFirst_unlisted K s1 v _ cmd par hk hinfo,
    decodeSecond_unlisted K env s1 _ _ _ cmd par hs hdata]

/-! ## Lemmas on the byte conversions, the clamp and the byte order -/

/-- The conversion `(uint8_t)x` of a value between two byte-sized bounds is its floor. -/
theorem castUInt8_bounds (x : ℚ) (lo hi : Nat) (hlo : (lo : ℚ) ≤ x)
    (hhi : x < (hi : ℚ) + 1) (h : hi < 256) :
    (castUInt8 x : ℤ) = ⌊x⌋ ∧ lo ≤ castUInt8 x ∧ castUInt8 x ≤ hi := by
  have h0 : (0 : ℚ) ≤ x := le_trans (Nat.cast_nonneg lo) hlo
  have hf0 : (lo : ℤ) ≤ ⌊x⌋ := Int.le_floor.mpr (by exact_mod_cast hlo)
  have hf1 : ⌊x⌋ < (hi : ℤ) + 1 := Int.floor_lt.mpr (by push_cast; exact hhi)
  have hc : (castUInt8 x : ℤ) = ⌊x⌋ := by
    unfold castUInt8 truncQ
    rw [if_pos h0, Int.toNat_of_nonneg (Int.emod_nonneg _ (by norm_num))]
    exact Int.emod_eq_of_lt (by omega) (by omega)
  exact ⟨hc, by omega, by omega⟩

theorem floor_natCast_add_half (n : Nat) : ⌊(n : ℚ) + 1 / 2⌋ = (n : ℤ) := by
  rw [Int.floor_eq_iff]
  constructor
  · push_cast
    linarith
  · push_cast
    linarith

theorem clampSpeed_cases (s : State) (x : ℚ) :
    (x ≥ s.MAX_SPEED → clampSpeed s x = s.MAX_SPEED) ∧
      (x < s.MAX_SPEED → x ≤ s.MIN_SPEED → clampSpeed s x = s.MIN_SPEED) ∧
      (x < s.MAX_SPEED → (s.MIN_SPEED : ℚ) < x → clampSpeed s x = x) := by
  unfold clampSpeed
  refine ⟨fun h => if_pos h, fun h1 h2 => ?_, fun h1 h2 => ?_⟩
  · rw [if_neg (not_le.mpr h1), if_pos h2]
  · rw [if_neg (not_le.mpr h1), if_neg (not_le.mpr h2)]

theorem clampIncline_cases (s : State) (x : ℚ) :
    (x ≥ s.MAX_INCLINE → clampIncline s x = s.MAX_INCLINE) ∧
      (x < s.MAX_INCLINE → x ≤ s.MIN_INCLINE → clampIncline s x = s.MIN_INCLINE) ∧
      (x < s.MAX_INCLINE → (s.MIN_INCLINE : ℚ) < x → clampIncline s x = x) := by
  unfold clampIncline
  refine ⟨fun h => if_pos h, fun h1 h2 => ?_, fun h1 h2 => ?_⟩
  · rw [if_neg (not_le.mpr h1), if_pos h2]
  · rw [if_neg (not_le.mpr h1), if_neg (not_le.mpr h2)]

theorem clampSpeed_range (s : State) (x : ℚ) (h : s.MIN_SPEED ≤ s.MAX_SPEED) :
    (s.MIN_SPEED : ℚ) ≤ clampSpeed s x ∧ clampSpeed s x ≤ s.MAX_SPEED := by
  have hq : (s.MIN_SPEED : ℚ) ≤ s.MAX_SPEED := by exact_mod_cast h
  obtain ⟨c1, c2, c3⟩ := clampSpeed_cases s x
  by_cases h1 : x ≥ s.MAX_SPEED
  · rw [c1 h1]
    exact ⟨hq, le_refl _⟩
  · have h1' := not_le.mp h1
    by_cases h2 : x ≤ s.MIN_SPEED
    · rw [c2 h1' h2]
      exact ⟨le_refl _, hq⟩
    · rw [c3 h1' (not_le.mp h2)]
      exact ⟨le_of_lt (not_le.mp h2), le_of_lt h1'⟩

theorem clampIncline_range (s : State) (x : ℚ) (h : s.MIN_INCLINE ≤ s.MAX_INCLINE) :
    (s.MIN_INCLINE : ℚ) ≤ clampIncline s x ∧ clampIncline s x ≤ s.MAX_INCLINE := by
  have hq : (s.MIN_INCLINE : ℚ) ≤ s.MAX_INCLINE := by exact_mod_cast h
  obtain ⟨c1, c2, c3⟩ := clampIncline_cases s x
  by_cases h1 : x ≥ s.MAX_INCLINE
  · rw [c1 h1]
    exact ⟨hq, le_refl _⟩
  · have h1' := not_le.mp h1
    by_cases h2 : x ≤ s.MIN_INCLINE
    · rw [c2 h1' h2]
      exact ⟨le_refl _, hq⟩
    · rw [c3 h1' (not_le.mp h2)]
      exact ⟨le_of_lt (not_le.mp h2), le_of_lt h1'⟩

/-- The speed byte of `forceSpeedOrIncline`, from the clamped tenths: the binary64 sum
with 0.5, truncated; it lies between the limits. -/
theorem speedByte_spec (s : State) (x : ℚ) (h : s.MIN_SPEED ≤ s.MAX_SPEED)
    (hb : s.MAX_SPEED < 256) :
    (castUInt8 (binary64 (clampSpeed s x + 1 / 2)) : ℤ)
        = ⌊binary64 (clampSpeed s x + 1 / 2)⌋ ∧
      s.MIN_SPEED ≤ castUInt8 (binary64 (clampSpeed s x + 1 / 2)) ∧
      castUInt8 (binary64 (clampSpeed s x + 1 / 2)) ≤ s.MAX_SPEED := by
  obtain ⟨r1, r2⟩ := clampSpeed_range s x h
  have l1 := nat_half_le_binary64 (clampSpeed s x + 1 / 2) s.MIN_SPEED (by omega)
    (by linarith)
  have l2 := binary64_le_nat_half (clampSpeed s x + 1 / 2) s.MAX_SPEED hb (by linarith)
  exact castUInt8_bounds _ _ _ (by linarith) (by linarith) hb

/-- The incline byte of `forceSpeedOrIncline`: the clamped incline truncated. -/
theorem inclineByte_spec (s : State) (x : ℚ) (h : s.MIN_INCLINE ≤ s.MAX_INCLINE)
    (hb : s.MAX_INCLINE < 256) :
    (castUInt8 (clampIncline s x) : ℤ) = ⌊clampIncline s x⌋ ∧
      s.MIN_INCLINE ≤ castUInt8 (clampIncline s x) ∧
      castUInt8 (clampIncline s x) ≤ s.MAX_INCLINE := by
  obtain ⟨r1, r2⟩ := clampIncline_range s x h
  exact castUInt8_bounds _ _ _ r1 (by linarith) hb

theorem truncQ_of_nonneg (x : ℚ) (h : 0 ≤ x) : truncQ x = ⌊x⌋ := by
  unfold truncQ
  rw [if_pos h]

theorem btinit_queue (K : Wire) (env : Env) (s : State) :
    (btinit K env s false).bufferWrite
      = s.bufferWrite ++ queueBytes (initCommands K env s.anyrun) := by
  cases ha : s.anyrun <;>
    simp [btinit, btinitLoop, scheduleWrite, initCommands, userProfileCommand,
      modelDateCommand, queueBytes, ha]

theorem btinit_labels (K : Wire) (env : Env) (s : State) :
    (btinit K env s false).debugMsgs.length
      = s.debugMsgs.length + (initCommands K env s.anyrun).length := by
  cases ha : s.anyrun <;>
    simp [btinit, btinitLoop, scheduleWrite, initCommands, ha]

theorem btinit_start_queue (K : Wire) (env : Env) (s : State) :
    (btinit K env s true).bufferWrite
      = (btinit K env s false).bufferWrite
        ++ queueBytes
            (startTapeCommand K ::
              (if s.MAX_SPEED > 0 then [targetCommand K s s.lastSpeed s.lastInclination]
                else [])) := by
  by_cases hm : s.MAX_SPEED > 0 <;> cases ha : s.anyrun <;>
    simp [btinit, btinitLoop, scheduleWrite, forceSpeedOrIncline, startTapeCommand,
      targetCommand, clampSpeed, clampIncline, queueBytes, ha, hm]

theorem btinit_done (K : Wire) (env : Env) (s : State) (startTape : Bool) :
    (btinit K env s startTape).initDone = true := rfl

theorem btinit_frame (K : Wire) (env : Env) (s : State) :
    { btinit K env s false with
        bufferWrite := s.bufferWrite, debugMsgs := s.debugMsgs, initDone := s.initDone } = s := by
  cases s with
  | mk anyrun => cases anyrun <;> rfl

/-! ## Lemmas on the acknowledgment step and on the capability frames -/

/-- On a well-formed queue the acknowledgment step reads inside the queue: it keeps the
state, or removes the head command when this one starts with `cmd`, `par`. -/
theorem ackStep_total (K : Wire) (s : State) (cmd par : Nat) (cmds : List (List Nat))
    (hq : QueueIs s cmds) (hw : ∀ head rest, cmds = head :: rest → 2 ≤ head.length) :
    ∃ s1, ackStep K s cmd par = some s1 ∧
      (s1 = s ∨ (s1 = removeFromBuffer s ∧ ∃ tl rest, cmds = (cmd :: par :: tl) :: rest)) := by
  by_cases hs : cmd = K.FITSHOW_SYS_STATUS
  · subst hs
    exact ⟨s, ackStep_status K s par, Or.inl rfl⟩
  · cases cmds with
    | nil => exact ⟨s, ackStep_nil K s cmd par hq.1, Or.inl rfl⟩
    | cons head rest =>
      have h2 := hw head rest rfl
      match head, h2 with
      | c :: p :: tl, _ =>
        refine ⟨_, ackStep_queue K s c p cmd par tl rest hq hs, ?_⟩
        by_cases hm : c = cmd ∧ p = par
        · rw [if_pos hm]
          exact Or.inr ⟨rfl, tl, rest, by rw [hm.1, hm.2]⟩
        · rw [if_neg hm]
          exact Or.inl rfl

/-- An accepted frame that is not a status frame, after an acknowledgment step that
read inside the queue: the decoder returns a state with the same queue. -/
theorem characteristicChanged_of_ack (K : Wire) (env : Env) (s : State) (v : List Nat)
    (cmd par : Nat) (h : accepted K v = true) (hc : v[1]? = some cmd)
    (hp : v[2]? = some par) (hs : cmd ≠ K.FITSHOW_SYS_STATUS) (s1 : State)
    (hack : ackStep K { s with lastPacket := v } cmd par = some s1) :
    ∃ s' evs, characteristicChanged K env s v = some (s', evs) ∧ SameQueue s1 s' := by
  obtain ⟨_, hfl, _⟩ := accepted_facts K v h
  rw [characteristicChanged_accepted K env s v cmd par h hc hp]
  unfold decodeAccepted
  rw [hack]
  obtain ⟨s2, h2, q2⟩ := decodeFirst_spec K s1 v (v.length % 256) cmd par hfl
  obtain ⟨r3, h3, q3⟩ := decodeSecond_same K env s2 v (v.length % 256) cmd par hfl hs
  simp only [h2, h3]
  exact ⟨_, _, rfl, sameQueue_trans q2 q3⟩

/-- An accepted `SYS_INFO` frame: after the acknowledgment step only the block of the
sub-command runs. -/
theorem characteristicChanged_info (K : Wire) (env : Env) (s : State) (v : List Nat)
    (par : Nat) (h : accepted K v = true) (hc : v[1]? = some K.FITSHOW_SYS_INFO)
    (hp : v[2]? = some par) (hs : K.FITSHOW_SYS_INFO ≠ K.FITSHOW_SYS_STATUS)
    (hd : K.FITSHOW_SYS_INFO ≠ K.FITSHOW_SYS_DATA) (s1 t : State)
    (hack : ackStep K { s with lastPacket := v } K.FITSHOW_SYS_INFO par = some s1)
    (ht : decodeSysInfo K s1 v (v.length % 256) par = some t) :
    characteristicChanged K env s v = some (t, [Event.packetReceived]) := by
  rw [characteristicChanged_accepted K env s v _ par h hc hp]
  unfold decodeAccepted decodeFirst decodeSecond
  simp only [hack, if_true, ht, if_neg hs, if_neg hd]

theorem infoIncline_fields (s : State) (v : List Nat) (fl : Nat) (hfl : fl ≤ v.length) :
    ∃ t, infoIncline s v fl = some t ∧
      (fl < 7 → t = { s with MAX_INCLINE := 0 }) ∧
      (7 ≤ fl →
        t = { s with
              MAX_INCLINE := v.getD 3 0, MIN_INCLINE := v.getD 4 0,
              IS_PAUSE := if 7 < fl ∧ v.getD 5 0 &&& 2 ≠ 0 then true else s.IS_PAUSE }) := by
  unfold infoIncline
  by_cases h7 : fl < 7
  · rw [if_pos h7]
    exact ⟨_, rfl, fun _ => rfl, fun h => absurd h (by omega)⟩
  · rw [if_neg h7]
    by_cases h8 : fl > 7
    · simp (disch := omega) only [drop_cons_of_lt, if_pos h8]
      by_cases hb : v.getD 5 0 &&& 2 ≠ 0
      · rw [if_pos hb]
        refine ⟨_, rfl, fun h => absurd h h7, fun _ => ?_⟩
        rw [if_pos ⟨h8, hb⟩]
      · rw [if_neg hb]
        refine ⟨_, rfl, fun h => absurd h h7, fun _ => ?_⟩
        rw [if_neg (fun hx => hb hx.2)]
    · simp (disch := omega) only [drop_cons_of_lt, if_neg h8]
      refine ⟨_, rfl, fun h => absurd h h7, fun _ => ?_⟩
      rw [if_neg (fun hx => h8 hx.1)]

/-! ## Lemmas on the reconciler, on consecutive ticks and on reachable states -/

theorem reconcile_idle (K : Wire) (env : Env) (s : State)
    (h : intents s = (-1, -1, -1, -1)) : reconcile K env s = (s, []) := by
  obtain ⟨h1, h2, h3, h4⟩ := (intents_eq_iff _ _ _ _ _).mp h
  unfold reconcile reconcileStop reconcileStart reconcileInclination reconcileSpeed
  simp only [h1, h2, h3, h4, ne_eq, not_true_eq_false, if_false]

theorem abstractTick_six (K : Wire) (h : List Nat) (t : List (List Nat)) :
    abstractTick K 6 (h :: t) = abstractTick K 0 t := by
  simp [abstractTick]

theorem abstractTicks_add (K : Wire) (a b : Nat) :
    ∀ (r : Nat) (q : List (List Nat)),
      abstractTicks K (a + b) r q
        = ((abstractTicks K b (abstractTicks K a r q).2.1 (abstractTicks K a r q).1).1,
            (abstractTicks K b (abstractTicks K a r q).2.1 (abstractTicks K a r q).1).2.1,
            (abstractTicks K a r q).2.2
              ++ (abstractTicks K b (abstractTicks K a r q).2.1 (abstractTicks K a r q).1).2.2) := by
  induction a with
  | zero =>
    intro r q
    simp [abstractTicks]
  | succ a ih =>
    intro r q
    rw [Nat.add_right_comm]
    simp only [abstractTicks, ih, List.append_assoc]

theorem abstractTicks_six (K : Wire) (h : List Nat) (t : List (List Nat))
    (h22 : h.length ≤ 22) :
    abstractTicks K 6 0 (h :: t) = (h :: t, 6, [frameOf K h, frameOf K h, frameOf K h]) := by
  simp [abstractTicks, abstractTick, writePayload_frameOf K h h22]

theorem abstractTicks_from_six (K : Wire) (n : Nat) (h : List Nat) (t : List (List Nat)) :
    abstractTicks K (n + 1) 6 (h :: t) = abstractTicks K (n + 1) 0 t := by
  simp only [abstractTicks, abstractTick_six]

/-- The queue part of `6 n + 1` ticks from retry counter 0 on `n` commands of at most
22 bytes: each command is sent three times, in order, the queue is empty at the end
and the last tick sends the status poll. -/
theorem abstractTicks_drain (K : Wire) (q : List (List Nat))
    (hw : ∀ c ∈ q, c.length ≤ 22) :
    abstractTicks K (6 * q.length + 1) 0 q
      = ([], 0, q.flatMap (fun c => [frameOf K c, frameOf K c, frameOf K c])
          ++ [frameOf K [K.FITSHOW_SYS_STATUS]]) := by
  induction q with
  | nil => simp [abstractTicks, abstractTick, frameOf, writePayload_frameOf]
  | cons h t ih =>
    have e : 6 * (h :: t).length + 1 = 6 + (6 * t.length + 1) := by
      simp only [List.length_cons]
      omega
    rw [e, abstractTicks_add, abstractTicks_six K h t (hw h (List.mem_cons_self _ _))]
    simp only [abstractTicks_from_six, ih (fun c hc => hw c (List.mem_cons_of_mem _ hc)),
      List.flatMap_cons, List.append_assoc]

/-- One step of `abstractTick` keeps the bound of the retry counter, the link between
an empty queue and counter 0, and returns the queue or its tail. -/
theorem abstractTick_inv (K : Wire) (r : Nat) (q : List (List Nat)) (h6 : r ≤ 6)
    (h0 : q = [] → r = 0) :
    (abstractTick K r q).2.1 ≤ 6 ∧
      ((abstractTick K r q).1 = [] → (abstractTick K r q).2.1 = 0) ∧
      ((abstractTick K r q).1 = q ∨ (abstractTick K r q).1 = q.tail) := by
  unfold abstractTick
  by_cases h : r ≥ 6
  · simp only [if_pos h]
    cases hq : q.tail with
    | nil =>
      dsimp only
      exact ⟨by omega, fun _ => rfl, Or.inr rfl⟩
    | cons a b =>
      dsimp only
      exact ⟨by omega, fun hn => absurd hn (by simp), Or.inr rfl⟩
  · simp only [if_neg h]
    cases q with
    | nil =>
      dsimp only
      exact ⟨by omega, fun _ => h0 rfl, Or.inl rfl⟩
    | cons a b =>
      dsimp only
      exact ⟨by omega, fun hn => absurd hn (by simp), Or.inl rfl⟩

theorem wellSized_tail {q : List (List Nat)} (h : WellSized q) : WellSized q.tail :=
  fun c hc => h c (List.mem_of_mem_tail hc)

theorem queueInv_head {s : State} {cmds : List (List Nat)} (hw : WellSized cmds)
    (h0 : cmds = [] → s.retrySend = 0) (h : 6 ≤ s.retrySend) :
    ∃ head rest, cmds = head :: rest ∧ 2 ≤ head.length := by
  cases cmds with
  | nil =>
    have := h0 rfl
    omega
  | cons head rest => exact ⟨head, rest, rfl, (hw head (List.mem_cons_self _ _)).1⟩

theorem queueInv_grows {s t : State} (h : QueueInv s) (hg : Grows s t) : QueueInv t := by
  obtain ⟨cmds, hq, hw, h6, h0⟩ := h
  obtain ⟨added, he, hwa⟩ := hg
  refine ⟨cmds ++ added, enqueued_queueIs he hq, wellSized_append hw hwa, ?_, ?_⟩
  · rw [he.2.2.1]
    exact h6
  · intro hn
    rw [he.2.2.1]
    exact h0 (List.append_eq_nil.mp hn).1

theorem queueInv_same {s t : State} (h : QueueInv s) (hb : t.bufferWrite = s.bufferWrite)
    (hm : t.debugMsgs = s.debugMsgs) (hr : t.retrySend = s.retrySend) : QueueInv t := by
  obtain ⟨cmds, hq, hw, h6, h0⟩ := h
  refine ⟨cmds, ⟨by rw [hb]; exact hq.1, by rw [hm]; exact hq.2⟩, hw, by rw [hr]; exact h6, ?_⟩
  intro hn
  rw [hr]
  exact h0 hn

/-- A tick keeps the invariant of the queue and the retry counter. -/
theorem queueInv_update (K : Wire) (env : Env) (s s' : State) (evs : List Event)
    (h : QueueInv s) (hu : update K env s = some (s', evs)) : QueueInv s' := by
  by_cases hc : env.controllerUp = true
  · by_cases hi : s.initRequest = true
    · have e : update K env s
          = some (btinit K env { s with initRequest := false }
              (decide (({ s with initRequest := false } : State).lastSpeed > 0)), []) := by
        unfold update
        simp only [hc, hi, Bool.not_true, Bool.false_eq_true, if_false, if_true]
      rw [e] at hu
      cases hu
      have h1 : QueueInv ({ s with initRequest := false } : State) :=
        queueInv_same h rfl rfl rfl
      exact queueInv_grows h1 (grows_btinit K env (grows_refl _) _)
    · have hi' : s.initRequest = false := by simpa using hi
      by_cases hl : env.linkDiscovered = true
      · by_cases hd : s.initDone = true
        · obtain ⟨cmds, hq, hw, h6, h0⟩ := h
          obtain ⟨added, s1, ev1, hu1, _, hwa, _, _, _, hq1, hr1, _⟩ :=
            update_ready_spec K env s cmds ⟨hc, hl⟩ hi' hd hq (queueInv_head hw h0)
          rw [hu1] at hu
          cases hu
          obtain ⟨b1, b2, b3⟩ := abstractTick_inv K s.retrySend (cmds ++ added) h6
            (fun hn => h0 (List.append_eq_nil.mp hn).1)
          refine ⟨_, hq1, ?_, by rw [hr1]; exact b1, fun hn => by rw [hr1]; exact b2 hn⟩
          rcases b3 with b3 | b3
          · rw [b3]
            exact wellSized_append hw hwa
          · rw [b3]
            exact wellSized_tail (wellSized_append hw hwa)
        · have hd' : s.initDone = false := by simpa using hd
          have e : update K env s = some (s, []) := by
            unfold update
            simp only [hc, hi', hd', Bool.not_true, Bool.false_eq_true, if_false,
              Bool.and_false]
          rw [e] at hu
          cases hu
          exact h
      · have hl' : env.linkDiscovered = false := by simpa using hl
        have e : update K env s = some (s, []) := by
          unfold update
          simp only [hc, hi', hl', Bool.not_true, Bool.false_eq_true, if_false,
            Bool.false_and]
        rw [e] at hu
        cases hu
        exact h
  · have hc' : env.controllerUp = false := by simpa using hc
    have e : update K env s = some (s, [Event.disconnected]) := by
      unfold update
      simp only [hc', Bool.not_false, if_true]
    rw [e] at hu
    cases hu
    exact h

/-- A notified value keeps the invariant of the queue and the retry counter. -/
theorem queueInv_characteristicChanged (K : Wire) (env : Env) (s s' : State) (v : List Nat)
    (evs : List Event) (h : QueueInv s)
    (hc : characteristicChanged K env s v = some (s', evs)) : QueueInv s' := by
  by_cases ha : accepted K v = true
  · obtain ⟨_, _, cmd, par, hcm, hp⟩ := accepted_facts K v ha
    by_cases hs : cmd = K.FITSHOW_SYS_STATUS
    · subst hs
      obtain ⟨s1, ev1, h1, hg⟩ := characteristicChanged_status_grows K env s v par ha hcm hp
      rw [h1] at hc
      cases hc
      exact queueInv_grows h hg
    · obtain ⟨cmds, hq, hw, h6, h0⟩ := h
      have hq0 : QueueIs { s with lastPacket := v } cmds := hq
      obtain ⟨s1, hack, hs1⟩ := ackStep_total K _ cmd par cmds hq0
        (fun head rest e => (hw head (by rw [e]; exact List.mem_cons_self _ _)).1)
      obtain ⟨s2, ev2, h2, hsame⟩ :=
        characteristicChanged_of_ack K env s v cmd par ha hcm hp hs s1 hack
      rw [h2] at hc
      cases hc
      have hinv1 : QueueInv s1 := by
        rcases hs1 with hs1 | ⟨hs1, tl, rest, hcm⟩
        · rw [hs1]
          exact ⟨cmds, hq0, hw, h6, h0⟩
        · rw [hs1]
          subst hcm
          exact ⟨rest, removeFromBuffer_queueIs _ _ rest hq0, wellSized_tail hw,
            Nat.zero_le _, fun _ => rfl⟩
      exact queueInv_same hinv1 hsame.1 hsame.2.1 hsame.2.2.1
  · have ha' : accepted K v = false := by simpa using ha
    rw [characteristicChanged_rejected K env s v ha'] at hc
    cases hc
    exact queueInv_same h rfl rfl rfl

/-- Every reachable state satisfies the invariant of the queue and the retry counter. -/
theorem reachable_queueInv (K : Wire) (s : State) (h : Reachable K s) : QueueInv s := by
  induction h with
  | init s hb hm hr =>
    exact ⟨[], ⟨hb, by rw [hm]; rfl⟩, wellSized_nil, by omega, fun _ => hr⟩
  | enqueue s data info _ h2 h22 ih =>
    exact queueInv_grows ih ⟨[data], scheduleWrite_enqueued s data info, wellSized_single data h2 h22⟩
  | tick s s' env evs _ hu ih => exact queueInv_update K env s s' evs ih hu
  | frame s s' env v evs _ hc ih => exact queueInv_characteristicChanged K env s s' v evs ih hc
  | external s t _ hb hm hr ih => exact queueInv_same ih hb hm hr

/-- Consecutive ticks in the ready state with no intent pending follow `abstractTicks`. -/
theorem ticks_idle (K : Wire) (envs : List Env) :
    ∀ (s : State) (cmds : List (List Nat)), (∀ e ∈ envs, e.ready) →
      s.initRequest = false → s.initDone = true → intents s = (-1, -1, -1, -1) →
      QueueIs s cmds → WellSized cmds → s.retrySend ≤ 6 → (cmds = [] → s.retrySend = 0) →
      ∃ s' evs, ticks K envs s = some (s', evs) ∧
        QueueIs s' (abstractTicks K envs.length s.retrySend cmds).1 ∧
        s'.retrySend = (abstractTicks K envs.length s.retrySend cmds).2.1 ∧
        transmitted evs = (abstractTicks K envs.length s.retrySend cmds).2.2 := by
  induction envs with
  | nil =>
    intro s cmds _ _ _ _ hq _ _ _
    exact ⟨s, [], rfl, hq, rfl, rfl⟩
  | cons e es ih =>
    intro s cmds hr hi hd hint hq hw h6 h0
    obtain ⟨added, s1, ev1, hu, hen, _, hsame, hi1, hd1, hq1, hr1, ht1⟩ :=
      update_ready_spec K e s cmds (hr e (by simp)) hi hd hq (queueInv_head hw h0)
    rw [reconcile_idle K e s hint] at hen hsame
    have hadd : added = [] := by
      have := hen.1
      exact (queueBytes_eq_nil added).mp (List.self_eq_append_right.mp this)
    subst hadd
    rw [List.append_nil] at hq1 hr1 ht1
    obtain ⟨b1, b2, b3⟩ := abstractTick_inv K s.retrySend cmds h6 h0
    have hw1 : WellSized (abstractTick K s.retrySend cmds).1 := by
      rcases b3 with b3 | b3
      · rw [b3]
        exact hw
      · rw [b3]
        exact wellSized_tail hw
    obtain ⟨s2, ev2, ht, hq2, hr2, ht2⟩ :=
      ih s1 _ (fun e' he' => hr e' (by simp [he'])) hi1 hd1
        ((sameButQueue_intents hsame).trans hint) hq1 hw1 (by rw [hr1]; exact b1)
        (fun hn => by rw [hr1]; exact b2 hn)
    rw [hr1] at hq2 hr2 ht2
    refine ⟨s2, ev1 ++ ev2, ?_, hq2, hr2, ?_⟩
    · simp only [ticks, hu, ht, Option.bind_eq_bind, Option.some_bind, Option.pure_def]
    · rw [transmitted_append, ht1, ht2]
      rfl

theorem forceSpeedOrIncline_eq_target (K : Wire) (s : State) (a b : ℚ)
    (h : 0 < s.MAX_SPEED) :
    forceSpeedOrIncline K s a b
      = scheduleWrite s (targetCommand K s a b)
          (Info.forceSpeedOrIncline (clampSpeed s (binary64 (a * 10))) (clampIncline s b)) := by
  unfold forceSpeedOrIncline
  rw [if_pos h]
  rfl

theorem castUInt8_natCast (n : ℕ) (hn : n < 256) : castUInt8 (n : ℚ) = n := by
  obtain ⟨h, _, _⟩ := castUInt8_bounds (n : ℚ) n n (le_refl _) (by linarith) hn
  rw [Int.floor_natCast] at h
  exact_mod_cast h

/-- The command of `forceSpeedOrIncline` for the `double` 1.45 between the limits 10 and
200: the binary64 product is 14.5, the binary64 sum is 15. -/
theorem targetCommand_double_1_45 :
    targetCommand sampleWire
        { sampleState with MAX_SPEED := 200, MIN_SPEED := 10, MAX_INCLINE := 15 } double_1_45 0
      = [83, 2, 15, 0] := by
  have hp : binary64 (double_1_45 * 10) = 29 / 2 := by
    have e : double_1_45 * 10 = 32651097298436095 / 2251799813685248 := by
      unfold double_1_45
      norm_num
    rw [e, binary64_eq _ 3 8162774324609024 (by norm_num) (by norm_num) (by norm_num)
      (by norm_num) (by norm_num) (by norm_num)]
    norm_num
  have hc : clampSpeed { sampleState with MAX_SPEED := 200, MIN_SPEED := 10, MAX_INCLINE := 15 }
      (29 / 2) = 29 / 2 := by
    unfold clampSpeed
    rw [if_neg (by norm_num), if_neg (by norm_num)]
  have hsum : binary64 ((29 : ℚ) / 2 + 1 / 2) = ((15 : ℕ) : ℚ) := by
    have e : (29 : ℚ) / 2 + 1 / 2 = ((15 : ℕ) : ℚ) := by norm_num
    rw [e, binary64_natCast 15 (by norm_num)]
  have hi : clampIncline { sampleState with MAX_SPEED := 200, MIN_SPEED := 10, MAX_INCLINE := 15 }
      0 = ((0 : ℕ) : ℚ) := by
    unfold clampIncline
    rw [if_neg (by norm_num), if_pos (by norm_num)]
    rfl
  unfold targetCommand
  rw [hp, hc, hsum, hi, castUInt8_natCast 15 (by norm_num), castUInt8_natCast 0 (by norm_num)]
  rfl

/-- The two bytes of the command of `forceSpeedOrIncline` under sane byte-sized limits:
they lie between the limits, they are the limits outside them, and in between the speed
byte is the truncated binary64 sum of the binary64 tenths and 0.5, which is the exact
tenths rounded half up or one more, and the incline byte is the truncated incline. -/
theorem targetCommand_bytes (K : Wire) (s : State) (speed incline : ℚ)
    (hmax : 0 < s.MAX_SPEED) (hs : s.MIN_SPEED ≤ s.MAX_SPEED)
    (hn : s.MIN_INCLINE ≤ s.MAX_INCLINE) (hsb : s.MAX_SPEED < 256)
    (hnb : s.MAX_INCLINE < 256) :
    ∃ sb ib,
      targetCommand K s speed incline
        = [K.FITSHOW_SYS_CONTROL, K.FITSHOW_CONTROL_TARGET_OR_RUN, sb, ib] ∧
      s.MIN_SPEED ≤ sb ∧ sb ≤ s.MAX_SPEED ∧ s.MIN_INCLINE ≤ ib ∧ ib ≤ s.MAX_INCLINE ∧
      (speed * 10 ≥ s.MAX_SPEED → sb = s.MAX_SPEED) ∧
      (speed * 10 ≤ s.MIN_SPEED → sb = s.MIN_SPEED) ∧
      (incline ≥ s.MAX_INCLINE → ib = s.MAX_INCLINE) ∧
      (incline ≤ s.MIN_INCLINE → ib = s.MIN_INCLINE) ∧
      ((s.MIN_SPEED : ℚ) < binary64 (speed * 10) → binary64 (speed * 10) < s.MAX_SPEED →
        (sb : ℤ) = ⌊binary64 (binary64 (speed * 10) + 1 / 2)⌋) ∧
      ((s.MIN_SPEED : ℚ) < speed * 10 → speed * 10 < s.MAX_SPEED →
        (sb : ℤ) = ⌊speed * 10 + 1 / 2⌋ ∨ (sb : ℤ) = ⌊speed * 10 + 1 / 2⌋ + 1) ∧
      ((s.MIN_INCLINE : ℚ) < incline → incline < s.MAX_INCLINE →
        (ib : ℤ) = truncQ incline) := by
  obtain ⟨a1, a2, a3⟩ := speedByte_spec s (binary64 (speed * 10)) hs hsb
  obtain ⟨b1, b2, b3⟩ := inclineByte_spec s incline hn hnb
  obtain ⟨c1, c2, c3⟩ := clampSpeed_cases s (binary64 (speed * 10))
  obtain ⟨d1, d2, d3⟩ := clampIncline_cases s incline
  have hsq : (s.MIN_SPEED : ℚ) ≤ s.MAX_SPEED := by exact_mod_cast hs
  have byteMax : binary64 (speed * 10) ≥ s.MAX_SPEED →
      castUInt8 (binary64 (clampSpeed s (binary64 (speed * 10)) + 1 / 2)) = s.MAX_SPEED := by
    intro h
    have := a1
    rw [c1 h, binary64_natCast_add_half _ hsb, floor_natCast_add_half] at this
    rw [c1 h, binary64_natCast_add_half _ hsb]
    exact_mod_cast this
  have byteMin : binary64 (speed * 10) < s.MAX_SPEED → binary64 (speed * 10) ≤ s.MIN_SPEED →
      castUInt8 (binary64 (clampSpeed s (binary64 (speed * 10)) + 1 / 2)) = s.MIN_SPEED := by
    intro h1 h2
    have := a1
    rw [c2 h1 h2, binary64_natCast_add_half _ (by omega), floor_natCast_add_half] at this
    rw [c2 h1 h2, binary64_natCast_add_half _ (by omega)]
    exact_mod_cast this
  have byteMid : binary64 (speed * 10) < s.MAX_SPEED →
      (s.MIN_SPEED : ℚ) < binary64 (speed * 10) →
      (castUInt8 (binary64 (clampSpeed s (binary64 (speed * 10)) + 1 / 2)) : ℤ)
        = ⌊binary64 (binary64 (speed * 10) + 1 / 2)⌋ := by
    intro h1 h2
    have := a1
    rw [c3 h1 h2] at this
    rw [c3 h1 h2]
    exact this
  have e2 : incline ≥ s.MAX_INCLINE → castUInt8 (clampIncline s incline) = s.MAX_INCLINE := by
    intro h
    have := b1
    rw [d1 h, Int.floor_natCast] at this
    rw [d1 h]
    exact_mod_cast this
  refine ⟨castUInt8 (binary64 (clampSpeed s (binary64 (speed * 10)) + 1 / 2)),
    castUInt8 (clampIncline s incline), rfl, a2, a3, b2, b3, ?_, ?_, e2, ?_, ?_, ?_, ?_⟩
  · intro h
    exact byteMax (nat_le_binary64 _ _ (by omega) h)
  · intro h
    have hx := binary64_le_nat _ _ (by omega) h
    by_cases hge : binary64 (speed * 10) ≥ s.MAX_SPEED
    · have heq : s.MIN_SPEED = s.MAX_SPEED := by
        have : (s.MAX_SPEED : ℚ) ≤ s.MIN_SPEED := le_trans hge hx
        have : s.MAX_SPEED ≤ s.MIN_SPEED := by exact_mod_cast this
        omega
      rw [heq]
      exact byteMax hge
    · exact byteMin (not_le.mp hge) hx
  · intro h
    by_cases hge : incline ≥ s.MAX_INCLINE
    · have heq : s.MIN_INCLINE = s.MAX_INCLINE := by
        have : (s.MAX_INCLINE : ℚ) ≤ s.MIN_INCLINE := le_trans hge h
        have : s.MAX_INCLINE ≤ s.MIN_INCLINE := by exact_mod_cast this
        omega
      rw [heq]
      exact e2 hge
    · have := b1
      rw [d2 (not_le.mp hge) h, Int.floor_natCast] at this
      rw [d2 (not_le.mp hge) h]
      exact_mod_cast this
  · intro h1 h2
    exact byteMid h2 h1
  · intro h1 h2
    by_cases hge : binary64 (speed * 10) ≥ s.MAX_SPEED
    · left
      rw [byteMax hge]
      symm
      rw [Int.floor_eq_iff]
      constructor
      · by_contra hc
        obtain ⟨m, hm⟩ : ∃ m, s.MAX_SPEED = m + 1 := ⟨s.MAX_SPEED - 1, by omega⟩
        have hlt : speed * 10 ≤ (m : ℚ) + 1 / 2 := by
          have := not_le.mp hc
          rw [hm] at this
          push_cast at this
          linarith
        have := binary64_le_nat_half _ m (by omega) hlt
        rw [hm] at hge
        push_cast at hge
        linarith
      · push_cast
        linarith
    · have hlt := not_le.mp hge
      by_cases hle : binary64 (speed * 10) ≤ s.MIN_SPEED
      · left
        rw [byteMin hlt hle]
        symm
        rw [Int.floor_eq_iff]
        constructor
        · push_cast
          linarith
        · by_contra hc
          have hge2 : (s.MIN_SPEED : ℚ) + 1 / 2 ≤ speed * 10 := by
            have := not_lt.mp hc
            push_cast at this
            linarith
          have := nat_half_le_binary64 _ s.MIN_SPEED (by omega) hge2
          linarith
      · have hgt := not_le.mp hle
        rw [byteMid hlt hgt]
        have hr0 : 0 ≤ ⌊speed * 10 + 1 / 2⌋ := by
          rw [Int.floor_nonneg]
          have : (0 : ℚ) ≤ s.MIN_SPEED := Nat.cast_nonneg _
          linarith
        have hrM : ⌊speed * 10 + 1 / 2⌋ ≤ s.MAX_SPEED := by
          have : ⌊speed * 10 + 1 / 2⌋ < (s.MAX_SPEED : ℤ) + 1 := by
            rw [Int.floor_lt]
            push_cast
            linarith
          omega
        obtain ⟨rn, hrn⟩ : ∃ rn : ℕ, (rn : ℤ) = ⌊speed * 10 + 1 / 2⌋ :=
          ⟨⌊speed * 10 + 1 / 2⌋.toNat, Int.toNat_of_nonneg hr0⟩
        have hrnq : (rn : ℚ) = (⌊speed * 10 + 1 / 2⌋ : ℚ) := by
          rw [← hrn]
          norm_cast
        have hrn256 : rn < 256 := by omega
        have hfl := Int.floor_le (speed * 10 + 1 / 2)
        have hfu := Int.lt_floor_add_one (speed * 10 + 1 / 2)
        rw [← hrnq] at hfl hfu
        have hlow : (rn : ℚ) ≤ binary64 (speed * 10) + 1 / 2 := by
          cases rn with
          | zero =>
            have : (0 : ℚ) ≤ s.MIN_SPEED := Nat.cast_nonneg _
            push_cast
            linarith
          | succ m =>
            push_cast at hfl ⊢
            have := nat_half_le_binary64 (speed * 10) m (by omega) (by linarith)
            linarith
        have hupp : binary64 (speed * 10) + 1 / 2 ≤ ((rn + 1 : ℕ) : ℚ) := by
          have := binary64_le_nat_half (speed * 10) rn hrn256 (by linarith)
          push_cast
          linarith
        have y1 := nat_le_binary64 _ rn (by omega) hlow
        have y2 := binary64_le_nat _ (rn + 1) (by omega) hupp
        have z1 : (rn : ℤ) ≤ ⌊binary64 (binary64 (speed * 10) + 1 / 2)⌋ :=
          Int.le_floor.mpr (by exact_mod_cast y1)
        have z2 : ⌊binary64 (binary64 (speed * 10) + 1 / 2)⌋ < (rn : ℤ) + 2 := by
          rw [Int.floor_lt]
          push_cast at y2 ⊢
          linarith
        omega
  · intro h1 h2
    have := b1
    rw [d3 h2 h1] at this
    rw [d3 h2 h1, this, truncQ_of_nonneg incline (le_trans (Nat.cast_nonneg _) (le_of_lt h1))]

/-! ## The claims on the frame codec -/

/-- C1 (as stated, refuted): for the empty payload `writePayload` succeeds and transmits
the three-byte frame header, checksum 0, footer, and `checkIncomingPacket` rejects that
frame, because it accepts no buffer shorter than 4 bytes. -/
theorem C1_empty_payload_rejected :
    writePayload sampleWire [] = (true, [[2, 0, 3]]) ∧
      checkIncomingPacket sampleWire [2, 0, 3] = false := by
  decide

/-- C1 (amended): for every payload of 1 to 22 bytes, the frame built by `writePayload`
is accepted by `checkIncomingPacket`, and stripping its header byte, checksum byte and
footer byte gives back exactly the payload. -/
theorem C1_roundtrip (K : Wire) (payload : List Nat) (h1 : 1 ≤ payload.length)
    (h22 : payload.length ≤ 22) :
    ∃ frame, writePayload K payload = (true, [frame]) ∧
      checkIncomingPacket K frame = true ∧ payloadOf frame = payload :=
  ⟨K.FITSHOW_PKT_HEADER :: payload ++ [xorChecksum payload, K.FITSHOW_PKT_FOOTER],
    writePayload_frame K payload h22,
    (checkIncomingPacket_frame K payload _ h1).mpr rfl,
    payloadOf_frame _ payload _ _⟩

theorem C1_roundtrip_witness :
    ∃ frame, writePayload sampleWire [83, 2, 50, 3] = (true, [frame]) ∧
      checkIncomingPacket sampleWire frame = true ∧ payloadOf frame = [83, 2, 50, 3] :=
  C1_roundtrip sampleWire [83, 2, 50, 3] (by decide) (by decide)

/-- C2: `checkIncomingPacket` accepts a buffer of length `n` if and only if `n ≥ 4`,
byte 0 is the header, byte `n-1` is the footer, and the XOR of the bytes at the indices
`1 .. n-3` equals byte `n-2`; it returns `false` for every other buffer. -/
theorem C2_checkIncomingPacket_iff (K : Wire) (data : List Nat) :
    (checkIncomingPacket K data = true ↔
      4 ≤ data.length ∧ data[0]? = some K.FITSHOW_PKT_HEADER ∧
        data[data.length - 1]? = some K.FITSHOW_PKT_FOOTER ∧
        data[data.length - 2]? = some (xorChecksum ((data.drop 1).take (data.length - 3)))) ∧
    (¬ (4 ≤ data.length ∧ data[0]? = some K.FITSHOW_PKT_HEADER ∧
        data[data.length - 1]? = some K.FITSHOW_PKT_FOOTER ∧
        data[data.length - 2]? = some (xorChecksum ((data.drop 1).take (data.length - 3))))
      → checkIncomingPacket K data = false) := by
  refine ⟨checkIncomingPacket_spec K data, fun h => ?_⟩
  cases hc : checkIncomingPacket K data with
  | false => rfl
  | true => exact absurd ((checkIncomingPacket_spec K data).mp hc) h

theorem C2_checkIncomingPacket_iff_witness :
    checkIncomingPacket sampleWire [2, 83, 2, 81, 3] = true ∧
      checkIncomingPacket sampleWire [2, 83, 2, 80, 3] = false :=
  ⟨(C2_checkIncomingPacket_iff sampleWire [2, 83, 2, 81, 3]).1.mpr (by decide),
    (C2_checkIncomingPacket_iff sampleWire [2, 83, 2, 80, 3]).2 (by decide)⟩

/-- C3: for every payload of 1 to 22 bytes, flipping any one bit `k < 8` of any one
payload byte of the frame built by `writePayload` (header, checksum and footer left as
they are) gives a buffer that `checkIncomingPacket` rejects. -/
theorem C3_checksum_sensitivity (K : Wire) (payload : List Nat) (h1 : 1 ≤ payload.length)
    (h22 : payload.length ≤ 22) (i : Nat) (hi : i < payload.length) (k : Nat) (_hk : k < 8) :
    ∃ frame, writePayload K payload = (true, [frame]) ∧
      checkIncomingPacket K (flipBit frame (i + 1) k) = false := by
  refine ⟨_, writePayload_frame K payload h22, ?_⟩
  have hflip : flipBit (K.FITSHOW_PKT_HEADER :: payload ++
      [xorChecksum payload, K.FITSHOW_PKT_FOOTER]) (i + 1) k
      = K.FITSHOW_PKT_HEADER :: payload.set i (payload.getD i 0 ^^^ 2 ^ k) ++
          [xorChecksum payload, K.FITSHOW_PKT_FOOTER] := by
    unfold flipBit
    have hget : (payload ++ [xorChecksum payload, K.FITSHOW_PKT_FOOTER]).getD i 0
        = payload.getD i 0 := by
      simp only [List.getD_eq_getElem?_getD]
      rw [List.getElem?_append_left hi]
    simp only [List.cons_append, List.set_cons_succ, List.getD_cons_succ, hget]
    rw [List.set_append_left _ _ hi]
  rw [hflip]
  cases hc : checkIncomingPacket K (K.FITSHOW_PKT_HEADER ::
      payload.set i (payload.getD i 0 ^^^ 2 ^ k) ++
        [xorChecksum payload, K.FITSHOW_PKT_FOOTER]) with
  | false => rfl
  | true =>
    have hlen : 1 ≤ (payload.set i (payload.getD i 0 ^^^ 2 ^ k)).length := by
      simpa using h1
    have h := (checkIncomingPacket_frame K _ _ hlen).mp hc
    rw [xorChecksum_set payload i _ hi] at h
    exact absurd h.symm (xor_ne_self _ _ (by positivity))

theorem C3_checksum_sensitivity_witness :
    ∃ frame, writePayload sampleWire [83, 2, 50, 3] = (true, [frame]) ∧
      checkIncomingPacket sampleWire (flipBit frame (2 + 1) 7) = false :=
  C3_checksum_sensitivity sampleWire [83, 2, 50, 3] (by decide) (by decide) 2 (by decide) 7
    (by decide)

/-- C4: `writePayload` returns `false` exactly when the payload is longer than 22 bytes,
and then transmits nothing; for every payload of at most 22 bytes it returns `true` and
transmits one frame of payload length + 3 bytes, which is at most 25. -/
theorem C4_writePayload_size (K : Wire) (payload : List Nat) :
    ((writePayload K payload).1 = false ↔ 22 < payload.length) ∧
      (22 < payload.length → writePayload K payload = (false, [])) ∧
      (payload.length ≤ 22 →
        ∃ frame, writePayload K payload = (true, [frame]) ∧
          frame.length = payload.length + 3 ∧ frame.length ≤ 25) := by
  have hbig : 22 < payload.length → writePayload K payload = (false, []) := by
    intro h
    have : payload.length + 3 > BLE_SERIALOUTPUT_MAXSIZE := by
      simp [BLE_SERIALOUTPUT_MAXSIZE]; omega
    simp [writePayload, this]
  refine ⟨⟨fun h => ?_, fun h => by rw [hbig h]⟩, hbig, fun h => ?_⟩
  · by_contra hn
    rw [writePayload_frame K payload (by omega)] at h
    exact absurd h (by simp)
  · refine ⟨_, writePayload_frame K payload h, by simp, by simp; omega⟩

theorem C4_writePayload_size_witness :
    writePayload sampleWire (List.replicate 23 0) = (false, []) ∧
      ∃ frame, writePayload sampleWire (List.replicate 22 0) = (true, [frame]) ∧
        frame.length = 22 + 3 ∧ frame.length ≤ 25 :=
  ⟨(C4_writePayload_size sampleWire (List.replicate 23 0)).2.1 (by decide),
    (C4_writePayload_size sampleWire (List.replicate 22 0)).2.2 (by decide)⟩

/-- C5: for every payload of at most 22 bytes the frame transmitted by `writePayload` is
the header, the payload bytes in order, one checksum byte equal to the XOR of all
payload bytes (0 for the empty payload), and the footer. -/
theorem C5_writePayload_frame (K : Wire) (payload : List Nat) (h : payload.length ≤ 22) :
    writePayload K payload
        = (true, [K.FITSHOW_PKT_HEADER :: payload ++
            [xorChecksum payload, K.FITSHOW_PKT_FOOTER]]) ∧
      xorChecksum [] = 0 :=
  ⟨writePayload_frame K payload h, rfl⟩

theorem C5_writePayload_frame_witness :
    writePayload sampleWire [83, 2, 50, 3]
        = (true, [2 :: [83, 2, 50, 3] ++ [xorChecksum [83, 2, 50, 3], 3]]) ∧
      xorChecksum [] = 0 :=
  C5_writePayload_frame sampleWire [83, 2, 50, 3] (by decide)

/-! ## The claims on the command queue -/

/-- C6 (as stated, refuted): in the ready state with the queue C1 = `[83, 3]`,
C2 = `[83, 6]` and the retry counter at 6, a tick does not increment the counter to 7
and does not transmit the frame of the head C1: it drops C1, sets the counter to 1 and
transmits the frame of C2. -/
theorem C6_tick_at_retry_six :
    (update sampleWire sampleEnv
        { sampleState with
          bufferWrite := queueBytes [[83, 3], [83, 6]]
          debugMsgs := [Info.stop_tape, Info.pause_tape]
          retrySend := 6 }).map
        (fun r => (r.1.retrySend, r.1.bufferWrite, transmitted r.2))
      = some (1, queueBytes [[83, 6]], [frameOf sampleWire [83, 6]]) := by
  decide

/-- C6 (amended): in the ready state with a non-empty queue whose head command has at
most 22 bytes and with the retry counter below 6, a tick adds 1 to the retry counter,
keeps the head, and transmits the frame of the head command if and only if the new
counter is odd (nothing otherwise). In particular, from retry counter 0 with C1 then C2
queued, three ticks transmit C1, nothing, C1. -/
theorem C6_tick_transmits_head (K : Wire) :
    (∀ (env : Env) (s : State) (head : List Nat) (rest : List (List Nat)),
      env.ready → s.initRequest = false → s.initDone = true → QueueIs s (head :: rest) →
      head.length ≤ 22 → s.retrySend < 6 →
      ∃ s' evs added, update K env s = some (s', evs) ∧
        QueueIs s' (head :: rest ++ added) ∧ s'.retrySend = s.retrySend + 1 ∧
        transmitted evs = if (s.retrySend + 1) % 2 = 1 then [frameOf K head] else []) ∧
    (∀ (e1 e2 e3 : Env) (s : State) (c1 c2 : List Nat),
      e1.ready → e2.ready → e3.ready → s.initRequest = false → s.initDone = true →
      QueueIs s [c1, c2] → c1.length ≤ 22 → s.retrySend = 0 →
      ∃ s1 ev1 s2 ev2 s3 ev3,
        update K e1 s = some (s1, ev1) ∧ transmitted ev1 = [frameOf K c1] ∧
        update K e2 s1 = some (s2, ev2) ∧ transmitted ev2 = [] ∧
        update K e3 s2 = some (s3, ev3) ∧ transmitted ev3 = [frameOf K c1]) := by
  constructor
  · intro env s head rest hready hi hd hq h22 hr
    obtain ⟨s', evs, added, hu, _, _, hq', hr', ht⟩ :=
      update_head_waiting K env s head rest hready hi hd hq h22 hr
    exact ⟨s', evs, added, hu, hq', hr', ht⟩
  · intro e1 e2 e3 s c1 c2 r1 r2 r3 hi hd hq h22 hr
    obtain ⟨s1, ev1, a1, hu1, hi1, hd1, hq1, hr1, ht1⟩ :=
      update_head_waiting K e1 s c1 [c2] r1 hi hd hq h22 (by omega)
    obtain ⟨s2, ev2, a2, hu2, hi2, hd2, hq2, hr2, ht2⟩ :=
      update_head_waiting K e2 s1 c1 ([c2] ++ a1) r2 hi1 hd1 hq1 h22 (by omega)
    obtain ⟨s3, ev3, a3, hu3, _, _, _, _, ht3⟩ :=
      update_head_waiting K e3 s2 c1 ([c2] ++ a1 ++ a2) r3 hi2 hd2 hq2 h22 (by omega)
    refine ⟨s1, ev1, s2, ev2, s3, ev3, hu1, ?_, hu2, ?_, hu3, ?_⟩
    · rw [ht1, hr]; rfl
    · rw [ht2, hr1, hr]; rfl
    · rw [ht3, hr2, hr1, hr]; rfl

theorem C6_tick_transmits_head_witness :
    ∃ s1 ev1 s2 ev2 s3 ev3,
      update sampleWire sampleEnv
          { sampleState with
            bufferWrite := queueBytes [[83, 3], [83, 6]]
            debugMsgs := [Info.stop_tape, Info.pause_tape] } = some (s1, ev1) ∧
        transmitted ev1 = [frameOf sampleWire [83, 3]] ∧
        update sampleWire sampleEnv s1 = some (s2, ev2) ∧ transmitted ev2 = [] ∧
        update sampleWire sampleEnv s2 = some (s3, ev3) ∧
        transmitted ev3 = [frameOf sampleWire [83, 3]] :=
  (C6_tick_transmits_head sampleWire).2 sampleEnv sampleEnv sampleEnv _ [83, 3] [83, 6]
    ⟨rfl, rfl⟩ ⟨rfl, rfl⟩ ⟨rfl, rfl⟩ rfl rfl ⟨rfl, rfl⟩ (by decide) rfl

/-- C7: for an accepted incoming frame with command bytes `(cmd, par)` and a queue whose
head command starts with the bytes `(c, p)`: when `cmd` is not the status command and
`(c, p) = (cmd, par)`, exactly the head command is removed, the remaining commands keep
their bytes and their order, and the retry counter becomes 0; when `(c, p)` differs
from `(cmd, par)`, no command is removed and the retry counter is unchanged. -/
theorem C7_acknowledgment (K : Wire) (env : Env) (s : State) (v : List Nat)
    (cmd par c p : Nat) (tl : List Nat) (rest : List (List Nat))
    (h : accepted K v = true) (hc : v[1]? = some cmd) (hp : v[2]? = some par)
    (hq : QueueIs s ((c :: p :: tl) :: rest)) :
    (cmd ≠ K.FITSHOW_SYS_STATUS → c = cmd → p = par →
      ∃ s' evs, characteristicChanged K env s v = some (s', evs) ∧
        QueueIs s' rest ∧ s'.retrySend = 0) ∧
    (¬ (c = cmd ∧ p = par) →
      ∃ s' evs added, characteristicChanged K env s v = some (s', evs) ∧
        QueueIs s' ((c :: p :: tl) :: rest ++ added) ∧ s'.retrySend = s.retrySend) := by
  have hq0 : QueueIs { s with lastPacket := v } ((c :: p :: tl) :: rest) := hq
  constructor
  · intro hs h1 h2
    obtain ⟨s', evs, hcc, hsame⟩ :=
      characteristicChanged_nonstatus K env s v cmd par c p tl rest h hc hp hs hq
    rw [if_pos ⟨h1, h2⟩] at hsame
    have hr := removeFromBuffer_queueIs _ _ rest hq0
    refine ⟨s', evs, hcc, ⟨?_, ?_⟩, ?_⟩
    · rw [hsame.1]; exact hr.1
    · rw [hsame.2.1]; exact hr.2
    · rw [hsame.2.2.1]; rfl
  · intro hne
    by_cases hs : cmd = K.FITSHOW_SYS_STATUS
    · subst hs
      obtain ⟨s', evs, hcc, added, hen, _⟩ :=
        characteristicChanged_status_grows K env s v par h hc hp
      exact ⟨s', evs, added, hcc, by simpa using enqueued_queueIs hen hq, hen.2.2.1⟩
    · obtain ⟨s', evs, hcc, hsame⟩ :=
        characteristicChanged_nonstatus K env s v cmd par c p tl rest h hc hp hs hq
      rw [if_neg hne] at hsame
      refine ⟨s', evs, [], hcc, ⟨?_, ?_⟩, ?_⟩
      · rw [hsame.1, List.append_nil]; exact hq.1
      · rw [hsame.2.1, List.append_nil]; exact hq.2
      · rw [hsame.2.2.1]

theorem C7_acknowledgment_witness :
    ∃ s' evs,
      characteristicChanged sampleWire sampleEnv
          { sampleState with
            bufferWrite := queueBytes [[83, 3], [83, 6]]
            debugMsgs := [Info.stop_tape, Info.pause_tape]
            retrySend := 3 } [2, 83, 3, 80, 3] = some (s', evs) ∧
        QueueIs s' [[83, 6]] ∧ s'.retrySend = 0 :=
  (C7_acknowledgment sampleWire sampleEnv _ [2, 83, 3, 80, 3] 83 3 83 3 [] [[83, 6]]
    (by decide) (by decide) (by decide) ⟨rfl, rfl⟩).1 (by decide) rfl rfl

/-- C8: for every accepted incoming frame whose command is the status command and for
every state of the queue, decoding the frame removes no command (the queue bytes and the
labels only grow at the tail) and leaves the retry counter unchanged, also when the
first two bytes of the head command equal the `(cmd, par)` of the frame. -/
theorem C8_status_never_acknowledges (K : Wire) (env : Env) (s : State) (v : List Nat)
    (par : Nat) (h : accepted K v = true) (hc : v[1]? = some K.FITSHOW_SYS_STATUS)
    (hp : v[2]? = some par) :
    ∃ s' evs added infos, characteristicChanged K env s v = some (s', evs) ∧
      s'.bufferWrite = s.bufferWrite ++ queueBytes added ∧
      s'.debugMsgs = s.debugMsgs ++ infos ∧ s'.retrySend = s.retrySend := by
  obtain ⟨s', evs, hcc, added, hen, _⟩ :=
    characteristicChanged_status_grows K env s v par h hc hp
  obtain ⟨hb, ⟨infos, hd, _⟩, hr, _⟩ := hen
  exact ⟨s', evs, added, infos, hcc, hb, hd, hr⟩

theorem C8_status_never_acknowledges_witness :
    ∃ s' evs added infos,
      characteristicChanged sampleWire sampleEnv
          { sampleState with
            bufferWrite := queueBytes [[81, 0]]
            debugMsgs := [Info.stop_tape]
            retrySend := 3 } [2, 81, 0, 81, 3] = some (s', evs) ∧
        s'.bufferWrite = queueBytes [[81, 0]] ++ queueBytes added ∧
        s'.debugMsgs = [Info.stop_tape] ++ infos ∧ s'.retrySend = 3 :=
  C8_status_never_acknowledges sampleWire sampleEnv _ [2, 81, 0, 81, 3] 0 (by decide)
    (by decide) (by decide)

/-- C9 (as stated, refuted): starting from retry counter 0 with the single command
`[83, 3]` queued, after six ticks without any acknowledgment the command is still in
the queue and the retry counter is 6. -/
theorem C9_six_ticks_keep_head :
    (ticks sampleWire (List.replicate 6 sampleEnv)
        { sampleState with
          bufferWrite := queueBytes [[83, 3]]
          debugMsgs := [Info.stop_tape] }).map
        (fun r => (r.1.bufferWrite, r.1.retrySend))
      = some (queueBytes [[83, 3]], 6) := by
  decide

/-- C9 (amended): starting from retry counter 0 with a non-empty queue whose head has at
least 2 bytes, after six ticks without acknowledgment the head command is still queued
and the retry counter is 6; the seventh tick removes the head command, and afterwards
the retry counter is 0 when the queue is empty and 1 when another command has become
the head. -/
theorem C9_retry_exhaustion (K : Wire) (envs : List Env) (e7 : Env) (s : State)
    (head : List Nat) (rest : List (List Nat)) (hlen : envs.length = 6)
    (hready : ∀ e ∈ envs, e.ready) (hready7 : e7.ready) (hi : s.initRequest = false)
    (hd : s.initDone = true) (hq : QueueIs s (head :: rest)) (h2 : 2 ≤ head.length)
    (hr : s.retrySend = 0) :
    ∃ s6 ev6 a6, ticks K envs s = some (s6, ev6) ∧
      QueueIs s6 (head :: rest ++ a6) ∧ s6.retrySend = 6 ∧
      ∃ s7 ev7 a7, update K e7 s6 = some (s7, ev7) ∧
        QueueIs s7 (rest ++ a6 ++ a7) ∧
        s7.retrySend = (if rest ++ a6 ++ a7 = [] then 0 else 1) := by
  obtain ⟨s6, ev6, a6, ht, hi6, hd6, hq6, _, hr6, _⟩ :=
    ticks_waiting K head envs s rest hready hi hd hq (by omega)
  have hr6' : s6.retrySend = 6 := by omega
  obtain ⟨a7, s7, ev7, hu, _, _, _, _, _, hq7, hr7, _⟩ :=
    update_ready_spec K e7 s6 (head :: rest ++ a6) hready7 hi6 hd6 hq6
      (fun _ => ⟨head, rest ++ a6, rfl, h2⟩)
  refine ⟨s6, ev6, a6, ht, hq6, hr6', s7, ev7, a7, hu, ?_⟩
  rw [hr6'] at hq7 hr7
  cases hc : rest ++ a6 ++ a7 with
  | nil =>
    have ha : head :: rest ++ a6 ++ a7 = [head] := by
      simpa [List.append_assoc] using hc
    rw [ha, abstractTick_ge_one K 6 (by omega)] at hq7 hr7
    exact ⟨hq7, by simpa using hr7⟩
  | cons d q =>
    have ha : head :: rest ++ a6 ++ a7 = head :: d :: q := by
      simpa [List.append_assoc] using hc
    rw [ha, abstractTick_ge_cons K 6 (by omega)] at hq7 hr7
    exact ⟨hq7, by simpa using hr7⟩

theorem C9_retry_exhaustion_witness :
    ∃ s6 ev6 a6,
      ticks sampleWire (List.replicate 6 sampleEnv)
          { sampleState with
            bufferWrite := queueBytes [[83, 3], [83, 6]]
            debugMsgs := [Info.stop_tape, Info.pause_tape] } = some (s6, ev6) ∧
        QueueIs s6 ([83, 3] :: [[83, 6]] ++ a6) ∧ s6.retrySend = 6 ∧
        ∃ s7 ev7 a7, update sampleWire sampleEnv s6 = some (s7, ev7) ∧
          QueueIs s7 ([[83, 6]] ++ a6 ++ a7) ∧
          s7.retrySend = (if [[83, 6]] ++ a6 ++ a7 = [] then 0 else 1) :=
  C9_retry_exhaustion sampleWire (List.replicate 6 sampleEnv) sampleEnv _ [83, 3] [[83, 6]]
    rfl (fun e he => by rw [List.eq_of_mem_replicate he]; exact ⟨rfl, rfl⟩) ⟨rfl, rfl⟩
    rfl rfl ⟨rfl, rfl⟩ (by decide) rfl

/-- C10: in the ready state, a tick on an empty queue to which the control reconciler
appends nothing, with the retry counter at 0, transmits exactly one frame, the status
poll header, status command, checksum (equal to the status command byte), footer, and
leaves the queue empty and the retry counter at 0. -/
theorem C10_status_poll (K : Wire) (env : Env) (s : State) (hready : env.ready)
    (hi : s.initRequest = false) (hd : s.initDone = true) (hq : s.bufferWrite = [])
    (hn : (reconcile K env s).1.bufferWrite = s.bufferWrite) (hr : s.retrySend = 0) :
    ∃ s' evs, update K env s = some (s', evs) ∧
      transmitted evs
        = [[K.FITSHOW_PKT_HEADER, K.FITSHOW_SYS_STATUS, K.FITSHOW_SYS_STATUS,
            K.FITSHOW_PKT_FOOTER]] ∧
      s'.bufferWrite = [] ∧ s'.retrySend = 0 := by
  obtain ⟨added, hen, _⟩ := grows_reconcile K env s
  have hrt : (reconcile K env s).1.retrySend = 0 := hen.2.2.1.trans hr
  have hbt : (reconcile K env s).1.bufferWrite = [] := hn.trans hq
  rw [update_ready_eq K env s hready hi hd, retryExhaustion_lt _ (by omega)]
  simp only [Option.some_bind]
  rw [transmitStep_nil K _ hbt]
  refine ⟨_, _, rfl, ?_, hbt, hrt⟩
  simp [transmitted_append, reconcile_transmitted, transmitted, frameOf, xorChecksum]

theorem C10_status_poll_witness :
    ∃ s' evs, update sampleWire sampleEnv sampleState = some (s', evs) ∧
      transmitted evs = [[2, 81, 81, 3]] ∧ s'.bufferWrite = [] ∧ s'.retrySend = 0 :=
  C10_status_poll sampleWire sampleEnv sampleState ⟨rfl, rfl⟩ rfl rfl rfl (by decide) rfl

/-! ## The claims on the session, the intents and rejected frames -/

/-- C11 (as stated, refuted): when the link is lost while the command `[83, 3]` is
queued, the queue is not empty afterwards: `controllerStateChanged` leaves the queue
bytes `[2, 83, 3]` in place (and so does the tick that finds the controller
unconnected). -/
theorem C11_queue_survives_link_loss :
    (controllerStateChanged
        { sampleState with bufferWrite := queueBytes [[83, 3]], debugMsgs := [Info.stop_tape] }
        true true).bufferWrite = [2, 83, 3] ∧
      (update sampleWire { sampleEnv with controllerUp := false }
          { sampleState with
            bufferWrite := queueBytes [[83, 3]], debugMsgs := [Info.stop_tape] }).map
          (fun r => (r.1.bufferWrite, r.2))
        = some ([2, 83, 3], [Event.disconnected]) := by
  decide

/-- C11 (amended): when the transport reports that the link is lost
(`controllerStateChanged` with the unconnected state), the session leaves the ready
state (`initDone` becomes false); the command queue, its labels and the retry counter
are left as they were. A tick that finds the controller unconnected only emits
`disconnected` and changes nothing. -/
theorem C11_link_lost (K : Wire) (env : Env) (s : State) :
    (controllerStateChanged s true true).initDone = false ∧
      (controllerStateChanged s true true).bufferWrite = s.bufferWrite ∧
      (controllerStateChanged s true true).debugMsgs = s.debugMsgs ∧
      (controllerStateChanged s true true).retrySend = s.retrySend ∧
      (env.controllerUp = false → update K env s = some (s, [Event.disconnected])) := by
  refine ⟨rfl, rfl, rfl, rfl, fun h => ?_⟩
  unfold update
  simp only [h, Bool.not_false, if_true]

theorem C11_link_lost_witness :
    update sampleWire { sampleEnv with controllerUp := false } sampleState
      = some (sampleState, [Event.disconnected]) :=
  (C11_link_lost sampleWire { sampleEnv with controllerUp := false } sampleState).2.2.2.2 rfl

/-- C18: an incoming buffer that `checkIncomingPacket` rejects is discarded: the state
after `characteristicChanged` is the state before with only the raw last-packet record
replaced, and the only outputs are the packet-received signal and the diagnostic
"Invalid packet". -/
theorem C18_invalid_frame_discarded (K : Wire) (env : Env) (s : State) (v : List Nat)
    (h : accepted K v = false) :
    characteristicChanged K env s v
      = some ({ s with lastPacket := v }, [Event.packetReceived, Event.invalidPacket]) :=
  characteristicChanged_rejected K env s v h

theorem C18_invalid_frame_discarded_witness :
    characteristicChanged sampleWire sampleEnv sampleState [2, 81, 3, 0, 3]
      = some ({ sampleState with lastPacket := [2, 81, 3, 0, 3] },
          [Event.packetReceived, Event.invalidPacket]) :=
  C18_invalid_frame_discarded sampleWire sampleEnv sampleState [2, 81, 3, 0, 3] (by decide)

/-- C20: after every tick executed in the ready state on a well-formed queue, the speed
intent, the incline intent, the start intent and the stop-or-pause intent all hold the
unset value -1, whatever they held before the tick. -/
theorem C20_intents_consumed (K : Wire) (env : Env) (s : State) (cmds : List (List Nat))
    (hready : env.ready) (hi : s.initRequest = false) (hd : s.initDone = true)
    (hq : QueueIs s cmds)
    (hx : 6 ≤ s.retrySend → ∃ head rest, cmds = head :: rest ∧ 2 ≤ head.length) :
    ∃ s' evs, update K env s = some (s', evs) ∧
      s'.requestSpeed = -1 ∧ s'.requestInclination = -1 ∧ s'.requestStart = -1 ∧
      s'.requestStop = -1 := by
  obtain ⟨_, s', evs, hu, _, _, hsame, _⟩ := update_ready_spec K env s cmds hready hi hd hq hx
  have h := (sameButQueue_intents hsame).trans (reconcile_intents K env s)
  exact ⟨s', evs, hu, (intents_eq_iff _ _ _ _ _).mp h⟩

theorem C20_intents_consumed_witness :
    ∃ s' evs,
      update sampleWire sampleEnv
          { sampleState with
            requestSpeed := 5, requestInclination := 2, requestStart := 1, requestStop := 1 }
        = some (s', evs) ∧
        s'.requestSpeed = -1 ∧ s'.requestInclination = -1 ∧ s'.requestStart = -1 ∧
        s'.requestStop = -1 :=
  C20_intents_consumed sampleWire sampleEnv _ [] ⟨rfl, rfl⟩ rfl rfl ⟨rfl, rfl⟩
    (fun h => absurd h (by decide))

/-! ## The claims on status frames -/

/-- C16: when `MAX_INCLINE` is 0, decoding an accepted `SYS_STATUS` frame with
sub-command `RUNNING`, `STOP`, `PAUSED` or `END` and a length byte of at least 17 leaves
the public incline equal to 0, and the remembered last incline equal to 0 when the
decoded speed is above 0, whatever the bytes of the frame are. -/
theorem C16_no_incline_device (K : Wire) (env : Env) (s : State) (v : List Nat) (par : Nat)
    (h : accepted K v = true) (hc : v[1]? = some K.FITSHOW_SYS_STATUS)
    (hp : v[2]? = some par)
    (htel : par = K.FITSHOW_STATUS_RUNNING ∨ par = K.FITSHOW_STATUS_STOP ∨
      par = K.FITSHOW_STATUS_PAUSED ∨ par = K.FITSHOW_STATUS_END)
    (h17 : 17 ≤ v.length % 256) (hmax : s.MAX_INCLINE = 0)
    (hi : K.FITSHOW_SYS_STATUS ≠ K.FITSHOW_SYS_INFO)
    (hk : K.FITSHOW_SYS_STATUS ≠ K.FITSHOW_SYS_CONTROL)
    (hst : par ≠ K.FITSHOW_STATUS_START) :
    ∃ s' evs,
      characteristicChanged K env s v = some (s', evs) ∧
      s'.Inclination = 0 ∧ (0 < s'.Speed → s'.lastInclination = 0) := by
  obtain ⟨s1, _, _, a3, e1⟩ := characteristicChanged_telemetry K env s v
    par h hc hp hi hk hst htel h17
  obtain ⟨p1, p2, _, _, p5, _, _⟩ := telemetryApply_spec K env s1 par
    ((v.getD 3 0 : ℚ) / 10) (v.getD 4 0 : ℚ) (elapsedOf s.anyrun (v.getD 5 0) (v.getD 6 0))
    ((field16 s.anyrun (v.getD 7 0) (v.getD 8 0) : ℚ) / 10)
    (field16 s.anyrun (v.getD 9 0) (v.getD 10 0) : ℚ) (v.getD 13 0 : ℚ)
  rw [a3, hmax, if_pos rfl] at p2 p5
  refine ⟨_, _, e1, p2, fun hpos => p5 ?_⟩
  rw [p1] at hpos
  exact hpos

theorem C16_no_incline_device_witness :
    ∃ s' evs,
      characteristicChanged sampleWire sampleEnv sampleState
          [2, 81, 3, 100, 7, 0, 0, 0, 0, 0, 0, 0, 0, 0, 0, 49, 3] = some (s', evs) ∧
      s'.Inclination = 0 ∧ (0 < s'.Speed → s'.lastInclination = 0) :=
  C16_no_incline_device sampleWire sampleEnv sampleState
    [2, 81, 3, 100, 7, 0, 0, 0, 0, 0, 0, 0, 0, 0, 0, 49, 3] 3
    (by decide) rfl rfl (Or.inl rfl) (by decide) rfl (by decide) (by decide) (by decide)

/-- C17 (as stated, refuted): an accepted `SYS_STATUS`/`START` frame is outside the
telemetry block, yet decoding it with public speed 5 and incline 2 leaves both as they
were and emits no change notification. -/
theorem C17_start_keeps_speed :
    accepted sampleWire [2, 81, 2, 83, 3] = true ∧
      (characteristicChanged sampleWire sampleEnv
          { sampleState with Speed := 5, Inclination := 2 } [2, 81, 2, 83, 3]).map
          (fun r => (r.1.Speed, r.1.Inclination, r.2))
        = some (5, 2, [Event.packetReceived]) := by
  decide

/-- C17 (amended): for every accepted `SYS_STATUS` frame whose sub-command is none of
`START`, `RUNNING`, `STOP`, `PAUSED`, `END`, the public speed and the public incline are
0 after decoding, and the events are the packet-received signal, then a speed change to
0 exactly when the speed was not 0 before, then an incline change to 0 exactly when the
incline was not 0 before. For the sub-command `START` the public speed and incline are
left as they were and only the packet-received signal is emitted. -/
theorem C17_status_zeroes_speed (K : Wire) (env : Env) (s : State) (v : List Nat) (par : Nat)
    (h : accepted K v = true) (hc : v[1]? = some K.FITSHOW_SYS_STATUS)
    (hp : v[2]? = some par)
    (hi : K.FITSHOW_SYS_STATUS ≠ K.FITSHOW_SYS_INFO)
    (hk : K.FITSHOW_SYS_STATUS ≠ K.FITSHOW_SYS_CONTROL) :
    (par ≠ K.FITSHOW_STATUS_START → par ≠ K.FITSHOW_STATUS_RUNNING →
      par ≠ K.FITSHOW_STATUS_STOP → par ≠ K.FITSHOW_STATUS_PAUSED →
      par ≠ K.FITSHOW_STATUS_END →
      ∃ s', characteristicChanged K env s v
          = some (s', Event.packetReceived ::
              ((if s.Speed ≠ 0 then [Event.speedChanged 0] else [])
                ++ (if s.Inclination ≠ 0 then [Event.inclinationChanged 0 0] else []))) ∧
        s'.Speed = 0 ∧ s'.Inclination = 0) ∧
    (par = K.FITSHOW_STATUS_START →
      ∃ s', characteristicChanged K env s v = some (s', [Event.packetReceived]) ∧
        s'.Speed = s.Speed ∧ s'.Inclination = s.Inclination) := by
  constructor
  · intro hst h1 h2 h3 h4
    obtain ⟨t, _, _, _, hcc⟩ :=
      characteristicChanged_status_other K env s v par h hc hp hi hk hst h1 h2 h3 h4
    exact ⟨_, hcc, rfl, rfl⟩
  · intro hst
    subst hst
    obtain ⟨_, hfl, _⟩ := accepted_facts K v h
    obtain ⟨t, ht, _, hts, hti⟩ := statusStart_spec
      { ({ s with lastPacket := v } : State) with CURRENT_STATUS := K.FITSHOW_STATUS_START }
      v (v.length % 256) hfl
    have hr : decodeSysStatus K env { s with lastPacket := v } (v.drop 1) (v.length % 256)
        (v.length % 256 - 3) K.FITSHOW_STATUS_START = some (t, []) := by
      rw [decodeSysStatus_start, ht]
    exact ⟨t, characteristicChanged_status_eq K env s v _ h hc hp hi hk _ hr, hts, hti⟩

theorem C17_status_zeroes_speed_witness :
    ∃ s', characteristicChanged sampleWire sampleEnv
          { sampleState with Speed := 5, Inclination := 2 } [2, 81, 7, 86, 3]
        = some (s', Event.packetReceived ::
            ((if ({ sampleState with Speed := 5, Inclination := 2 } : State).Speed ≠ 0 then
                [Event.speedChanged 0] else [])
              ++ (if ({ sampleState with Speed := 5, Inclination := 2 } : State).Inclination ≠ 0
                then [Event.inclinationChanged 0 0] else []))) ∧
      s'.Speed = 0 ∧ s'.Inclination = 0 :=
  (C17_status_zeroes_speed sampleWire sampleEnv
    { sampleState with Speed := 5, Inclination := 2 } [2, 81, 7, 86, 3] 7
    (by decide) rfl rfl (by decide) (by decide)).1
    (by decide) (by decide) (by decide) (by decide) (by decide)

/-- C19 (as stated, refuted): the accepted frame `SYS_STATUS` with the unlisted
sub-command 153 changes the status field `CURRENT_STATUS` to 153 and the public speed
from 5 to 0, and emits a speed-changed event. -/
theorem C19_unlisted_status_changes_state :
    accepted sampleWire [2, 81, 153, 200, 3] = true ∧
      (characteristicChanged sampleWire sampleEnv { sampleState with Speed := 5 }
          [2, 81, 153, 200, 3]).map (fun r => (r.1.CURRENT_STATUS, r.1.Speed, r.2))
        = some (153, 0, [Event.packetReceived, Event.speedChanged 0]) := by
  decide

/-- C19 (amended): for every accepted frame whose command is none of `SYS_STATUS`,
`SYS_CONTROL`, and is not `SYS_INFO` or `SYS_DATA` with a listed sub-command, decoding a
frame on a well-formed queue only records the raw packet and emits the packet-received
signal, and removes the head command of the queue when this one starts with the same
two bytes; nothing is enqueued and no other field changes. For `SYS_STATUS` with a
sub-command that is none of the nine listed ones, decoding records the raw packet,
stores the sub-command as current status and sets the public speed and incline to 0,
with a change notification for each one that was not 0; nothing else changes. -/
theorem C19_unknown_combinations (K : Wire) (env : Env) (s : State) (v : List Nat)
    (cmd par : Nat) (cmds : List (List Nat))
    (h : accepted K v = true) (hc : v[1]? = some cmd) (hp : v[2]? = some par)
    (hq : QueueIs s cmds) (hw : ∀ head rest, cmds = head :: rest → 2 ≤ head.length) :
    (cmd ≠ K.FITSHOW_SYS_STATUS → cmd ≠ K.FITSHOW_SYS_CONTROL →
      (cmd = K.FITSHOW_SYS_INFO →
        par ≠ K.FITSHOW_INFO_SPEED ∧ par ≠ K.FITSHOW_INFO_UNKNOWN ∧
          par ≠ K.FITSHOW_INFO_INCLINE ∧ par ≠ K.FITSHOW_INFO_MODEL ∧
          par ≠ K.FITSHOW_INFO_TOTAL ∧ par ≠ K.FITSHOW_INFO_DATE) →
      (cmd = K.FITSHOW_SYS_DATA →
        par ≠ K.FITSHOW_DATA_INFO ∧ par ≠ K.FITSHOW_DATA_SPORT) →
      ∃ s', characteristicChanged K env s v = some (s', [Event.packetReceived]) ∧
        (s' = { s with lastPacket := v } ∨
          (s' = removeFromBuffer { s with lastPacket := v } ∧
            ∃ tl rest, cmds = (cmd :: par :: tl) :: rest))) ∧
    (cmd = K.FITSHOW_SYS_STATUS →
      K.FITSHOW_SYS_STATUS ≠ K.FITSHOW_SYS_INFO →
      K.FITSHOW_SYS_STATUS ≠ K.FITSHOW_SYS_CONTROL →
      par ≠ K.FITSHOW_STATUS_START → par ≠ K.FITSHOW_STATUS_RUNNING →
      par ≠ K.FITSHOW_STATUS_STOP → par ≠ K.FITSHOW_STATUS_PAUSED →
      par ≠ K.FITSHOW_STATUS_END → par ≠ K.FITSHOW_STATUS_NORMAL →
      par ≠ K.FITSHOW_STATUS_STUDY → par ≠ K.FITSHOW_STATUS_ERROR →
      par ≠ K.FITSHOW_STATUS_SAFETY →
      characteristicChanged K env s v
        = some ({ s with lastPacket := v, CURRENT_STATUS := par, Speed := 0, Inclination := 0 },
            Event.packetReceived ::
              ((if s.Speed ≠ 0 then [Event.speedChanged 0] else [])
                ++ (if s.Inclination ≠ 0 then [Event.inclinationChanged 0 0] else [])))) := by
  constructor
  · intro hs hk hinfo hdata
    cases cmds with
    | nil =>
      have hb : ({ s with lastPacket := v } : State).bufferWrite = [] := hq.1
      exact ⟨_, characteristicChanged_unlisted K env s v cmd par h hc hp hs hk hinfo hdata _
        (ackStep_nil K _ cmd par hb), Or.inl rfl⟩
    | cons head rest =>
      have h2 := hw head rest rfl
      match head, h2 with
      | c :: p :: tl, _ =>
        have hq0 : QueueIs { s with lastPacket := v } ((c :: p :: tl) :: rest) := hq
        have hack := ackStep_queue K _ c p cmd par tl rest hq0 hs
        refine ⟨_, characteristicChanged_unlisted K env s v cmd par h hc hp hs hk hinfo hdata _
          hack, ?_⟩
        by_cases hm : c = cmd ∧ p = par
        · rw [if_pos hm]
          exact Or.inr ⟨rfl, tl, rest, by rw [hm.1, hm.2]⟩
        · rw [if_neg hm]
          exact Or.inl rfl
  · intro hcmd hi hk hst h1 h2 h3 h4 h5 h6 h7 h8
    subst hcmd
    obtain ⟨t, ht, _, _, hcc⟩ :=
      characteristicChanged_status_other K env s v par h hc hp hi hk hst h1 h2 h3 h4
    rw [statusOther_unlisted K _ _ _ par h5 h6 h7 h8] at ht
    cases ht
    exact hcc

theorem C19_unknown_combinations_witness :
    ∃ s', characteristicChanged sampleWire sampleEnv sampleState [2, 99, 7, 100, 3]
        = some (s', [Event.packetReceived]) ∧
      (s' = { sampleState with lastPacket := [2, 99, 7, 100, 3] } ∨
        (s' = removeFromBuffer { sampleState with lastPacket := [2, 99, 7, 100, 3] } ∧
          ∃ tl rest, ([] : List (List Nat)) = (99 :: 7 :: tl) :: rest)) :=
  (C19_unknown_combinations sampleWire sampleEnv sampleState [2, 99, 7, 100, 3] 99 7 []
    (by decide) rfl rfl ⟨rfl, rfl⟩ (fun _ _ hn => absurd hn (by simp))).1
    (by decide) (by decide) (fun hn => absurd hn (by decide))
    (fun hn => absurd hn (by decide))

/-! ## The claims on the clamp, the incline chase and the byte order -/

/-- C12 (as stated, refuted): for the `double` 1.45 (a value just below 1.45) with speed
limits 10 and 200, `speed * 10` lies strictly between the limits and rounds half up to
14, but the speed byte of the enqueued command is 15: the binary64 product is 14.5. -/
theorem C12_double_product_rounds_up :
    (((10 : Nat) : ℚ) < double_1_45 * 10 ∧ double_1_45 * 10 < ((200 : Nat) : ℚ)) ∧
      ⌊double_1_45 * 10 + 1 / 2⌋ = 14 ∧
      (forceSpeedOrIncline sampleWire
          { sampleState with MAX_SPEED := 200, MIN_SPEED := 10, MAX_INCLINE := 15 }
          double_1_45 0).bufferWrite = [4, 83, 2, 15, 0] := by
  refine ⟨by unfold double_1_45; norm_num, ?_, ?_⟩
  · rw [Int.floor_eq_iff]
    unfold double_1_45
    norm_num
  · rw [forceSpeedOrIncline_eq_target _ _ _ _ (by decide), targetCommand_double_1_45]
    rfl

/-- C12 (amended): with `MAX_SPEED > 0`, `MIN_SPEED ≤ MAX_SPEED`,
`MIN_INCLINE ≤ MAX_INCLINE` and byte-sized upper limits, `forceSpeedOrIncline` enqueues
one `SYS_CONTROL`/`TARGET_OR_RUN` command whose speed byte lies in
`[MIN_SPEED, MAX_SPEED]` and whose incline byte lies in `[MIN_INCLINE, MAX_INCLINE]`; the
speed byte is `MAX_SPEED` when `speed * 10 ≥ MAX_SPEED` and `MIN_SPEED` when
`speed * 10 ≤ MIN_SPEED`, the incline byte is `MAX_INCLINE` when
`incline ≥ MAX_INCLINE` and `MIN_INCLINE` when `incline ≤ MIN_INCLINE`. In between, the
speed byte is the truncated binary64 sum of the binary64 product `speed * 10` and 0.5;
this is `speed * 10` rounded half up, or one more than that; and the incline byte is
the incline truncated. -/
theorem C12_clamping (K : Wire) (s : State) (speed incline : ℚ)
    (hmax : 0 < s.MAX_SPEED) (hs : s.MIN_SPEED ≤ s.MAX_SPEED)
    (hn : s.MIN_INCLINE ≤ s.MAX_INCLINE) (hsb : s.MAX_SPEED < 256)
    (hnb : s.MAX_INCLINE < 256) :
    ∃ sb ib info,
      forceSpeedOrIncline K s speed incline
        = scheduleWrite s [K.FITSHOW_SYS_CONTROL, K.FITSHOW_CONTROL_TARGET_OR_RUN, sb, ib] info ∧
      s.MIN_SPEED ≤ sb ∧ sb ≤ s.MAX_SPEED ∧ s.MIN_INCLINE ≤ ib ∧ ib ≤ s.MAX_INCLINE ∧
      (speed * 10 ≥ s.MAX_SPEED → sb = s.MAX_SPEED) ∧
      (speed * 10 ≤ s.MIN_SPEED → sb = s.MIN_SPEED) ∧
      (incline ≥ s.MAX_INCLINE → ib = s.MAX_INCLINE) ∧
      (incline ≤ s.MIN_INCLINE → ib = s.MIN_INCLINE) ∧
      ((s.MIN_SPEED : ℚ) < binary64 (speed * 10) → binary64 (speed * 10) < s.MAX_SPEED →
        (sb : ℤ) = ⌊binary64 (binary64 (speed * 10) + 1 / 2)⌋) ∧
      ((s.MIN_SPEED : ℚ) < speed * 10 → speed * 10 < s.MAX_SPEED →
        (sb : ℤ) = ⌊speed * 10 + 1 / 2⌋ ∨ (sb : ℤ) = ⌊speed * 10 + 1 / 2⌋ + 1) ∧
      ((s.MIN_INCLINE : ℚ) < incline → incline < s.MAX_INCLINE →
        (ib : ℤ) = truncQ incline) := by
  obtain ⟨sb, ib, hcmd, hrest⟩ := targetCommand_bytes K s speed incline hmax hs hn hsb hnb
  refine ⟨sb, ib,
    Info.forceSpeedOrIncline (clampSpeed s (binary64 (speed * 10))) (clampIncline s incline),
    ?_, hrest⟩
  rw [forceSpeedOrIncline_eq_target K s speed incline hmax, hcmd]

theorem C12_clamping_witness :
    ∃ sb ib info,
      forceSpeedOrIncline sampleWire
          { sampleState with MAX_SPEED := 200, MIN_SPEED := 10, MAX_INCLINE := 15 } 30 20
        = scheduleWrite
            { sampleState with MAX_SPEED := 200, MIN_SPEED := 10, MAX_INCLINE := 15 }
            [sampleWire.FITSHOW_SYS_CONTROL, sampleWire.FITSHOW_CONTROL_TARGET_OR_RUN, sb, ib]
            info ∧
      10 ≤ sb ∧ sb ≤ 200 ∧ 0 ≤ ib ∧ ib ≤ 15 ∧
      ((30 : ℚ) * 10 ≥ (200 : Nat) → sb = 200) ∧
      ((30 : ℚ) * 10 ≤ (10 : Nat) → sb = 10) ∧
      ((20 : ℚ) ≥ (15 : Nat) → ib = 15) ∧
      ((20 : ℚ) ≤ (0 : Nat) → ib = 0) ∧
      (((10 : Nat) : ℚ) < binary64 ((30 : ℚ) * 10) → binary64 ((30 : ℚ) * 10) < (200 : Nat) →
        (sb : ℤ) = ⌊binary64 (binary64 ((30 : ℚ) * 10) + 1 / 2)⌋) ∧
      (((10 : Nat) : ℚ) < (30 : ℚ) * 10 → (30 : ℚ) * 10 < (200 : Nat) →
        (sb : ℤ) = ⌊(30 : ℚ) * 10 + 1 / 2⌋ ∨ (sb : ℤ) = ⌊(30 : ℚ) * 10 + 1 / 2⌋ + 1) ∧
      (((0 : Nat) : ℚ) < (20 : ℚ) → (20 : ℚ) < (15 : Nat) → (ib : ℤ) = truncQ 20) :=
  C12_clamping sampleWire
    { sampleState with MAX_SPEED := 200, MIN_SPEED := 10, MAX_INCLINE := 15 } 30 20
    (by decide) (by decide) (by decide) (by decide) (by decide)

/-- C21 (as stated, refuted): in anyrun mode the one capability query that `btinit`
enqueues after the user-profile command is `SYS_INFO`/`INFO_UNKNOWN` (bytes 80, 0), not
the speed query `SYS_INFO`/`INFO_SPEED` (bytes 80, 2); and with start-tape while
`MAX_SPEED` is 0 the start-tape command is the last one enqueued: no speed/incline
command follows it. -/
theorem C21_anyrun_query_is_not_speed :
    (btinit sampleWire sampleEnv { sampleState with anyrun := true } false).bufferWrite
        = queueBytes [userProfileCommand sampleWire sampleEnv, [80, 0]] ∧
      ([80, 0] : List Nat) ≠ [sampleWire.FITSHOW_SYS_INFO, sampleWire.FITSHOW_INFO_SPEED] ∧
      (btinit sampleWire sampleEnv sampleState true).bufferWrite
        = (btinit sampleWire sampleEnv sampleState false).bufferWrite
          ++ queueBytes [startTapeCommand sampleWire] := by
  refine ⟨?_, by decide, ?_⟩
  · rw [btinit_queue]
    rfl
  · rw [btinit_start_queue]
    rfl

/-- C21 (amended): `btinit` without start-tape appends to the queue, in this order and
nothing else, in standard mode: the user-profile command without its last byte (7
bytes), the `SYS_INFO`/`MODEL` date command, then the queries `SYS_INFO`/`SPEED`,
`SYS_INFO`/`INCLINE`, `SYS_INFO`/`TOTAL`, `SYS_INFO`/`DATE`; in anyrun mode: the whole
user-profile command (8 bytes), then the one query `SYS_INFO`/`INFO_UNKNOWN`. It changes
nothing but the queue, its labels and `initDone`. With start-tape it appends after
these the start-tape command and then, only when `MAX_SPEED > 0`, one speed/incline
command for the last speed and incline. In every case `initDone` is true afterwards. -/
theorem C21_initialization_order (K : Wire) (env : Env) (s : State) :
    (btinit K env { s with anyrun := false } false).bufferWrite
        = s.bufferWrite
          ++ queueBytes
              [(userProfileCommand K env).take 7, modelDateCommand K env,
                [K.FITSHOW_SYS_INFO, K.FITSHOW_INFO_SPEED],
                [K.FITSHOW_SYS_INFO, K.FITSHOW_INFO_INCLINE],
                [K.FITSHOW_SYS_INFO, K.FITSHOW_INFO_TOTAL],
                [K.FITSHOW_SYS_INFO, K.FITSHOW_INFO_DATE]] ∧
      (btinit K env { s with anyrun := true } false).bufferWrite
        = s.bufferWrite
          ++ queueBytes
              [userProfileCommand K env, [K.FITSHOW_SYS_INFO, K.FITSHOW_INFO_UNKNOWN]] ∧
      ((userProfileCommand K env).take 7).length = 7 ∧
      (userProfileCommand K env).length = 8 ∧
      { btinit K env s false with
          bufferWrite := s.bufferWrite, debugMsgs := s.debugMsgs, initDone := s.initDone } = s ∧
      (btinit K env s false).debugMsgs.length
        = s.debugMsgs.length + (if s.anyrun then 2 else 6) ∧
      (btinit K env s true).bufferWrite
        = (btinit K env s false).bufferWrite
          ++ queueBytes
              (startTapeCommand K ::
                (if s.MAX_SPEED > 0 then [targetCommand K s s.lastSpeed s.lastInclination]
                  else [])) ∧
      (btinit K env s false).initDone = true ∧ (btinit K env s true).initDone = true := by
  refine ⟨?_, ?_, rfl, rfl, btinit_frame K env s, ?_, btinit_start_queue K env s, rfl, rfl⟩
  · rw [btinit_queue]
    rfl
  · rw [btinit_queue]
    rfl
  · rw [btinit_labels]
    cases s.anyrun <;> rfl

/-- C23: the accepted 9-byte `SYS_INFO`/`INFO_UNKNOWN` frame
`[2, 80, 0, 200, 10, 15, 0, 157, 3]` has its checksum 157 at index 7 and its footer 3 at
index 8; decoding it stores the footer as `COUNTDOWN_VALUE` and the checksum as the
heart-capability flag. For the accepted 4-byte status frame `[2, 81, 81, 3]` the
sub-command `par` is the checksum byte at index 2, and it is stored as
`CURRENT_STATUS`. -/
theorem C23_unknown_frame_reads_checksum_and_footer :
    accepted sampleWire [2, 80, 0, 200, 10, 15, 0, 157, 3] = true ∧
      (characteristicChanged sampleWire sampleEnv sampleState
          [2, 80, 0, 200, 10, 15, 0, 157, 3]).map
          (fun r => (r.1.MAX_SPEED, r.1.MIN_SPEED, r.1.MAX_INCLINE, r.1.MIN_INCLINE,
            r.1.IS_HRC, r.1.COUNTDOWN_VALUE))
        = some (200, 10, 15, 0, true, 3) ∧
      accepted sampleWire [2, 81, 81, 3] = true ∧
      (characteristicChanged sampleWire sampleEnv sampleState [2, 81, 81, 3]).map
          (fun r => r.1.CURRENT_STATUS)
        = some 81 := by
  decide

/-- C24 (as stated, refuted): the accepted `SYS_INFO`/`INCLINE` frame
`[2, 80, 3, 15, 1, 93, 3]` has a payload of 4 bytes, fewer than 7, yet decoding it sets
`MAX_INCLINE` to 15 and `MIN_INCLINE` to 1 instead of marking incline unsupported. -/
theorem C24_short_payload_sets_incline :
    accepted sampleWire [2, 80, 3, 15, 1, 93, 3] = true ∧
      (payloadOf [2, 80, 3, 15, 1, 93, 3]).length = 4 ∧
      (characteristicChanged sampleWire sampleEnv sampleState [2, 80, 3, 15, 1, 93, 3]).map
          (fun r => (r.1.MAX_INCLINE, r.1.MIN_INCLINE))
        = some (15, 1) := by
  decide

/-- C24 (amended): for every accepted `SYS_INFO`/`INCLINE` frame decoded on a
well-formed queue, if the frame has fewer than 7 bytes (a payload of fewer than 4
bytes) then `MAX_INCLINE` becomes 0 and `MIN_INCLINE` and `IS_PAUSE` are unchanged;
otherwise `MAX_INCLINE` and `MIN_INCLINE` are set from the payload bytes 2 and 3 (frame
bytes 3 and 4), and `IS_PAUSE` becomes true exactly when the frame has more than 7 bytes
and bit 1 (mask 2) of the payload byte 4 (frame byte 5) is set, and is otherwise left
unchanged. -/
theorem C24_incline_capability (K : Wire) (env : Env) (s : State) (v : List Nat)
    (cmds : List (List Nat))
    (h : accepted K v = true) (hc : v[1]? = some K.FITSHOW_SYS_INFO)
    (hp : v[2]? = some K.FITSHOW_INFO_INCLINE)
    (hq : QueueIs s cmds) (hw : ∀ head rest, cmds = head :: rest → 2 ≤ head.length)
    (hs : K.FITSHOW_SYS_INFO ≠ K.FITSHOW_SYS_STATUS)
    (hd : K.FITSHOW_SYS_INFO ≠ K.FITSHOW_SYS_DATA)
    (h1 : K.FITSHOW_INFO_INCLINE ≠ K.FITSHOW_INFO_SPEED)
    (h2 : K.FITSHOW_INFO_INCLINE ≠ K.FITSHOW_INFO_UNKNOWN) :
    ∃ s' evs, characteristicChanged K env s v = some (s', evs) ∧
      (v.length % 256 < 7 →
        s'.MAX_INCLINE = 0 ∧ s'.MIN_INCLINE = s.MIN_INCLINE ∧ s'.IS_PAUSE = s.IS_PAUSE) ∧
      (7 ≤ v.length % 256 →
        s'.MAX_INCLINE = v.getD 3 0 ∧ s'.MIN_INCLINE = v.getD 4 0 ∧
        s'.IS_PAUSE
          = if 7 < v.length % 256 ∧ v.getD 5 0 &&& 2 ≠ 0 then true else s.IS_PAUSE) := by
  obtain ⟨_, hfl, _⟩ := accepted_facts K v h
  have hq0 : QueueIs { s with lastPacket := v } cmds := hq
  obtain ⟨s1, hack, hs1⟩ := ackStep_total K _ K.FITSHOW_SYS_INFO K.FITSHOW_INFO_INCLINE cmds
    hq0 hw
  have hf : s1.MIN_INCLINE = s.MIN_INCLINE ∧ s1.IS_PAUSE = s.IS_PAUSE := by
    rcases hs1 with hs1 | ⟨hs1, _⟩ <;> rw [hs1] <;> exact ⟨rfl, rfl⟩
  obtain ⟨t, ht, ta, tb⟩ := infoIncline_fields s1 v (v.length % 256) hfl
  have hdec : decodeSysInfo K s1 v (v.length % 256) K.FITSHOW_INFO_INCLINE = some t := by
    unfold decodeSysInfo
    rw [if_neg h1, if_neg h2, if_pos rfl]
    exact ht
  refine ⟨t, _, characteristicChanged_info K env s v _ h hc hp hs hd s1 t hack hdec, ?_, ?_⟩
  · intro h7
    rw [ta h7]
    exact ⟨rfl, hf.1, hf.2⟩
  · intro h7
    rw [tb h7, ← hf.2]
    exact ⟨rfl, rfl, rfl⟩

theorem C24_incline_capability_witness :
    ∃ s' evs,
      characteristicChanged sampleWire sampleEnv sampleState [2, 80, 3, 15, 1, 2, 95, 3]
        = some (s', evs) ∧
      (([2, 80, 3, 15, 1, 2, 95, 3] : List Nat).length % 256 < 7 →
        s'.MAX_INCLINE = 0 ∧ s'.MIN_INCLINE = sampleState.MIN_INCLINE ∧
          s'.IS_PAUSE = sampleState.IS_PAUSE) ∧
      (7 ≤ ([2, 80, 3, 15, 1, 2, 95, 3] : List Nat).length % 256 →
        s'.MAX_INCLINE = ([2, 80, 3, 15, 1, 2, 95, 3] : List Nat).getD 3 0 ∧
        s'.MIN_INCLINE = ([2, 80, 3, 15, 1, 2, 95, 3] : List Nat).getD 4 0 ∧
        s'.IS_PAUSE
          = if 7 < ([2, 80, 3, 15, 1, 2, 95, 3] : List Nat).length % 256 ∧
              ([2, 80, 3, 15, 1, 2, 95, 3] : List Nat).getD 5 0 &&& 2 ≠ 0 then true
            else sampleState.IS_PAUSE) :=
  C24_incline_capability sampleWire sampleEnv sampleState [2, 80, 3, 15, 1, 2, 95, 3] []
    (by decide) rfl rfl ⟨rfl, rfl⟩ (fun _ _ hn => absurd hn (by simp))
    (by decide) (by decide) (by decide) (by decide)

/-- C28: for every value that `checkIncomingPacket` accepts, in either mode, decoded on
a well-formed queue, `characteristicChanged` returns a state and events: no read of the
frame made while dispatching and decoding falls outside the frame. -/
theorem C28_decoding_reads_inside_frame (K : Wire) (env : Env) (s : State) (v : List Nat)
    (cmds : List (List Nat)) (h : accepted K v = true) (hq : QueueIs s cmds)
    (hw : ∀ head rest, cmds = head :: rest → 2 ≤ head.length) :
    4 ≤ v.length % 256 ∧ v.length % 256 ≤ v.length ∧
      ∃ s' evs, characteristicChanged K env s v = some (s', evs) := by
  obtain ⟨h4, hfl, cmd, par, hc, hp⟩ := accepted_facts K v h
  refine ⟨h4, hfl, ?_⟩
  by_cases hs : cmd = K.FITSHOW_SYS_STATUS
  · subst hs
    obtain ⟨s', evs, hcc, _⟩ := characteristicChanged_status_grows K env s v par h hc hp
    exact ⟨s', evs, hcc⟩
  · have hq0 : QueueIs { s with lastPacket := v } cmds := hq
    obtain ⟨s1, hack, _⟩ := ackStep_total K _ cmd par cmds hq0 hw
    obtain ⟨s', evs, hcc, _⟩ := characteristicChanged_of_ack K env s v cmd par h hc hp hs s1 hack
    exact ⟨s', evs, hcc⟩

theorem C28_decoding_reads_inside_frame_witness :
    4 ≤ ([2, 80, 0, 200, 10, 15, 0, 157, 3] : List Nat).length % 256 ∧
      ([2, 80, 0, 200, 10, 15, 0, 157, 3] : List Nat).length % 256
        ≤ ([2, 80, 0, 200, 10, 15, 0, 157, 3] : List Nat).length ∧
      ∃ s' evs,
        characteristicChanged sampleWire sampleEnv sampleState
          [2, 80, 0, 200, 10, 15, 0, 157, 3] = some (s', evs) :=
  C28_decoding_reads_inside_frame sampleWire sampleEnv sampleState
    [2, 80, 0, 200, 10, 15, 0, 157, 3] [] (by decide) ⟨rfl, rfl⟩
    (fun _ _ hn => absurd hn (by simp))

/-! ## The claims on the reconciler, the retry counter and the queue over time -/

/-- C22: starting from retry counter 0 with the commands `cmds` of 2 to 22 bytes queued,
in the ready state with no intent pending, `6 * cmds.length + 1` consecutive ticks
during which nothing else happens return a state whose queue is empty and whose retry
counter is 0; the frames transmitted during these ticks are, in the order of the queue,
the frame of each command three times, followed by one status poll sent by the last
tick. -/
theorem C22_queue_drains (K : Wire) (envs : List Env) (s : State) (cmds : List (List Nat))
    (hready : ∀ e ∈ envs, e.ready) (hlen : envs.length = 6 * cmds.length + 1)
    (hi : s.initRequest = false) (hd : s.initDone = true)
    (hint : intents s = (-1, -1, -1, -1)) (hq : QueueIs s cmds) (hw : WellSized cmds)
    (hr : s.retrySend = 0) :
    ∃ s' evs, ticks K envs s = some (s', evs) ∧
      s'.bufferWrite = [] ∧ s'.debugMsgs = [] ∧ s'.retrySend = 0 ∧
      transmitted evs
        = cmds.flatMap (fun c => [frameOf K c, frameOf K c, frameOf K c])
          ++ [frameOf K [K.FITSHOW_SYS_STATUS]] := by
  obtain ⟨s', evs, ht, hq', hr', htx⟩ :=
    ticks_idle K envs s cmds hready hi hd hint hq hw (by omega) (fun _ => hr)
  rw [hlen, hr, abstractTicks_drain K cmds (fun c hc => (hw c hc).2)] at hq' hr' htx
  refine ⟨s', evs, ht, hq'.1, ?_, hr', htx⟩
  exact List.length_eq_zero.mp hq'.2

theorem C22_queue_drains_witness :
    ∃ s' evs,
      ticks sampleWire (List.replicate 13 sampleEnv)
          { sampleState with
            bufferWrite := queueBytes [[83, 3], [83, 6]]
            debugMsgs := [Info.stop_tape, Info.pause_tape] } = some (s', evs) ∧
      s'.bufferWrite = [] ∧ s'.debugMsgs = [] ∧ s'.retrySend = 0 ∧
      transmitted evs
        = ([[83, 3], [83, 6]] : List (List Nat)).flatMap
            (fun c => [frameOf sampleWire c, frameOf sampleWire c, frameOf sampleWire c])
          ++ [frameOf sampleWire [sampleWire.FITSHOW_SYS_STATUS]] :=
  C22_queue_drains sampleWire (List.replicate 13 sampleEnv) _ [[83, 3], [83, 6]]
    (fun e he => by rw [List.eq_of_mem_replicate he]; exact ⟨rfl, rfl⟩) rfl rfl rfl rfl
    ⟨rfl, rfl⟩
    (fun c hc => by
      simp only [List.mem_cons, List.mem_singleton, List.not_mem_nil, or_false] at hc
      rcases hc with rfl | rfl <;> exact ⟨by decide, by decide⟩)
    rfl

/-- C26: in every state reachable from a state with an empty queue and retry counter 0
(by enqueues of commands of 2 to 22 bytes, ticks, notified values, and changes from
outside that leave the queue and the counter alone), the retry counter is at most 6 and
an empty queue implies a retry counter of 0. Consequently, when the counter has reached
6 the queue holds at least 3 bytes (the length byte and two command bytes), and the
retry-exhaustion step of a tick, which reads the offsets 1 and 2 for its diagnostic,
returns: it removes the head command and emits the diagnostic. -/
theorem C26_retry_counter_invariant (K : Wire) (env : Env) (s : State)
    (h : Reachable K s) :
    s.retrySend ≤ 6 ∧ (s.bufferWrite = [] → s.retrySend = 0) ∧
      (6 ≤ s.retrySend →
        3 ≤ s.bufferWrite.length ∧
        ∃ c p info, retryExhaustion (reconcile K env s).1
          = some (removeFromBuffer (reconcile K env s).1,
              [Event.answerNotReceived c p info])) := by
  obtain ⟨cmds, hq, hw, h6, h0⟩ := reachable_queueInv K s h
  refine ⟨h6, fun hb => h0 ((queueBytes_eq_nil cmds).mp (by rw [← hq.1]; exact hb)), ?_⟩
  intro hge
  obtain ⟨head, rest, hc, h2⟩ := queueInv_head hw h0 hge
  subst hc
  obtain ⟨added, hen, _⟩ := grows_reconcile K env s
  have hq1 := enqueued_queueIs hen hq
  constructor
  · rw [hq.1]
    simp only [queueBytes, List.length_cons, List.length_append]
    omega
  · exact retryExhaustion_ge _ head (rest ++ added) hq1 h2 (by rw [hen.2.2.1]; exact hge)

theorem C26_retry_counter_invariant_witness :
    (scheduleWrite sampleState [83, 3] Info.stop_tape).retrySend ≤ 6 ∧
      ((scheduleWrite sampleState [83, 3] Info.stop_tape).bufferWrite = [] →
        (scheduleWrite sampleState [83, 3] Info.stop_tape).retrySend = 0) ∧
      (6 ≤ (scheduleWrite sampleState [83, 3] Info.stop_tape).retrySend →
        3 ≤ (scheduleWrite sampleState [83, 3] Info.stop_tape).bufferWrite.length ∧
        ∃ c p info,
          retryExhaustion
              (reconcile sampleWire sampleEnv
                (scheduleWrite sampleState [83, 3] Info.stop_tape)).1
            = some
                (removeFromBuffer
                  (reconcile sampleWire sampleEnv
                    (scheduleWrite sampleState [83, 3] Info.stop_tape)).1,
                  [Event.answerNotReceived c p info])) :=
  C26_retry_counter_invariant sampleWire sampleEnv _
    (Reachable.enqueue sampleState [83, 3] Info.stop_tape
      (Reachable.init sampleState rfl rfl rfl) (by decide) (by decide))

/-- C27: each enqueue site of the program (`btinit`, `forceSpeedOrIncline`, the
stop-or-pause block of `update`, `sendSportData`) only appends commands of at least 2
and at most 22 bytes to the queue. Consequently, in every reachable state the queue is
a list of whole commands of 2 to 22 bytes, so its head command, if any, starts with a
`cmd` and a `par` byte, its length fits the one-byte length prefix, and `writePayload`
succeeds on it and produces its frame. -/
theorem C27_command_sizes (K : Wire) (env : Env) (s : State) (startTape : Bool)
    (speed incline : ℚ) :
    Grows s (btinit K env s startTape) ∧
      Grows s (forceSpeedOrIncline K s speed incline) ∧
      Grows s (reconcileStop K env s) ∧
      Grows s (sendSportData K s) ∧
      (Reachable K s →
        ∃ cmds, QueueIs s cmds ∧ WellSized cmds ∧
          ∀ head rest, cmds = head :: rest →
            (∃ c p tl, head = c :: p :: tl) ∧ head.length < 256 ∧
              writePayload K head = (true, [frameOf K head])) := by
  refine ⟨grows_btinit K env (grows_refl s) startTape,
    grows_forceSpeedOrIncline K (grows_refl s) speed incline,
    grows_reconcileStop K env (grows_refl s), grows_sendSportData K (grows_refl s), ?_⟩
  intro h
  obtain ⟨cmds, hq, hw, _, _⟩ := reachable_queueInv K s h
  refine ⟨cmds, hq, hw, fun head rest hc => ?_⟩
  obtain ⟨h2, h22⟩ := hw head (by rw [hc]; exact List.mem_cons_self _ _)
  refine ⟨?_, by omega, writePayload_frame K head h22⟩
  match head, h2 with
  | c :: p :: tl, _ => exact ⟨c, p, tl, rfl⟩

theorem C27_command_sizes_witness :
    ∃ cmds, QueueIs (scheduleWrite sampleState [83, 3] Info.stop_tape) cmds ∧
      WellSized cmds ∧
      ∀ head rest, cmds = head :: rest →
        (∃ c p tl, head = c :: p :: tl) ∧ head.length < 256 ∧
          writePayload sampleWire head = (true, [frameOf sampleWire head]) :=
  (C27_command_sizes sampleWire sampleEnv (scheduleWrite sampleState [83, 3] Info.stop_tape)
    false 0 0).2.2.2.2
    (Reachable.enqueue sampleState [83, 3] Info.stop_tape
      (Reachable.init sampleState rfl rfl rfl) (by decide) (by decide))

end Fitshow
